import Mathlib

/-!
# Sprite pool, tile lookup and actor logic of `src/Final/trex.c`

A shallow embedding of the game logic of the Game Boy Advance demo and the
properties of it that its specification states.

Conventions of the embedding.

* A C `int` is a Lean `Int`.  Signed overflow of `+` and `-` is undefined
  behaviour in C, so the embedding describes the executions in which no sum
  leaves the range of the 32-bit type, and the statements that run an
  unbounded number of additions bound the number of steps accordingly;
  `a >> k` is the arithmetic shift (`Int.shiftRight`, floor division by
  `2 ^ k`), and `&`, `|`, `~` are the two's complement operations `Int.land`,
  `Int.lor`, `Int.lnot`.
* `a << k` is multiplication by `2 ^ k` (`shl`) where the operand is a constant
  or the result is only stored into a 16-bit word; in `check`, which shifts an
  arbitrary position and compares the full result, it is the shift of the
  32-bit pattern (`shl32`), which drops the bits above bit 31.
* An `unsigned short` is a `Nat`; every store into one reduces the stored
  `int` value modulo `2 ^ 16` (`toU16`).
* The global sprite table is a map from slot index to `Sprite`; a
  `struct Sprite*` is the index of the slot it points to.  The table of the
  program has the slots `0 .. NUM_SPRITES - 1`; the entries of the map at other
  indices stand for the memory around the table.  A store there is outside the
  array in the source, where C defines no behaviour, so the statements about
  allocation describe stores into slots of the table only.
* The `while` loops of `tile_lookup` take a bound on the number of iterations
  (`fuel`) and yield `none` when it does not suffice.
* The tile map `mapBack` and its dimensions come from a header that is not part
  of the sources; the functions that use them take them as parameters.
-/

namespace Trex

/-! ## Constants and machine integers -/

def SCREEN_WIDTH : Int := 240

def SCREEN_HEIGHT : Int := 160

/-- Number of hardware sprites: `#define NUM_SPRITES 128`. -/
def NUM_SPRITES : Nat := 128

/-- Conversion of an `int` value to `unsigned short`. -/
def toU16 (z : Int) : Nat := (z % 65536).toNat

/-- The C expression `a << k` on `int`, where the result fits the type. -/
def shl (a : Int) (k : Nat) : Int := a * 2 ^ k

/-- The value of the 32-bit two's complement `int` with the bit pattern of `z`
modulo `2 ^ 32`. -/
def wrap_int32 (z : Int) : Int := (z + 2147483648) % 4294967296 - 2147483648

/-- The C expression `a << k` on a 32-bit `int` as the machine computes it: the
bit pattern is shifted and the bits above bit 31 are dropped. -/
def shl32 (a : Int) (k : Nat) : Int := wrap_int32 (a * 2 ^ k)

/-- The C expression `a >> k` on `int` (arithmetic shift). -/
def shr (a : Int) (k : Nat) : Int := Int.shiftRight a k

/-! ## Sprites -/

/-- The four attribute words of a hardware sprite (`struct Sprite`). -/
structure Sprite where
  attribute0 : Nat
  attribute1 : Nat
  attribute2 : Nat
  attribute3 : Nat
deriving DecidableEq

/-- The globals `sprites` and `next_sprite_index`.  The array `sprites` has
the slots `0 .. NUM_SPRITES - 1`; the values of the map elsewhere are not part
of the table. -/
structure Pool where
  sprites : Int → Sprite
  next_sprite_index : Int

/-- Store `s` through the sprite pointer `i`. -/
def Pool.store (p : Pool) (i : Int) (s : Sprite) : Pool :=
  { p with sprites := Function.update p.sprites i s }

inductive SpriteSize where
  | SIZE_8_8
  | SIZE_16_16
  | SIZE_32_32
  | SIZE_64_64
  | SIZE_16_8
  | SIZE_32_8
  | SIZE_32_16
  | SIZE_64_32
  | SIZE_8_16
  | SIZE_8_32
  | SIZE_16_32
  | SIZE_32_64
deriving DecidableEq

/-- The `switch` of `sprite_init`: the pair `(size_bits, shape_bits)`. -/
def size_shape_bits : SpriteSize → Int × Int
  | .SIZE_8_8 => (0, 0)
  | .SIZE_16_16 => (1, 0)
  | .SIZE_32_32 => (2, 0)
  | .SIZE_64_64 => (3, 0)
  | .SIZE_16_8 => (0, 1)
  | .SIZE_32_8 => (1, 1)
  | .SIZE_32_16 => (2, 1)
  | .SIZE_64_32 => (3, 1)
  | .SIZE_8_16 => (0, 2)
  | .SIZE_8_32 => (1, 2)
  | .SIZE_16_32 => (2, 2)
  | .SIZE_32_64 => (3, 2)

/-- Function `sprite_init`: takes the slot `next_sprite_index`, advances the
counter, writes the first three attribute words of the slot and returns the
pointer to it.  There is no test of the index against `NUM_SPRITES`: when the
index is not one of `0 .. NUM_SPRITES - 1` the stores go through a pointer
outside the table, and the pool returned here does not describe what the
program does then. -/
def sprite_init (p : Pool) (x y : Int) (size : SpriteSize)
    (horizontal_flip vertical_flip tile_index priority : Int) : Pool × Int :=
  let index := p.next_sprite_index
  let p := { p with next_sprite_index := p.next_sprite_index + 1 }
  let size_bits := (size_shape_bits size).1
  let shape_bits := (size_shape_bits size).2
  let h : Int := if horizontal_flip ≠ 0 then 1 else 0
  let v : Int := if vertical_flip ≠ 0 then 1 else 0
  let a0 : Int :=
    Int.lor (Int.lor (Int.lor (Int.lor (Int.lor y (shl 0 8)) (shl 0 10)) (shl 0 12))
      (shl 1 13)) (shl shape_bits 14)
  let a1 : Int :=
    Int.lor (Int.lor (Int.lor (Int.lor x (shl 0 9)) (shl h 12)) (shl v 13))
      (shl size_bits 14)
  let a2 : Int := Int.lor (Int.lor tile_index (shl priority 10)) (shl 0 12)
  let s := p.sprites index
  let s := { s with attribute0 := toU16 a0 }
  let s := { s with attribute1 := toU16 a1 }
  let s := { s with attribute2 := toU16 a2 }
  (p.store index s, index)

/-- Function `sprite_clear`: resets the counter and moves the slots
`0 .. NUM_SPRITES - 1` off screen. -/
def sprite_clear (p : Pool) : Pool :=
  let p := { p with next_sprite_index := 0 }
  (List.range NUM_SPRITES).foldl
    (fun (q : Pool) (i : Nat) =>
      let q := q.store (i : Int) { q.sprites (i : Int) with attribute0 := toU16 SCREEN_HEIGHT }
      q.store (i : Int) { q.sprites (i : Int) with attribute1 := toU16 SCREEN_WIDTH })
    p

/-- Function `sprite_position` on the sprite itself. -/
def sprite_position (s : Sprite) (x y : Int) : Sprite :=
  let s := { s with attribute0 := toU16 (Int.land s.attribute0 0xff00) }
  let s := { s with attribute0 := toU16 (Int.lor s.attribute0 (Int.land y 0xff)) }
  let s := { s with attribute1 := toU16 (Int.land s.attribute1 0xfe00) }
  { s with attribute1 := toU16 (Int.lor s.attribute1 (Int.land x 0x1ff)) }

/-- Function `sprite_move`. -/
def sprite_move (s : Sprite) (dx dy : Int) : Sprite :=
  let y := Int.land s.attribute0 0xff
  let x := Int.land s.attribute1 0x1ff
  sprite_position s (x + dx) (y + dy)

/-- Function `sprite_set_vertical_flip`. -/
def sprite_set_vertical_flip (s : Sprite) (vertical_flip : Int) : Sprite :=
  if vertical_flip ≠ 0 then
    { s with attribute1 := toU16 (Int.lor s.attribute1 0x2000) }
  else
    { s with attribute1 := toU16 (Int.land s.attribute1 0xdfff) }

/-- Function `sprite_set_horizontal_flip`. -/
def sprite_set_horizontal_flip (s : Sprite) (horizontal_flip : Int) : Sprite :=
  if horizontal_flip ≠ 0 then
    { s with attribute1 := toU16 (Int.lor s.attribute1 0x1000) }
  else
    { s with attribute1 := toU16 (Int.land s.attribute1 0xefff) }

/-- Function `sprite_set_offset`. -/
def sprite_set_offset (s : Sprite) (offset : Int) : Sprite :=
  let s := { s with attribute2 := toU16 (Int.land s.attribute2 0xfc00) }
  { s with attribute2 := toU16 (Int.lor s.attribute2 (Int.land offset 0x03ff)) }

/-- Apply a sprite function through the sprite pointer `i`. -/
def Pool.update (p : Pool) (i : Int) (f : Sprite → Sprite) : Pool :=
  p.store i (f (p.sprites i))

/-! ## Actors -/

/-- The primary actor (`struct Koopa`); `sprite` is the pointer to its slot. -/
structure Koopa where
  sprite : Int
  x : Int
  y : Int
  yvel : Int
  gravity : Int
  frame : Int
  animation_delay : Int
  counter : Int
  move : Int
  border : Int
  falling : Int
deriving DecidableEq

/-- The secondary actor (`struct Koopa2`). -/
structure Koopa2 where
  sprite : Int
  x : Int
  y : Int
  yvel : Int
  gravity : Int
  frame : Int
  animation_delay : Int
  counter : Int
  move : Int
  border : Int
  falling : Int
deriving DecidableEq

/-- Function `koopa_init`; the previous contents of the struct do not matter. -/
def koopa_init (p : Pool) : Pool × Koopa :=
  let x := shl 100 8
  let y := shl 113 8
  let frame := 0
  let r := sprite_init p (shr x 8) (shr y 8) .SIZE_16_32 0 0 frame 0
  (r.1, { sprite := r.2, x := x, y := y, yvel := 0, gravity := 90, border := 70,
          frame := frame, move := 0, counter := 0, falling := 20,
          animation_delay := 6 })

/-- Function `koopa2_init`. -/
def koopa2_init (p : Pool) : Pool × Koopa2 :=
  let x := shl 100 8
  let y := shl 113 8
  let frame := 0
  let r := sprite_init p (shr x 8) (shr y 8) .SIZE_16_32 0 0 frame 0
  (r.1, { sprite := r.2, x := x, y := y, yvel := 0, gravity := 50, border := -10,
          frame := frame, move := 3, counter := 0, falling := 0,
          animation_delay := 6 })

/-- Function `koopa_left`: the new pool, the new actor and the return value. -/
def koopa_left (p : Pool) (koopa : Koopa) : Pool × Koopa × Int :=
  let p := p.update koopa.sprite (fun s => sprite_set_horizontal_flip s 1)
  let koopa := { koopa with move := 1 }
  if shr koopa.x 8 < koopa.border then
    (p, koopa, 1)
  else
    (p, { koopa with x := koopa.x - 256 }, 0)

/-- Function `koopa2_left`. -/
def koopa2_left (p : Pool) (koopa2 : Koopa2) (num : Int) : Pool × Koopa2 × Int :=
  let p := p.update koopa2.sprite (fun s => sprite_set_horizontal_flip s 1)
  let koopa2 := { koopa2 with move := 1 + num }
  if shr koopa2.x 8 = koopa2.border then
    (p, { koopa2 with x := shl 100 9 }, 0)
  else
    (p, { koopa2 with x := koopa2.x - 256 }, 0)

/-- Function `koopa_right`. -/
def koopa_right (p : Pool) (koopa : Koopa) : Pool × Koopa × Int :=
  let p := p.update koopa.sprite (fun s => sprite_set_horizontal_flip s 0)
  let koopa := { koopa with move := 1 }
  if shr koopa.x 8 > SCREEN_WIDTH - 16 - koopa.border then
    (p, koopa, 1)
  else
    (p, { koopa with x := koopa.x + 256 }, 0)

/-- Function `koopa2_right`. -/
def koopa2_right (p : Pool) (koopa2 : Koopa2) : Pool × Koopa2 × Int :=
  let p := p.update koopa2.sprite (fun s => sprite_set_horizontal_flip s 0)
  let koopa2 := { koopa2 with move := 1 }
  if shr koopa2.x 8 > SCREEN_WIDTH - 16 - koopa2.border then
    (p, koopa2, 1)
  else
    (p, { koopa2 with x := koopa2.x + 256 }, 0)

/-- Function `koopa_stop`. -/
def koopa_stop (p : Pool) (koopa : Koopa) : Pool × Koopa :=
  let koopa := { koopa with move := 0, frame := 0, counter := 7 }
  (p.update koopa.sprite (fun s => sprite_set_offset s koopa.frame), koopa)

/-- Function `koopa2_stop`. -/
def koopa2_stop (p : Pool) (koopa2 : Koopa2) : Pool × Koopa2 :=
  let koopa2 := { koopa2 with move := 0, frame := 0, counter := 7 }
  (p.update koopa2.sprite (fun s => sprite_set_offset s koopa2.frame), koopa2)

/-- Function `koopa_jump`. -/
def koopa_jump (koopa : Koopa) : Koopa :=
  if koopa.falling = 0 then
    { koopa with yvel := -1500, falling := 1 }
  else
    koopa

/-- Function `koopa2_jump` (its parameter is a `struct Koopa*`). -/
def koopa2_jump (koopa : Koopa) : Koopa :=
  if koopa.falling = 0 then
    { koopa with yvel := -1500, falling := 1 }
  else
    koopa

/-! ## Tile lookup -/

/-- The loop `while (x >= w) x -= w;` run for at most `fuel` iterations. -/
def wrap_down : Nat → Int → Int → Option Int
  | 0, x, w => if x ≥ w then none else some x
  | fuel + 1, x, w => if x ≥ w then wrap_down fuel (x - w) w else some x

/-- The loop `while (x < 0) x += w;` run for at most `fuel` iterations. -/
def wrap_up : Nat → Int → Int → Option Int
  | 0, x, _ => if x < 0 then none else some x
  | fuel + 1, x, w => if x < 0 then wrap_up fuel (x + w) w else some x

/-- Function `tile_lookup`; each of the four loops may run `fuel` times. -/
def tile_lookup (fuel : Nat) (x y xscroll yscroll : Int) (tilemap : Int → Nat)
    (tilemap_w tilemap_h : Int) : Option Nat :=
  let x := x + xscroll
  let y := y + yscroll
  let x := shr x 3
  let y := shr y 3
  match wrap_down fuel x tilemap_w with
  | none => none
  | some x =>
    match wrap_down fuel y tilemap_h with
    | none => none
    | some y =>
      match wrap_up fuel x tilemap_w with
      | none => none
      | some x =>
        match wrap_up fuel y tilemap_h with
        | none => none
        | some y =>
          let index := y * tilemap_w + x
          some (tilemap index)

/-! ## Per-frame update -/

/-- Function `koopa_update`, with the tile map `mapBack` and its dimensions as
parameters.  The second probe `tile2` is computed and not used. -/
def koopa_update (fuel : Nat) (mapBack : Int → Nat) (mapBack_width mapBack_height : Int)
    (p : Pool) (koopa : Koopa) (koopa2 : Koopa2) (xscroll : Int) : Option (Pool × Koopa) :=
  let koopa :=
    if koopa.falling ≠ 0 then
      { koopa with y := koopa.y + koopa.yvel, yvel := koopa.yvel + koopa.gravity }
    else koopa
  match tile_lookup fuel (shr koopa.x 8 + 8) (shr koopa.y 8 + 32) xscroll 0
      mapBack mapBack_width mapBack_height with
  | none => none
  | some tile =>
    match tile_lookup fuel (shr koopa2.x 8 + 8) (shr koopa2.y 8 + 32) xscroll 0
        mapBack mapBack_width mapBack_height with
    | none => none
    | some _ =>
      let koopa :=
        if tile > 510 then
          { koopa with falling := 0, yvel := 0,
                       y := Int.land koopa.y (Int.lnot 0x7ff) + 1 }
        else
          { koopa with falling := 1 }
      let r : Pool × Koopa :=
        if koopa.move ≠ 0 then
          let koopa := { koopa with counter := koopa.counter + 1 }
          if koopa.counter ≥ koopa.animation_delay then
            let koopa := { koopa with frame := koopa.frame + 16 }
            let koopa : Koopa := if koopa.frame > 16 then { koopa with frame := 0 } else koopa
            (p.update koopa.sprite (fun s => sprite_set_offset s koopa.frame),
              { koopa with counter := 0 })
          else (p, koopa)
        else (p, koopa)
      some (r.1.update r.2.sprite (fun s => sprite_position s (shr r.2.x 8) (shr r.2.y 8)),
        r.2)

/-- Function `koopa2_update`.  The tile is probed at the position of `koopa`. -/
def koopa2_update (fuel : Nat) (mapBack : Int → Nat) (mapBack_width mapBack_height : Int)
    (p : Pool) (koopa : Koopa) (koopa2 : Koopa2) (xscroll : Int) : Option (Pool × Koopa2) :=
  let koopa2 :=
    if koopa2.falling ≠ 0 then
      { koopa2 with y := koopa2.y + koopa2.yvel, yvel := koopa2.yvel + koopa2.gravity }
    else koopa2
  match tile_lookup fuel (shr koopa.x 8 + 8) (shr koopa.y 8 + 32) xscroll 0
      mapBack mapBack_width mapBack_height with
  | none => none
  | some tile =>
    let koopa2 :=
      if (tile ≥ 1 ∧ tile ≤ 6) ∨ (tile ≥ 12 ∧ tile ≤ 17) ∨ tile ≤ 0x022b then
        { koopa2 with falling := 0, yvel := 0,
                      y := Int.land koopa2.y (Int.lnot 0x7ff) + 1 }
      else
        { koopa2 with falling := 1 }
    let r : Pool × Koopa2 :=
      if koopa2.move ≠ 0 then
        let koopa2 := { koopa2 with counter := koopa2.counter + 1 }
        if koopa2.counter ≥ koopa2.animation_delay then
          let koopa2 := { koopa2 with frame := koopa2.frame + 16 }
          let koopa2 : Koopa2 := if koopa2.frame > 16 then { koopa2 with frame := 0 } else koopa2
          (p.update koopa2.sprite (fun s => sprite_set_offset s koopa2.frame),
            { koopa2 with counter := 0 })
        else (p, koopa2)
      else (p, koopa2)
    some (r.1.update r.2.sprite (fun s => sprite_position s (shr r.2.x 8) (shr r.2.y 8)),
      r.2)

/-- Function `check`.  The two `x` are arbitrary `int` values, so the shifts
are taken on the 32-bit `int` (`shl32`): each drops the top 8 bits of its
operand before the comparison. -/
def check (koopa : Koopa) (koopa2 : Koopa2) : Int :=
  let wall := shl32 koopa.x 8
  let wall2 := shl32 koopa2.x 8
  if wall = wall2 ∧ koopa.y = koopa2.y then 1 else 0

/-! ## Call sequences -/

/-- The arguments of one call of `sprite_init`. -/
structure InitArgs where
  x : Int
  y : Int
  size : SpriteSize
  horizontal_flip : Int
  vertical_flip : Int
  tile_index : Int
  priority : Int

/-- Consecutive calls of `sprite_init`, one per element of the list: the final
pool and the pointers returned, in call order. -/
def sprite_init_all (p : Pool) : List InitArgs → Pool × List Int
  | [] => (p, [])
  | a :: rest =>
    let r := sprite_init p a.x a.y a.size a.horizontal_flip a.vertical_flip a.tile_index
      a.priority
    let r2 := sprite_init_all r.1 rest
    (r2.1, r.2 :: r2.2)

/-- Consecutive calls of `koopa_update`, one per element of `frames` (the state
of the secondary actor and the scroll at that call): the pool and the actor
after each call, in call order. -/
def koopa_update_all (fuel : Nat) (mapBack : Int → Nat) (mapBack_width mapBack_height : Int)
    (p : Pool) (koopa : Koopa) : List (Koopa2 × Int) → Option (List (Pool × Koopa))
  | [] => some []
  | f :: rest =>
    match koopa_update fuel mapBack mapBack_width mapBack_height p koopa f.1 f.2 with
    | none => none
    | some r =>
      match koopa_update_all fuel mapBack mapBack_width mapBack_height r.1 r.2 rest with
      | none => none
      | some t => some (r :: t)

/-- Consecutive calls of `koopa2_update`, one per element of `frames` (the state
of the primary actor and the scroll at that call). -/
def koopa2_update_all (fuel : Nat) (mapBack : Int → Nat) (mapBack_width mapBack_height : Int)
    (p : Pool) (koopa2 : Koopa2) : List (Koopa × Int) → Option (List (Pool × Koopa2))
  | [] => some []
  | f :: rest =>
    match koopa2_update fuel mapBack mapBack_width mapBack_height p f.1 koopa2 f.2 with
    | none => none
    | some r =>
      match koopa2_update_all fuel mapBack mapBack_width mapBack_height r.1 r.2 rest with
      | none => none
      | some t => some (r :: t)

/-! ## The three blocks of `koopa_update` on the actor

The lemma `koopa_update_of_probe` shows that `koopa_update` is their
composition. -/

/-- The block `if (koopa->falling) { ... }`. -/
def Koopa.integrate (k : Koopa) : Koopa :=
  if k.falling ≠ 0 then { k with y := k.y + k.yvel, yvel := k.yvel + k.gravity } else k

/-- The block `if ((tile>510)) { ... } else { ... }`. -/
def Koopa.ground (k : Koopa) (tile : Nat) : Koopa :=
  if tile > 510 then
    { k with falling := 0, yvel := 0, y := Int.land k.y (Int.lnot 0x7ff) + 1 }
  else
    { k with falling := 1 }

/-- The block `if (koopa->move) { ... }`, on the actor. -/
def Koopa.animate (k : Koopa) : Koopa :=
  if k.move ≠ 0 then
    if k.counter + 1 ≥ k.animation_delay then
      { k with counter := 0, frame := if k.frame + 16 > 16 then 0 else k.frame + 16 }
    else
      { k with counter := k.counter + 1 }
  else k

/-! ## The three blocks of `koopa2_update` on the actor

The lemma `koopa2_update_of_probe` shows that `koopa2_update` is their
composition. -/

/-- The block `if (koopa2->falling) { ... }`. -/
def Koopa2.integrate (k : Koopa2) : Koopa2 :=
  if k.falling ≠ 0 then { k with y := k.y + k.yvel, yvel := k.yvel + k.gravity } else k

/-- The block `if ((tile >= 1 && tile <= 6) || ...) { ... } else { ... }`. -/
def Koopa2.ground (k : Koopa2) (tile : Nat) : Koopa2 :=
  if (tile ≥ 1 ∧ tile ≤ 6) ∨ (tile ≥ 12 ∧ tile ≤ 17) ∨ tile ≤ 0x022b then
    { k with falling := 0, yvel := 0, y := Int.land k.y (Int.lnot 0x7ff) + 1 }
  else
    { k with falling := 1 }

/-- The block `if (koopa2->move) { ... }`, on the actor. -/
def Koopa2.animate (k : Koopa2) : Koopa2 :=
  if k.move ≠ 0 then
    if k.counter + 1 ≥ k.animation_delay then
      { k with counter := 0, frame := if k.frame + 16 > 16 then 0 else k.frame + 16 }
    else
      { k with counter := k.counter + 1 }
  else k

/-! ## The state at the start of a round

The first statements of `main`: `sprite_clear(); koopa_init(&koopa);
koopa2_init(&koopa2);` on the zero-initialised globals. -/

/-- The pool after `sprite_clear()` on the zero-initialised globals. -/
def start_pool : Pool := sprite_clear ⟨fun _ => ⟨0, 0, 0, 0⟩, 0⟩

/-- The pool and the primary actor after `koopa_init`. -/
def start_koopa : Pool × Koopa := koopa_init start_pool

/-- The pool and the secondary actor after `koopa2_init`. -/
def start_koopa2 : Pool × Koopa2 := koopa2_init start_koopa.1

/-- A 32 x 32 tile map with tile 600 at index 589 (row 18, column 13: the tile
under pixel (108, 145)) and tile 0 everywhere else. -/
def probe_map : Int → Nat := fun i => if i = 589 then 600 else 0

/-! ## Call sequences on the secondary actor -/

/-- One call on the secondary actor: `koopa2_left(&koopa2, num)`,
`koopa2_update(&koopa, &koopa2, xscroll)` or `koopa2_stop(&koopa2)`. -/
inductive Koopa2Op where
  | left (num : Int)
  | update (koopa : Koopa) (xscroll : Int)
  | stop

/-- A sequence of calls on the secondary actor, in list order: the final pool
and actor. -/
def koopa2_run (fuel : Nat) (mapBack : Int → Nat) (mapBack_width mapBack_height : Int) :
    Pool → Koopa2 → List Koopa2Op → Option (Pool × Koopa2)
  | p, k, [] => some (p, k)
  | p, k, .left num :: rest =>
    koopa2_run fuel mapBack mapBack_width mapBack_height (koopa2_left p k num).1
      (koopa2_left p k num).2.1 rest
  | p, k, .update koopa xscroll :: rest =>
    match koopa2_update fuel mapBack mapBack_width mapBack_height p koopa k xscroll with
    | none => none
    | some r => koopa2_run fuel mapBack mapBack_width mapBack_height r.1 r.2 rest
  | p, k, .stop :: rest =>
    koopa2_run fuel mapBack mapBack_width mapBack_height (koopa2_stop p k).1
      (koopa2_stop p k).2 rest

/-! ## The tail of `koopa_update` and the frame invariant -/

/-- The statements of `koopa_update` after the ground test: the animation block
and the call of `sprite_position`. -/
def koopa_update_tail (p : Pool) (koopa : Koopa) : Pool × Koopa :=
  let r : Pool × Koopa :=
    if koopa.move ≠ 0 then
      let koopa := { koopa with counter := koopa.counter + 1 }
      if koopa.counter ≥ koopa.animation_delay then
        let koopa := { koopa with frame := koopa.frame + 16 }
        let koopa : Koopa := if koopa.frame > 16 then { koopa with frame := 0 } else koopa
        (p.update koopa.sprite (fun s => sprite_set_offset s koopa.frame),
          { koopa with counter := 0 })
      else (p, koopa)
    else (p, koopa)
  (r.1.update r.2.sprite (fun s => sprite_position s (shr r.2.x 8) (shr r.2.y 8)), r.2)

/-- The animation frame invariant of the primary actor: `frame` is 0 or 16 and
the tile offset of the actor's sprite (`attribute2 & 0x3ff`) equals `frame`. -/
def frame_invariant (p : Pool) (k : Koopa) : Prop :=
  (k.frame = 0 ∨ k.frame = 16) ∧
  (((p.sprites k.sprite).attribute2 &&& 0x3ff : Nat) : Int) = k.frame

instance (p : Pool) (k : Koopa) : Decidable (frame_invariant p k) := by
  unfold frame_invariant
  infer_instance

/-! ## Machine arithmetic lemmas -/

theorem land_mask (x : Int) (k : Nat) :
    Int.land x ((2 ^ k - 1 : Nat) : Int) = x % ((2 ^ k : Nat) : Int) := by
  have hpos : 0 < 2 ^ k := Nat.pow_pos (by norm_num)
  cases x with
  | ofNat n =>
    show ((n &&& (2 ^ k - 1) : Nat) : Int) = _
    rw [Nat.and_pow_two_sub_one_eq_mod]; rfl
  | negSucc n =>
    show ((Nat.ldiff (2 ^ k - 1) n : Nat) : Int) = _
    have h : Nat.ldiff (2 ^ k - 1) n = 2 ^ k - (n % 2 ^ k + 1) := by
      apply Nat.eq_of_testBit_eq
      intro i
      rw [Nat.testBit_ldiff, Nat.testBit_two_pow_sub_succ (Nat.mod_lt _ hpos),
        Nat.testBit_two_pow_sub_one, Nat.testBit_mod_two_pow]
      by_cases hi : i < k <;> simp [hi]
    have hlt : n % 2 ^ k < 2 ^ k := Nat.mod_lt _ hpos
    have hd := Nat.div_add_mod n (2 ^ k)
    rw [h, Int.negSucc_eq]
    generalize 2 ^ k = M at *
    generalize hq : n / M = q at *
    generalize hr : n % M = r at *
    have e : -((n : Int) + 1) = ((M - (r + 1) : Nat) : Int) + (-((q : Int) + 1)) * (M : Int) := by
      have hn : (n : Int) = (M : Int) * q + r := by exact_mod_cast hd.symm
      rw [hn]; push_cast [Nat.succ_le_of_lt hlt]; ring
    rw [e, Int.add_mul_emod_self, Int.emod_eq_of_lt (by omega) (by omega)]

theorem land_255 (x : Int) : Int.land x 0xff = x % 256 := land_mask x 8
theorem land_511 (x : Int) : Int.land x 0x1ff = x % 512 := land_mask x 9
theorem land_1023 (x : Int) : Int.land x 0x03ff = x % 1024 := land_mask x 10

theorem land_natCast (a b : Nat) : Int.land (a : Int) (b : Int) = ((a &&& b : Nat) : Int) := rfl
theorem lor_natCast (a b : Nat) : Int.lor (a : Int) (b : Int) = ((a ||| b : Nat) : Int) := rfl
theorem toU16_natCast (a : Nat) : toU16 (a : Int) = a % 65536 := by
  unfold toU16; omega

theorem lnot_2047 : Int.lnot 0x7ff = -2048 := rfl

theorem land_neg2048 (y : Int) : Int.land y (-2048) = 2048 * (y / 2048) := by
  cases y with
  | ofNat n =>
    show ((Nat.ldiff n 2047 : Nat) : Int) = _
    have h : Nat.ldiff n 2047 = 2048 * (n / 2048) := by
      apply Nat.eq_of_testBit_eq
      intro i
      have e : 2048 * (n / 2048) = (n >>> 11) <<< 11 := by
        rw [Nat.shiftRight_eq_div_pow, Nat.shiftLeft_eq]; ring
      have h1 : (2047 : Nat) = 2^11 - 1 := by norm_num
      rw [Nat.testBit_ldiff, e, Nat.testBit_shiftLeft, Nat.testBit_shiftRight, h1,
        Nat.testBit_two_pow_sub_one]
      by_cases hi : i < 11
      · simp [hi]
      · have h11 : 11 ≤ i := by omega
        have : 11 + (i - 11) = i := by omega
        simp [hi, h11, this]
    rw [h]
    show _ = 2048 * ((n : Int) / 2048)
    omega
  | negSucc n =>
    show Int.negSucc (n ||| 2047) = _
    have h : n ||| 2047 = 2048 * (n / 2048) + 2047 := by
      apply Nat.eq_of_testBit_eq
      intro i
      have h1 : (2047 : Nat) = 2^11 - 1 := by norm_num
      have e : 2048 * (n / 2048) + 2047 = 2^11 * (n >>> 11) + (2^11 - 1) := by
        rw [Nat.shiftRight_eq_div_pow]; norm_num
      rw [e, Nat.testBit_or, Nat.testBit_mul_pow_two_add _ (by norm_num), h1, 
        Nat.testBit_two_pow_sub_one, Nat.testBit_shiftRight]
      by_cases hi : i < 11
      · simp [hi]
      · simp [hi]
        have : 11 + (i - 11) = i := by omega
        rw [this]
    rw [h, Int.negSucc_eq, Int.negSucc_eq]
    omega

theorem testBit_of_lt (b k i : Nat) (hb : b < 2 ^ k) (hi : k ≤ i) : b.testBit i = false :=
  Nat.testBit_lt_two_pow (lt_of_lt_of_le hb (Nat.pow_le_pow_right (by norm_num) hi))

theorem field_x_of_store (a b : Nat) (hb : b < 512) :
    (((a &&& 0xfe00) % 65536 ||| b) % 65536) &&& 0x1ff = b := by
  apply Nat.eq_of_testBit_eq
  intro i
  have h1 : (0x1ff : Nat) = 2 ^ 9 - 1 := by norm_num
  have h2 : (65536 : Nat) = 2 ^ 16 := by norm_num
  rw [h1, h2]
  simp only [Nat.testBit_and, Nat.testBit_or, Nat.testBit_mod_two_pow,
    Nat.testBit_two_pow_sub_one]
  by_cases hi : i < 9
  · have h16 : i < 16 := by omega
    have hm : Nat.testBit 0xfe00 i = false := by
      interval_cases i <;> decide
    simp [hi, h16, hm]
  · have hf : b.testBit i = false := testBit_of_lt b 9 i (by simpa using hb) (by omega)
    simp [hi, hf]

theorem field_y_of_store (a b : Nat) (hb : b < 256) :
    (((a &&& 0xff00) % 65536 ||| b) % 65536) &&& 0xff = b := by
  apply Nat.eq_of_testBit_eq
  intro i
  have h1 : (0xff : Nat) = 2 ^ 8 - 1 := by norm_num
  have h2 : (65536 : Nat) = 2 ^ 16 := by norm_num
  rw [h1, h2]
  simp only [Nat.testBit_and, Nat.testBit_or, Nat.testBit_mod_two_pow,
    Nat.testBit_two_pow_sub_one]
  by_cases hi : i < 8
  · have h16 : i < 16 := by omega
    have hm : Nat.testBit 0xff00 i = false := by
      interval_cases i <;> decide
    simp [hi, h16, hm]
  · have hf : b.testBit i = false := testBit_of_lt b 8 i (by simpa using hb) (by omega)
    simp [hi, hf]

theorem sprite_position_attribute1 (s : Sprite) (x y : Int) :
    (sprite_position s x y).attribute1
      = ((s.attribute1 &&& 0xfe00) % 65536 ||| (x % 512).toNat) % 65536 := by
  have hx : Int.land x 0x1ff = (((x % 512).toNat : Nat) : Int) := by
    rw [land_511]; omega
  simp only [sprite_position]
  rw [hx]
  show toU16 (Int.lor ((toU16 (Int.land (s.attribute1 : Int) ((0xfe00 : Nat) : Int)) : Nat) : Int) _) = _
  rw [land_natCast, toU16_natCast, lor_natCast, toU16_natCast]

theorem sprite_position_attribute0 (s : Sprite) (x y : Int) :
    (sprite_position s x y).attribute0
      = ((s.attribute0 &&& 0xff00) % 65536 ||| (y % 256).toNat) % 65536 := by
  have hy : Int.land y 0xff = (((y % 256).toNat : Nat) : Int) := by
    rw [land_255]; omega
  simp only [sprite_position]
  rw [hy]
  show toU16 (Int.lor ((toU16 (Int.land (s.attribute0 : Int) ((0xff00 : Nat) : Int)) : Nat) : Int) _) = _
  rw [land_natCast, toU16_natCast, lor_natCast, toU16_natCast]

/-- C1. After `sprite_position(sprite, x, y)` on any slot of any pool, for all
integers `x` and `y`, the stored x field `attribute1 & 0x1ff` is `x mod 512`
and the stored y field `attribute0 & 0xff` is `y mod 256` (Euclidean
remainders). -/
theorem sprite_position_stores_mod (p : Pool) (i x y : Int) :
    ((((p.update i (fun s => sprite_position s x y)).sprites i).attribute1 &&& 0x1ff : Nat)
        : Int) = x % 512 ∧
    ((((p.update i (fun s => sprite_position s x y)).sprites i).attribute0 &&& 0xff : Nat)
        : Int) = y % 256 := by
  have e : (p.update i (fun s => sprite_position s x y)).sprites i
      = sprite_position (p.sprites i) x y := by
    simp [Pool.update, Pool.store]
  rw [e, sprite_position_attribute1, sprite_position_attribute0,
    field_x_of_store _ _ (by omega), field_y_of_store _ _ (by omega)]
  constructor <;> omega

/-! ## Tile lookup -/

theorem shr_eq_div (a : Int) (k : Nat) : shr a k = a / 2 ^ k := by
  unfold shr
  have h := Int.shiftRight_eq_div_pow a k
  simpa using h

theorem wrap_down_eq (w : Int) (hw : 0 < w) :
    ∀ (fuel : Nat) (x : Int), x.natAbs ≤ fuel →
      wrap_down fuel x w = some (if x < w then x else x % w) := by
  intro fuel
  induction fuel with
  | zero =>
    intro x hx
    have h0 : x = 0 := by omega
    subst h0
    simp [wrap_down, hw]
  | succ n ih =>
    intro x hx
    unfold wrap_down
    by_cases hge : x ≥ w
    · have hlt : ¬ x < w := by omega
      rw [if_pos hge, ih (x - w) (by omega), if_neg hlt]
      congr 1
      have e : (x - w) % w = x % w := by
        have := @Int.add_mul_emod_self x (-1) w
        rw [← this]
        congr 1
        ring
      by_cases h2 : x - w < w
      · rw [if_pos h2, ← e, Int.emod_eq_of_lt (by omega) h2]
      · rw [if_neg h2, e]
    · have hlt : x < w := by omega
      rw [if_neg hge, if_pos hlt]

theorem wrap_up_eq (w : Int) (hw : 0 < w) :
    ∀ (fuel : Nat) (x : Int), -x ≤ (fuel : Int) → x < w →
      wrap_up fuel x w = some (x % w) := by
  intro fuel
  induction fuel with
  | zero =>
    intro x hx hxw
    have h0 : ¬ x < 0 := by omega
    simp only [wrap_up, if_neg h0]
    rw [Int.emod_eq_of_lt (by omega) hxw]
  | succ n ih =>
    intro x hx hxw
    unfold wrap_up
    by_cases hneg : x < 0
    · rw [if_pos hneg, ih (x + w) (by omega) (by omega)]
      congr 1
      have := @Int.add_mul_emod_self x 1 w
      rw [← this]
      congr 1
      ring
    · rw [if_neg hneg, Int.emod_eq_of_lt (by omega) hxw]

/-- The two loops applied to one coordinate compute the Euclidean remainder. -/
theorem wrap_down_up_eq (w : Int) (hw : 0 < w) (fuel : Nat) (x : Int)
    (hx : x.natAbs ≤ fuel) :
    ∃ x1, wrap_down fuel x w = some x1 ∧ wrap_up fuel x1 w = some (x % w) := by
  refine ⟨if x < w then x else x % w, wrap_down_eq w hw fuel x hx, ?_⟩
  by_cases h : x < w
  · rw [if_pos h]
    exact wrap_up_eq w hw fuel x (by omega) h
  · rw [if_neg h]
    have h1 := Int.emod_nonneg x (ne_of_gt hw)
    have h2 := Int.emod_lt_of_pos x hw
    rw [wrap_up_eq w hw fuel (x % w) (by omega) h2, Int.emod_emod]

/-- With positive dimensions and enough fuel `tile_lookup` returns the entry at
row `floor((y + yscroll) / 8) mod h` and column `floor((x + xscroll) / 8) mod w`. -/
theorem tile_lookup_of_fuel (tilemap : Int → Nat) (w h : Int) (hw : 0 < w) (hh : 0 < h)
    (x y xscroll yscroll : Int) (fuel : Nat)
    (hf : ((x + xscroll) / 8).natAbs + ((y + yscroll) / 8).natAbs ≤ fuel) :
    tile_lookup fuel x y xscroll yscroll tilemap w h
      = some (tilemap ((y + yscroll) / 8 % h * w + (x + xscroll) / 8 % w)) := by
  obtain ⟨x1, hx1, hx2⟩ := wrap_down_up_eq w hw fuel ((x + xscroll) / 8) (by omega)
  obtain ⟨y1, hy1, hy2⟩ := wrap_down_up_eq h hh fuel ((y + yscroll) / 8) (by omega)
  simp only [tile_lookup, shr_eq_div]
  norm_num
  simp only [hx1, hy1, hx2, hy2]

/-- A tile returned by `tile_lookup` is an entry of the map. -/
theorem tile_lookup_entry (fuel : Nat) (x y xscroll yscroll : Int) (tilemap : Int → Nat)
    (w h : Int) (tile : Nat)
    (hp : tile_lookup fuel x y xscroll yscroll tilemap w h = some tile) :
    ∃ i : Int, tile = tilemap i := by
  simp only [tile_lookup] at hp
  split at hp
  · cases hp
  · split at hp
    · cases hp
    · split at hp
      · cases hp
      · split at hp
        · cases hp
        · cases hp
          exact ⟨_, rfl⟩

/-- C2. For every tile map with positive width `w` and height `h` and all
integers `x`, `y`, `xscroll`, `yscroll`, enough loop iterations make
`tile_lookup` return `tilemap[ty * w + tx]` with
`tx = floor((x + xscroll) / 8) mod w` and `ty = floor((y + yscroll) / 8) mod h`:
the addition and subtraction loops compute the modulo-based definition. -/
theorem tile_lookup_eq_mod (tilemap : Int → Nat) (w h : Int) (hw : 0 < w) (hh : 0 < h)
    (x y xscroll yscroll : Int) :
    ∃ N : Nat, ∀ fuel : Nat, N ≤ fuel →
      tile_lookup fuel x y xscroll yscroll tilemap w h
        = some (tilemap ((y + yscroll) / 8 % h * w + (x + xscroll) / 8 % w)) :=
  ⟨((x + xscroll) / 8).natAbs + ((y + yscroll) / 8).natAbs, fun fuel hf =>
    tile_lookup_of_fuel tilemap w h hw hh x y xscroll yscroll fuel hf⟩

/-- Witness of C2: a 4 x 3 map whose entries are their own indices, probed at a
negative coordinate. -/
theorem tile_lookup_eq_mod_witness :
    (0 : Int) < 4 ∧ (0 : Int) < 3 ∧
    ∃ N : Nat, ∀ fuel : Nat, N ≤ fuel →
      tile_lookup fuel (-45) 70 5 0 (fun i => i.toNat) 4 3
        = some ((fun i : Int => i.toNat) ((70 + 0) / 8 % 3 * 4 + (-45 + 5) / 8 % 4)) :=
  ⟨by decide, by decide,
    tile_lookup_eq_mod (fun i => i.toNat) 4 3 (by decide) (by decide) (-45) 70 5 0⟩

theorem tile_coord_shift (x w j : Int) : (x + 8 * w * j + 0) / 8 % w = (x + 0) / 8 % w := by
  have e : x + 8 * w * j + 0 = x + (w * j) * 8 := by ring
  rw [e, Int.add_mul_ediv_right x (w * j) (by norm_num : (8 : Int) ≠ 0), add_zero,
    Int.add_mul_emod_self_left]

/-- C3. Tile wraparound with zero scroll: for a tile map with positive width `w`
and height `h` and all integers `x`, `y`, `j`, `k`, the lookups at
`(x + 8*w*j, y + 8*h*k)` and at `(x, y)` both return, with the same tile (the
column depends on the tile coordinate of `x` modulo `w` only, the row on that
of `y` modulo `h` only). -/
theorem tile_lookup_wraparound (tilemap : Int → Nat) (w h : Int) (hw : 0 < w) (hh : 0 < h)
    (x y j k : Int) :
    ∃ N : Nat, ∀ fuel : Nat, N ≤ fuel →
      ∃ t : Nat, tile_lookup fuel (x + 8 * w * j) (y + 8 * h * k) 0 0 tilemap w h = some t ∧
        tile_lookup fuel x y 0 0 tilemap w h = some t ∧
        t = tilemap (y / 8 % h * w + x / 8 % w) := by
  refine ⟨(((x + 8 * w * j + 0) / 8).natAbs + ((y + 8 * h * k + 0) / 8).natAbs)
    + (((x + 0) / 8).natAbs + ((y + 0) / 8).natAbs), fun fuel hf => ?_⟩
  refine ⟨tilemap (y / 8 % h * w + x / 8 % w), ?_, ?_, rfl⟩
  · rw [tile_lookup_of_fuel tilemap w h hw hh _ _ 0 0 fuel (by omega),
      tile_coord_shift x w j, tile_coord_shift y h k, add_zero, add_zero]
  · rw [tile_lookup_of_fuel tilemap w h hw hh _ _ 0 0 fuel (by omega), add_zero, add_zero]

/-- Witness of C3: a 4 x 3 map whose entries are their own indices. -/
theorem tile_lookup_wraparound_witness :
    (0 : Int) < 4 ∧ (0 : Int) < 3 ∧
    ∃ N : Nat, ∀ fuel : Nat, N ≤ fuel →
      ∃ t : Nat, tile_lookup fuel (13 + 8 * 4 * (-2)) (9 + 8 * 3 * 5) 0 0
          (fun i => i.toNat) 4 3 = some t ∧
        tile_lookup fuel 13 9 0 0 (fun i => i.toNat) 4 3 = some t ∧
        t = (fun i : Int => i.toNat) (9 / 8 % 3 * 4 + 13 / 8 % 4) :=
  ⟨by decide, by decide,
    tile_lookup_wraparound (fun i => i.toNat) 4 3 (by decide) (by decide) 13 9 (-2) 5⟩


/-! ## Sprite pool -/

theorem sprite_clear_index (p : Pool) : (sprite_clear p).next_sprite_index = 0 := by
  unfold sprite_clear
  generalize List.range NUM_SPRITES = l
  have h : ∀ (l : List Nat) (q : Pool),
      (l.foldl (fun (q : Pool) (i : Nat) =>
        let q := q.store (i : Int) { q.sprites (i : Int) with attribute0 := toU16 SCREEN_HEIGHT }
        q.store (i : Int) { q.sprites (i : Int) with attribute1 := toU16 SCREEN_WIDTH })
          q).next_sprite_index
        = q.next_sprite_index := by
    intro l
    induction l with
    | nil => intro q; rfl
    | cons a l ih => intro q; rw [List.foldl_cons, ih]; rfl
  exact h l _

theorem sprite_init_index (p : Pool) (a : InitArgs) :
    (sprite_init p a.x a.y a.size a.horizontal_flip a.vertical_flip a.tile_index
      a.priority).1.next_sprite_index = p.next_sprite_index + 1 := rfl

theorem sprite_init_pointer (p : Pool) (a : InitArgs) :
    (sprite_init p a.x a.y a.size a.horizontal_flip a.vertical_flip a.tile_index
      a.priority).2 = p.next_sprite_index := rfl

theorem sprite_init_all_index (args : List InitArgs) :
    ∀ p : Pool, (sprite_init_all p args).1.next_sprite_index
      = p.next_sprite_index + args.length := by
  induction args with
  | nil => intro p; simp [sprite_init_all]
  | cons a rest ih =>
    intro p
    simp only [sprite_init_all, List.length_cons]
    rw [ih, sprite_init_index]
    push_cast
    ring

theorem sprite_init_all_pointers (args : List InitArgs) :
    ∀ p : Pool, (sprite_init_all p args).2
      = (List.range args.length).map (fun k : Nat => p.next_sprite_index + k) := by
  induction args with
  | nil => intro p; simp [sprite_init_all]
  | cons a rest ih =>
    intro p
    simp only [sprite_init_all, List.length_cons, List.range_succ_eq_map, List.map_cons,
      List.map_map]
    rw [ih, sprite_init_index, sprite_init_pointer]
    simp only [Nat.cast_zero, add_zero, List.cons.injEq, true_and]
    apply List.map_congr_left
    intro k _
    simp only [Function.comp, Nat.cast_succ]
    ring

theorem sprite_init_frame (p : Pool) (a : InitArgs) (j : Int)
    (hj : j ≠ p.next_sprite_index) :
    (sprite_init p a.x a.y a.size a.horizontal_flip a.vertical_flip a.tile_index
      a.priority).1.sprites j = p.sprites j := by
  simp [sprite_init, Pool.store, Function.update_noteq hj]

theorem sprite_init_all_frame (args : List InitArgs) :
    ∀ (p : Pool) (j : Int), j < p.next_sprite_index →
      (sprite_init_all p args).1.sprites j = p.sprites j := by
  induction args with
  | nil => intro p j _; rfl
  | cons a rest ih =>
    intro p j hj
    simp only [sprite_init_all]
    rw [ih _ j (by rw [sprite_init_index]; omega), sprite_init_frame p a j (by omega)]

/-- The three words that one call of `sprite_init` writes into its slot. -/
theorem sprite_init_written (p : Pool) (a : InitArgs) :
    ((sprite_init p a.x a.y a.size a.horizontal_flip a.vertical_flip a.tile_index
      a.priority).1.sprites p.next_sprite_index).attribute0
      = toU16 (Int.lor (Int.lor (Int.lor (Int.lor (Int.lor a.y (shl 0 8)) (shl 0 10))
          (shl 0 12)) (shl 1 13)) (shl (size_shape_bits a.size).2 14)) ∧
    ((sprite_init p a.x a.y a.size a.horizontal_flip a.vertical_flip a.tile_index
      a.priority).1.sprites p.next_sprite_index).attribute1
      = toU16 (Int.lor (Int.lor (Int.lor (Int.lor a.x (shl 0 9))
          (shl (if a.horizontal_flip ≠ 0 then 1 else 0) 12))
          (shl (if a.vertical_flip ≠ 0 then 1 else 0) 13))
          (shl (size_shape_bits a.size).1 14)) ∧
    ((sprite_init p a.x a.y a.size a.horizontal_flip a.vertical_flip a.tile_index
      a.priority).1.sprites p.next_sprite_index).attribute2
      = toU16 (Int.lor (Int.lor a.tile_index (shl a.priority 10)) (shl 0 12)) := by
  refine ⟨?_, ?_, ?_⟩ <;> simp [sprite_init, Pool.store]

/-- After consecutive calls, the slot of the call number `k` (counted from 0)
is as that call left it: later calls take other slots. -/
theorem sprite_init_all_slot (args : List InitArgs) :
    ∀ (p : Pool) (k : Nat) (a : InitArgs), args[k]? = some a →
      ∃ q : Pool, q.next_sprite_index = p.next_sprite_index + k ∧
        (sprite_init_all p args).1.sprites (p.next_sprite_index + k)
          = (sprite_init q a.x a.y a.size a.horizontal_flip a.vertical_flip a.tile_index
              a.priority).1.sprites q.next_sprite_index := by
  induction args with
  | nil => intro p k a h; simp at h
  | cons b rest ih =>
    intro p k a h
    simp only [sprite_init_all]
    cases k with
    | zero =>
      simp only [List.getElem?_cons_zero, Option.some.injEq] at h
      subst h
      refine ⟨p, by simp, ?_⟩
      rw [Nat.cast_zero, add_zero, sprite_init_all_frame rest _ _
        (by rw [sprite_init_index]; omega)]
    | succ n =>
      simp only [List.getElem?_cons_succ] at h
      obtain ⟨q, hq, e⟩ := ih (sprite_init p b.x b.y b.size b.horizontal_flip b.vertical_flip
        b.tile_index b.priority).1 n a h
      rw [sprite_init_index] at hq e
      refine ⟨q, by rw [hq]; push_cast; ring, ?_⟩
      rw [← e]
      congr 1
      push_cast
      ring

/-- C4, as the code has it.  `sprite_init` has no capacity check and no failure
result.  After `sprite_clear`, for up to 128 calls: the k-th call (counted from
1) returns slot `k - 1`, a slot of the table, writes the three attribute words
made from its arguments there and leaves the next-free index at `k`, so the
index does not exceed 128 and the first 128 calls fill the slots 0..127.  A
129th call is not rejected: the pointer `sprite_init` computes on the full pool
is that of index 128, which is not a slot of the table (the store through it is
outside the table, and nothing is stated about its effect).  After another
`sprite_clear` allocation starts again from slot 0. -/
theorem sprite_init_after_clear (p : Pool) (args : List InitArgs)
    (hlen : args.length ≤ NUM_SPRITES) :
    (sprite_init_all (sprite_clear p) args).1.next_sprite_index = args.length ∧
    (sprite_init_all (sprite_clear p) args).1.next_sprite_index ≤ NUM_SPRITES ∧
    (sprite_init_all (sprite_clear p) args).2
      = (List.range args.length).map (fun k : Nat => (k : Int)) ∧
    (∀ i ∈ (sprite_init_all (sprite_clear p) args).2, 0 ≤ i ∧ i < NUM_SPRITES) ∧
    (∀ (k : Nat) (a : InitArgs), args[k]? = some a →
      ((sprite_init_all (sprite_clear p) args).1.sprites k).attribute0
        = toU16 (Int.lor (Int.lor (Int.lor (Int.lor (Int.lor a.y (shl 0 8)) (shl 0 10))
            (shl 0 12)) (shl 1 13)) (shl (size_shape_bits a.size).2 14)) ∧
      ((sprite_init_all (sprite_clear p) args).1.sprites k).attribute1
        = toU16 (Int.lor (Int.lor (Int.lor (Int.lor a.x (shl 0 9))
            (shl (if a.horizontal_flip ≠ 0 then 1 else 0) 12))
            (shl (if a.vertical_flip ≠ 0 then 1 else 0) 13))
            (shl (size_shape_bits a.size).1 14)) ∧
      ((sprite_init_all (sprite_clear p) args).1.sprites k).attribute2
        = toU16 (Int.lor (Int.lor a.tile_index (shl a.priority 10)) (shl 0 12))) ∧
    (args.length = NUM_SPRITES → ∀ a : InitArgs,
      (sprite_init (sprite_init_all (sprite_clear p) args).1 a.x a.y a.size
        a.horizontal_flip a.vertical_flip a.tile_index a.priority).2 = NUM_SPRITES ∧
      ¬ (sprite_init (sprite_init_all (sprite_clear p) args).1 a.x a.y a.size
        a.horizontal_flip a.vertical_flip a.tile_index a.priority).2 < NUM_SPRITES) ∧
    (∀ again : List InitArgs, again.length ≤ NUM_SPRITES →
      (sprite_init_all (sprite_clear (sprite_init_all (sprite_clear p) args).1) again).2
        = (List.range again.length).map (fun k : Nat => (k : Int))) := by
  have h0 := sprite_clear_index p
  have hi : (sprite_init_all (sprite_clear p) args).1.next_sprite_index = args.length := by
    rw [sprite_init_all_index, h0, zero_add]
  have hp : (sprite_init_all (sprite_clear p) args).2
      = (List.range args.length).map (fun k : Nat => (k : Int)) := by
    rw [sprite_init_all_pointers, h0]
    simp
  refine ⟨hi, ?_, hp, ?_, ?_, ?_, ?_⟩
  · rw [hi]
    exact_mod_cast hlen
  · intro i hmem
    rw [hp] at hmem
    obtain ⟨k, hk, e⟩ := List.mem_map.mp hmem
    have hk2 : k < NUM_SPRITES := lt_of_lt_of_le (List.mem_range.mp hk) hlen
    rw [← e]
    exact ⟨Int.ofNat_nonneg k, Int.ofNat_lt.mpr hk2⟩
  · intro k a h
    obtain ⟨q, _, e⟩ := sprite_init_all_slot args (sprite_clear p) k a h
    rw [h0, zero_add] at e
    rw [e]
    exact sprite_init_written q a
  · intro hfull a
    rw [sprite_init_pointer, hi, hfull]
    exact ⟨rfl, lt_irrefl _⟩
  · intro again _
    rw [sprite_init_all_pointers, sprite_clear_index]
    simp

set_option maxRecDepth 100000 in
/-- Witness of C4: 128 calls from the cleared pool.  The next-free index is
then 128, the call number 3 has written its tile index 5 into slot 2, and the
pointer a further call computes is that of index 128. -/
theorem sprite_init_after_clear_witness :
    (List.replicate 128 (⟨0, 0, .SIZE_8_8, 0, 0, 5, 0⟩ : InitArgs)).length ≤ NUM_SPRITES ∧
    (sprite_init_all (sprite_clear start_pool)
      (List.replicate 128 ⟨0, 0, .SIZE_8_8, 0, 0, 5, 0⟩)).1.next_sprite_index = 128 ∧
    ((sprite_init_all (sprite_clear start_pool)
      (List.replicate 128 ⟨0, 0, .SIZE_8_8, 0, 0, 5, 0⟩)).1.sprites 2).attribute2 = 5 ∧
    (sprite_init (sprite_init_all (sprite_clear start_pool)
      (List.replicate 128 ⟨0, 0, .SIZE_8_8, 0, 0, 5, 0⟩)).1 0 0 .SIZE_8_8 0 0 5 0).2 = 128 := by
  obtain ⟨h1, _, _, _, h5, h6, _⟩ := sprite_init_after_clear start_pool
    (List.replicate 128 ⟨0, 0, .SIZE_8_8, 0, 0, 5, 0⟩) (by decide)
  refine ⟨by decide, ?_, ?_, ?_⟩
  · rw [h1]
    decide
  · have h := (h5 2 ⟨0, 0, .SIZE_8_8, 0, 0, 5, 0⟩ rfl).2.2
    rw [show ((2 : Nat) : Int) = 2 from rfl] at h
    rw [h]
    decide
  · have h := (h6 (by decide) ⟨0, 0, .SIZE_8_8, 0, 0, 5, 0⟩).1
    rw [h]
    decide

set_option maxRecDepth 100000 in
/-- Counterexample to C4 as stated: from the cleared pool, 128 calls of
`sprite_init` take the slots of the table and leave the next-free index at
128; the 129th call is not rejected with a capacity error: it returns the
pointer of index 128, which is not a slot of the 128-slot table. -/
theorem sprite_init_129th_call_not_rejected :
    (sprite_init_all start_pool
      (List.replicate 128 ⟨0, 0, .SIZE_8_8, 0, 0, 5, 0⟩)).1.next_sprite_index = 128 ∧
    (sprite_init (sprite_init_all start_pool
      (List.replicate 128 ⟨0, 0, .SIZE_8_8, 0, 0, 5, 0⟩)).1 0 0 .SIZE_8_8 0 0 5 0).2 = 128 ∧
    ¬ (sprite_init (sprite_init_all start_pool
      (List.replicate 128 ⟨0, 0, .SIZE_8_8, 0, 0, 5, 0⟩)).1 0 0 .SIZE_8_8 0 0 5 0).2
        < NUM_SPRITES := by
  decide

/-! ## The update of the primary actor -/

/-- When both probes return, `koopa_update` returns, and the actor it returns is
the composition of the three blocks. -/
theorem koopa_update_of_probe (fuel : Nat) (mapBack : Int → Nat) (w h : Int) (p : Pool)
    (koopa : Koopa) (koopa2 : Koopa2) (xscroll : Int) (tile tile2 : Nat)
    (h1 : tile_lookup fuel (shr koopa.integrate.x 8 + 8) (shr koopa.integrate.y 8 + 32)
      xscroll 0 mapBack w h = some tile)
    (h2 : tile_lookup fuel (shr koopa2.x 8 + 8) (shr koopa2.y 8 + 32) xscroll 0 mapBack w h
      = some tile2) :
    ∃ q : Pool, koopa_update fuel mapBack w h p koopa koopa2 xscroll
      = some (q, (koopa.integrate.ground tile).animate) := by
  unfold Koopa.integrate at h1
  simp only [koopa_update, h1, h2]
  simp only [Koopa.integrate, Koopa.ground, Koopa.animate]
  split_ifs <;> exact ⟨_, rfl⟩

theorem integrate_x (k : Koopa) : k.integrate.x = k.x := by
  unfold Koopa.integrate
  split_ifs <;> rfl

theorem integrate_y (k : Koopa) :
    k.integrate.y = if k.falling ≠ 0 then k.y + k.yvel else k.y := by
  unfold Koopa.integrate
  split_ifs <;> rfl

theorem animate_y (k : Koopa) : k.animate.y = k.y := by
  unfold Koopa.animate
  split_ifs <;> rfl

theorem animate_yvel (k : Koopa) : k.animate.yvel = k.yvel := by
  unfold Koopa.animate
  split_ifs <;> rfl

theorem animate_falling (k : Koopa) : k.animate.falling = k.falling := by
  unfold Koopa.animate
  split_ifs <;> rfl

/-- With positive map dimensions and enough fuel both probes of `koopa_update`
return and the update returns the composition of the three blocks, the tile
being the one under the feet after the integration step.  The fuel needed does
not depend on the pool. -/
theorem koopa_update_returns (mapBack : Int → Nat) (w h : Int) (hw : 0 < w) (hh : 0 < h)
    (koopa : Koopa) (koopa2 : Koopa2) (xscroll : Int) :
    ∃ (N tile : Nat), ∀ (p : Pool) (fuel : Nat), N ≤ fuel →
      tile_lookup fuel (shr koopa.x 8 + 8) (shr koopa.integrate.y 8 + 32) xscroll 0
        mapBack w h = some tile ∧
      ∃ q : Pool, koopa_update fuel mapBack w h p koopa koopa2 xscroll
        = some (q, (koopa.integrate.ground tile).animate) := by
  refine ⟨(((shr koopa.integrate.x 8 + 8 + xscroll) / 8).natAbs
      + ((shr koopa.integrate.y 8 + 32 + 0) / 8).natAbs)
    + (((shr koopa2.x 8 + 8 + xscroll) / 8).natAbs
      + ((shr koopa2.y 8 + 32 + 0) / 8).natAbs),
    mapBack ((shr koopa.integrate.y 8 + 32 + 0) / 8 % h * w
      + (shr koopa.integrate.x 8 + 8 + xscroll) / 8 % w), fun p fuel hf => ?_⟩
  have h1 := tile_lookup_of_fuel mapBack w h hw hh (shr koopa.integrate.x 8 + 8)
    (shr koopa.integrate.y 8 + 32) xscroll 0 fuel (by omega)
  have h2 := tile_lookup_of_fuel mapBack w h hw hh (shr koopa2.x 8 + 8)
    (shr koopa2.y 8 + 32) xscroll 0 fuel (by omega)
  refine ⟨?_, koopa_update_of_probe fuel mapBack w h p koopa koopa2 xscroll _ _ h1 h2⟩
  rw [← integrate_x koopa]
  exact h1

/-- Whenever `koopa_update` returns, the first probe returned a tile and the
actor returned is the composition of the three blocks for that tile. -/
theorem koopa_update_some (fuel : Nat) (mapBack : Int → Nat) (w h : Int) (p : Pool)
    (koopa : Koopa) (koopa2 : Koopa2) (xscroll : Int) (r : Pool × Koopa)
    (hr : koopa_update fuel mapBack w h p koopa koopa2 xscroll = some r) :
    ∃ tile : Nat,
      tile_lookup fuel (shr koopa.x 8 + 8) (shr koopa.integrate.y 8 + 32) xscroll 0
        mapBack w h = some tile ∧
      r.2 = (koopa.integrate.ground tile).animate := by
  cases h1 : tile_lookup fuel (shr koopa.integrate.x 8 + 8) (shr koopa.integrate.y 8 + 32)
      xscroll 0 mapBack w h with
  | none =>
    unfold Koopa.integrate at h1
    simp only [koopa_update, h1] at hr
    cases hr
  | some tile =>
    cases h2 : tile_lookup fuel (shr koopa2.x 8 + 8) (shr koopa2.y 8 + 32) xscroll 0
        mapBack w h with
    | none =>
      unfold Koopa.integrate at h1
      simp only [koopa_update, h1, h2] at hr
      cases hr
    | some tile2 =>
      obtain ⟨q, hq⟩ :=
        koopa_update_of_probe fuel mapBack w h p koopa koopa2 xscroll tile tile2 h1 h2
      rw [hq] at hr
      rw [integrate_x] at h1
      refine ⟨tile, h1, ?_⟩
      cases hr
      rfl

/-- C5. Ground contact of the primary actor.  For every actor state, scroll and
tile map with positive dimensions the update returns; with `y1` the value of
`y` after the integration step (`y + yvel` if the actor was falling, `y`
otherwise) and `tile` the tile probed under the feet: if `tile > 510` then after
the update `falling = 0`, `yvel = 0` and `y = 2048 * floor(y1 / 2048) + 1`;
otherwise `falling = 1`. -/
theorem koopa_update_ground_contact (mapBack : Int → Nat) (w h : Int) (hw : 0 < w)
    (hh : 0 < h) (p : Pool) (koopa : Koopa) (koopa2 : Koopa2) (xscroll : Int) :
    ∃ N : Nat, ∀ fuel : Nat, N ≤ fuel → ∃ (tile : Nat) (r : Pool × Koopa),
      tile_lookup fuel (shr koopa.x 8 + 8)
        (shr (if koopa.falling ≠ 0 then koopa.y + koopa.yvel else koopa.y) 8 + 32)
        xscroll 0 mapBack w h = some tile ∧
      koopa_update fuel mapBack w h p koopa koopa2 xscroll = some r ∧
      (tile > 510 → r.2.falling = 0 ∧ r.2.yvel = 0 ∧
        r.2.y = 2048 *
          ((if koopa.falling ≠ 0 then koopa.y + koopa.yvel else koopa.y) / 2048) + 1) ∧
      (¬ tile > 510 → r.2.falling = 1) := by
  obtain ⟨N, tile, hN⟩ := koopa_update_returns mapBack w h hw hh koopa koopa2 xscroll
  refine ⟨N, fun fuel hf => ?_⟩
  obtain ⟨h1, q, h2⟩ := hN p fuel hf
  rw [integrate_y] at h1
  refine ⟨tile, _, h1, h2, ?_, ?_⟩
  · intro ht
    simp only [animate_falling, animate_yvel, animate_y]
    simp only [Koopa.ground, if_pos ht, integrate_y, lnot_2047, land_neg2048]
    exact ⟨trivial, trivial, trivial⟩
  · intro ht
    simp only [animate_falling]
    simp only [Koopa.ground, if_neg ht]

/-- Witness of C5: the actors at the start of a round over a 4 x 3 map of solid
tiles (index 600).  The actor lands: `y` goes from 28928 to
`2048 * 14 + 1 = 28673`. -/
theorem koopa_update_ground_contact_witness :
    (0 : Int) < 4 ∧ (0 : Int) < 3 ∧
    ∃ N : Nat, ∀ fuel : Nat, N ≤ fuel → ∃ r : Pool × Koopa,
      koopa_update fuel (fun _ => 600) 4 3 start_koopa2.1 start_koopa.2 start_koopa2.2 0
        = some r ∧
      r.2.falling = 0 ∧ r.2.yvel = 0 ∧ r.2.y = 28673 := by
  obtain ⟨N, hN⟩ := koopa_update_ground_contact (fun _ => 600) 4 3 (by decide) (by decide)
    start_koopa2.1 start_koopa.2 start_koopa2.2 0
  refine ⟨by decide, by decide, N, fun fuel hf => ?_⟩
  obtain ⟨tile, r, h1, h2, h3, _⟩ := hN fuel hf
  obtain ⟨i, hi⟩ := tile_lookup_entry _ _ _ _ _ _ _ _ _ h1
  have ht : tile > 510 := by
    rw [hi]
    show 600 > 510
    decide
  obtain ⟨e1, e2, e3⟩ := h3 ht
  refine ⟨r, h2, e1, e2, ?_⟩
  rw [e3]
  decide

/-! ## Free fall -/

theorem koopa_update_all_cons_some (fuel : Nat) (mapBack : Int → Nat) (w h : Int) (p : Pool)
    (koopa : Koopa) (f : Koopa2 × Int) (rest : List (Koopa2 × Int))
    (trace : List (Pool × Koopa))
    (ht : koopa_update_all fuel mapBack w h p koopa (f :: rest) = some trace) :
    ∃ (r : Pool × Koopa) (t : List (Pool × Koopa)),
      koopa_update fuel mapBack w h p koopa f.1 f.2 = some r ∧
      koopa_update_all fuel mapBack w h r.1 r.2 rest = some t ∧ trace = r :: t := by
  unfold koopa_update_all at ht
  cases h1 : koopa_update fuel mapBack w h p koopa f.1 f.2 with
  | none => simp only [h1] at ht; cases ht
  | some r =>
    simp only [h1] at ht
    cases h2 : koopa_update_all fuel mapBack w h r.1 r.2 rest with
    | none => simp only [h2] at ht; cases ht
    | some t =>
      simp only [h2] at ht
      cases ht
      exact ⟨r, t, rfl, h2, rfl⟩

/-- With positive map dimensions, any number of consecutive updates returns,
given enough fuel. -/
theorem koopa_update_all_returns (mapBack : Int → Nat) (w h : Int) (hw : 0 < w) (hh : 0 < h)
    (frames : List (Koopa2 × Int)) :
    ∀ koopa : Koopa, ∃ N : Nat, ∀ (p : Pool) (fuel : Nat), N ≤ fuel →
      ∃ trace : List (Pool × Koopa),
        koopa_update_all fuel mapBack w h p koopa frames = some trace := by
  induction frames with
  | nil => intro koopa; exact ⟨0, fun p fuel _ => ⟨[], rfl⟩⟩
  | cons f rest ih =>
    intro koopa
    obtain ⟨N1, tile, h1⟩ := koopa_update_returns mapBack w h hw hh koopa f.1 f.2
    obtain ⟨N2, h2⟩ := ih (koopa.integrate.ground tile).animate
    refine ⟨max N1 N2, fun p fuel hf => ?_⟩
    obtain ⟨_, q, hq⟩ := h1 p fuel (le_trans (le_max_left _ _) hf)
    obtain ⟨t, ht⟩ := h2 q fuel (le_trans (le_max_right _ _) hf)
    refine ⟨(q, (koopa.integrate.ground tile).animate) :: t, ?_⟩
    simp only [koopa_update_all, hq, ht]

theorem trace_length (fuel : Nat) (mapBack : Int → Nat) (w h : Int)
    (frames : List (Koopa2 × Int)) :
    ∀ (p : Pool) (koopa : Koopa) (trace : List (Pool × Koopa)),
      koopa_update_all fuel mapBack w h p koopa frames = some trace →
      trace.length = frames.length := by
  induction frames with
  | nil =>
    intro p koopa trace ht
    simp only [koopa_update_all] at ht
    cases ht
    rfl
  | cons f rest ih =>
    intro p koopa trace ht
    obtain ⟨r, t, _, h2, h3⟩ := koopa_update_all_cons_some fuel mapBack w h p koopa f rest trace ht
    rw [h3, List.length_cons, List.length_cons, ih r.1 r.2 t h2]

/-- One update of an actor in free fall that does not touch ground. -/
theorem free_fall_step (k : Koopa) (tile : Nat) (hf : k.falling ≠ 0)
    (hn : ((k.integrate.ground tile).animate).falling ≠ 0) :
    ((k.integrate.ground tile).animate).y = k.y + k.yvel ∧
    ((k.integrate.ground tile).animate).yvel = k.yvel + k.gravity ∧
    ((k.integrate.ground tile).animate).gravity = k.gravity := by
  rw [animate_falling] at hn
  have ht : ¬ tile > 510 := by
    intro ht
    simp [Koopa.ground, if_pos ht] at hn
  refine ⟨?_, ?_, ?_⟩
  · rw [animate_y]; simp [Koopa.ground, if_neg ht, Koopa.integrate, if_pos hf]
  · rw [animate_yvel]; simp [Koopa.ground, if_neg ht, Koopa.integrate, if_pos hf]
  · unfold Koopa.animate Koopa.ground Koopa.integrate
    split_ifs <;> rfl

/-- The heights of an actor in free fall: after `j` updates with `yvel = 90 * j`
the next heights follow the closed form. -/
theorem free_fall_heights (y0 : Int) (fuel : Nat) (mapBack : Int → Nat) (w h : Int)
    (frames : List (Koopa2 × Int)) :
    ∀ (p : Pool) (k : Koopa) (j : Nat) (trace : List (Pool × Koopa)),
      k.falling ≠ 0 → k.gravity = 90 → k.yvel = 90 * j → k.y = y0 + 45 * j * (j - 1) →
      koopa_update_all fuel mapBack w h p k frames = some trace →
      (∀ r ∈ trace, r.2.falling ≠ 0) →
      trace.map (fun r => r.2.y)
        = (List.range frames.length).map
            (fun i : Nat => y0 + 45 * ((j : Int) + i + 1) * ((j : Int) + i)) := by
  induction frames with
  | nil =>
    intro p k j trace _ _ _ _ ht _
    simp only [koopa_update_all] at ht
    cases ht
    rfl
  | cons f rest ih =>
    intro p k j trace hf hg hv hy ht hall
    obtain ⟨r, t, h1, h2, h3⟩ := koopa_update_all_cons_some fuel mapBack w h p k f rest trace ht
    obtain ⟨tile, _, hr⟩ := koopa_update_some fuel mapBack w h p k f.1 f.2 r h1
    subst h3
    have hrf : r.2.falling ≠ 0 := hall r (List.mem_cons_self _ _)
    rw [hr] at hrf
    obtain ⟨e1, e2, e3⟩ := free_fall_step k tile hf hrf
    rw [← hr] at e1 e2 e3 hrf
    have := ih r.1 r.2 (j + 1) t hrf (by rw [e3, hg]) (by rw [e2, hv, hg]; push_cast; ring)
      (by rw [e1, hy, hv]; push_cast; ring) h2
      (fun r' hr' => hall r' (List.mem_cons_of_mem _ hr'))
    simp only [List.map_cons, List.length_cons, List.range_succ_eq_map, List.map_map, this]
    refine congrArg₂ _ ?_ ?_
    · rw [e1, hy, hv]; push_cast; ring
    · apply List.map_congr_left
      intro i _
      simp only [Function.comp, Nat.cast_succ]
      ring

theorem koopa_init_state (p : Pool) :
    (koopa_init p).2.falling ≠ 0 ∧ (koopa_init p).2.gravity = 90 ∧
    (koopa_init p).2.yvel = 0 ∧ (koopa_init p).2.y = 28928 ∧ (koopa_init p).2.x = 25600 := by
  simp [koopa_init, shl]

/-- Over a map without solid tiles every update leaves `falling` set. -/
theorem falling_of_no_solid (mapBack : Int → Nat) (hmap : ∀ i, mapBack i ≤ 510) (fuel : Nat)
    (w h : Int) (frames : List (Koopa2 × Int)) :
    ∀ (p : Pool) (k : Koopa) (trace : List (Pool × Koopa)),
      koopa_update_all fuel mapBack w h p k frames = some trace →
      ∀ r ∈ trace, r.2.falling ≠ 0 := by
  induction frames with
  | nil =>
    intro p k trace ht
    simp only [koopa_update_all] at ht
    cases ht
    intro r hr
    cases hr
  | cons f rest ih =>
    intro p k trace ht
    obtain ⟨r, t, h1, h2, h3⟩ := koopa_update_all_cons_some fuel mapBack w h p k f rest trace ht
    obtain ⟨tile, hp, hr⟩ := koopa_update_some fuel mapBack w h p k f.1 f.2 r h1
    subst h3
    intro r' hr'
    rcases List.mem_cons.mp hr' with e | e
    · subst e
      have ht : ¬ tile > 510 := by
        obtain ⟨i, hi⟩ := tile_lookup_entry _ _ _ _ _ _ _ _ _ hp
        rw [hi]
        exact Nat.not_lt.mpr (hmap i)
      rw [hr, animate_falling]
      simp [Koopa.ground, if_neg ht]
    · exact ih r.1 r.2 t h2 r' e

/-- The closed form of the free-fall height stays within the 32-bit `int` for
the first 6908 updates, and leaves it at update 6909. -/
theorem free_fall_height_range (i : Nat) (hi : i < 6908) :
    28928 ≤ shl 113 8 + 45 * ((i : Int) + 1) * (i : Int) ∧
    shl 113 8 + 45 * ((i : Int) + 1) * (i : Int) ≤ 2147483647 ∧
    2147483647 < shl 113 8 + 45 * ((6908 : Int) + 1) * 6908 := by
  have h0 : (0 : Int) ≤ i := by positivity
  have h1 : (i : Int) ≤ 6907 := by exact_mod_cast Nat.le_of_lt_succ hi
  have hq : ((i : Int) + 1) * (i : Int) ≤ 6908 * 6907 := by nlinarith
  have hq0 : 0 ≤ ((i : Int) + 1) * (i : Int) := by positivity
  have e : 45 * ((i : Int) + 1) * (i : Int) = 45 * (((i : Int) + 1) * (i : Int)) := by ring
  have e8 : shl 113 8 = 28928 := by simp [shl]
  rw [e, e8]
  refine ⟨by linarith, by linarith, by norm_num⟩

/-- C6, as the code has it.  Free fall from the initial state of `koopa_init`
(`x = 100<<8`, `y = 113<<8`, `yvel = 0`, `gravity = 90`, `falling` set) over a
map with positive dimensions on which none of the N updates finds a solid tile
under the feet (`falling` is still set after each of them), for N up to 6908:
the N updates return; the first one leaves `y` at its initial value, because
`yvel` is still 0 when it is added; the height after update `k` is
`(113<<8) + 45 * k * (k-1)`, which for `k ≤ 6908` lies within the 32-bit `int`
(at most `2^31 - 1`), so no addition overflows; so from the second update on
`y` strictly increases at every call.  (At update 6909 the closed form exceeds
`2^31 - 1`: the bound on N cannot be raised.) -/
theorem free_fall_from_init (mapBack : Int → Nat) (w h : Int) (hw : 0 < w) (hh : 0 < h)
    (p : Pool) (frames : List (Koopa2 × Int)) (hlen : frames.length ≤ 6908)
    (hfree : ∀ (fuel : Nat) (trace : List (Pool × Koopa)),
      koopa_update_all fuel mapBack w h (koopa_init p).1 (koopa_init p).2 frames = some trace →
      ∀ r ∈ trace, r.2.falling ≠ 0) :
    ∃ N : Nat, ∀ fuel : Nat, N ≤ fuel → ∃ trace : List (Pool × Koopa),
      koopa_update_all fuel mapBack w h (koopa_init p).1 (koopa_init p).2 frames
        = some trace ∧
      trace.length = frames.length ∧
      trace.map (fun r => r.2.y)
        = (List.range frames.length).map
            (fun i : Nat => shl 113 8 + 45 * ((i : Int) + 1) * (i : Int)) ∧
      (∀ r ∈ trace, 28928 ≤ r.2.y ∧ r.2.y ≤ 2147483647) ∧
      (∀ r, trace.head? = some r → r.2.y = (koopa_init p).2.y) ∧
      List.Pairwise (fun a b => a < b) (trace.map (fun r => r.2.y)) := by
  obtain ⟨N, hN⟩ := koopa_update_all_returns mapBack w h hw hh frames (koopa_init p).2
  refine ⟨N, fun fuel hf => ?_⟩
  obtain ⟨trace, ht⟩ := hN (koopa_init p).1 fuel hf
  obtain ⟨i1, i2, i3, i4, _⟩ := koopa_init_state p
  have hys := free_fall_heights 28928 fuel mapBack w h frames (koopa_init p).1
    (koopa_init p).2 0 trace i1 i2 (by rw [i3]; simp) (by rw [i4]; simp) ht
    (hfree fuel trace ht)
  have hys2 : trace.map (fun r => r.2.y)
      = (List.range frames.length).map
          (fun i : Nat => shl 113 8 + 45 * ((i : Int) + 1) * (i : Int)) := by
    rw [hys]
    apply List.map_congr_left
    intro i _
    simp [shl]
  refine ⟨trace, ht, trace_length fuel mapBack w h frames _ _ trace ht, hys2, ?_, ?_, ?_⟩
  · intro r hr
    have hm : r.2.y ∈ trace.map (fun r => r.2.y) := List.mem_map_of_mem _ hr
    rw [hys2] at hm
    obtain ⟨i, hi, e⟩ := List.mem_map.mp hm
    have hi2 : i < 6908 := lt_of_lt_of_le (List.mem_range.mp hi) hlen
    obtain ⟨b1, b2, _⟩ := free_fall_height_range i hi2
    rw [← e]
    exact ⟨b1, b2⟩
  · intro r hr
    cases trace with
    | nil => cases hr
    | cons a t =>
      simp only [List.head?_cons, Option.some.injEq] at hr
      subst hr
      cases hfr : frames with
      | nil => rw [hfr] at hys; simp at hys
      | cons f rest =>
        rw [hfr] at hys
        simp only [List.map_cons, List.length_cons, List.range_succ_eq_map] at hys
        have := (List.cons.inj hys).1
        rw [this, i4]
        simp
  · rw [hys2]
    refine List.Pairwise.map _ ?_ (List.pairwise_lt_range _)
    intro a b hab
    have : (a : Int) < b := by exact_mod_cast hab
    have ha : (0 : Int) ≤ a := by positivity
    nlinarith

/-- Witness of C6: three updates from the start of a round over a 32 x 32 map
whose tiles are all 0.  The heights after the three updates are 28928 (the
initial height), 29018 and 29198. -/
theorem free_fall_from_init_witness :
    (0 : Int) < 32 ∧
    [(start_koopa2.2, (0 : Int)), (start_koopa2.2, 1), (start_koopa2.2, 2)].length ≤ 6908 ∧
    ∃ N : Nat, ∀ fuel : Nat, N ≤ fuel → ∃ trace : List (Pool × Koopa),
      koopa_update_all fuel (fun _ => 0) 32 32 (koopa_init start_pool).1
        (koopa_init start_pool).2
        [(start_koopa2.2, 0), (start_koopa2.2, 1), (start_koopa2.2, 2)] = some trace ∧
      trace.map (fun r => r.2.y) = [28928, 29018, 29198] ∧
      (koopa_init start_pool).2.y = 28928 := by
  obtain ⟨N, hN⟩ := free_fall_from_init (fun _ => 0) 32 32 (by decide) (by decide) start_pool
    [(start_koopa2.2, 0), (start_koopa2.2, 1), (start_koopa2.2, 2)] (by decide)
    (fun fuel trace ht =>
      falling_of_no_solid (fun _ => 0) (fun _ => Nat.zero_le 510) fuel 32 32 _ _ _ trace ht)
  refine ⟨by decide, by decide, N, fun fuel hf => ?_⟩
  obtain ⟨trace, h1, _, h3, _, _, _⟩ := hN fuel hf
  refine ⟨trace, h1, ?_, by decide⟩
  rw [h3]
  decide

/-- Counterexample to C6 as stated: at the start of a round, over a 32 x 32 map
whose tiles are all 0, the first update returns and leaves `y` at `113<<8`
(28928): `y` after update 1 is not greater than `y` before it. -/
theorem free_fall_first_update_keeps_y :
    start_koopa.2.y = 28928 ∧
    ∃ r : Pool × Koopa,
      koopa_update 4 (fun _ => 0) 32 32 start_koopa2.1 start_koopa.2 start_koopa2.2 0
        = some r ∧
      r.2.y = 28928 ∧ r.2.falling = 1 ∧ ¬ start_koopa.2.y < r.2.y := by
  have hy : (koopa_update 4 (fun _ => 0) 32 32 start_koopa2.1 start_koopa.2
      start_koopa2.2 0).map (fun r => (r.2.y, r.2.falling)) = some (28928, 1) := by
    decide
  refine ⟨by decide, ?_⟩
  cases h : koopa_update 4 (fun _ => 0) 32 32 start_koopa2.1 start_koopa.2
      start_koopa2.2 0 with
  | none => rw [h] at hy; cases hy
  | some r =>
    rw [h] at hy
    simp only [Option.map_some', Option.some.injEq, Prod.mk.injEq] at hy
    refine ⟨r, rfl, hy.1, hy.2, ?_⟩
    rw [hy.1]
    decide

/-! ## Animation -/

theorem succ_ediv_emod (j d : Int) (hd : 0 < d) :
    (j % d + 1 < d ∧ (j + 1) % d = j % d + 1 ∧ (j + 1) / d = j / d) ∨
    (j % d + 1 = d ∧ (j + 1) % d = 0 ∧ (j + 1) / d = j / d + 1) := by
  have h1 := Int.emod_add_ediv j d
  have h2 := Int.emod_nonneg j (ne_of_gt hd)
  have h3 := Int.emod_lt_of_pos j hd
  by_cases hc : j % d + 1 < d
  · left
    have := (@Int.ediv_emod_unique (j + 1) d (j % d + 1) (j / d) hd).mpr
      ⟨by linarith, by linarith, hc⟩
    exact ⟨hc, this.2, this.1⟩
  · right
    have he : j % d + 1 = d := by omega
    have := (@Int.ediv_emod_unique (j + 1) d 0 (j / d + 1) hd).mpr
      ⟨by rw [mul_add, mul_one]; linarith, le_refl 0, hd⟩
    exact ⟨he, this.2, this.1⟩

/-- The animation fields after one update. -/
theorem animate_fields (k : Koopa) (tile : Nat) :
    ((k.integrate.ground tile).animate).move = k.move ∧
    ((k.integrate.ground tile).animate).animation_delay = k.animation_delay ∧
    (k.move ≠ 0 → k.counter + 1 ≥ k.animation_delay →
      ((k.integrate.ground tile).animate).counter = 0 ∧
      ((k.integrate.ground tile).animate).frame
        = if k.frame + 16 > 16 then 0 else k.frame + 16) ∧
    (k.move ≠ 0 → ¬ k.counter + 1 ≥ k.animation_delay →
      ((k.integrate.ground tile).animate).counter = k.counter + 1 ∧
      ((k.integrate.ground tile).animate).frame = k.frame) := by
  unfold Koopa.animate Koopa.ground Koopa.integrate
  refine ⟨?_, ?_, ?_, ?_⟩
  · split_ifs <;> rfl
  · split_ifs <;> rfl
  · intro hm hc
    split_ifs <;> simp_all
  · intro hm hc
    split_ifs <;> simp_all

/-- One animation step in terms of the number `j` of updates made so far. -/
theorem animate_invariant (k : Koopa) (tile : Nat) (d : Int) (hd : 1 ≤ d) (j : Nat)
    (hm : k.move ≠ 0) (hdel : k.animation_delay = d) (hc : k.counter = (j : Int) % d)
    (hfr : k.frame = 16 * ((j : Int) / d % 2)) :
    ((k.integrate.ground tile).animate).move ≠ 0 ∧
    ((k.integrate.ground tile).animate).animation_delay = d ∧
    ((k.integrate.ground tile).animate).counter = ((j + 1 : Nat) : Int) % d ∧
    ((k.integrate.ground tile).animate).frame = 16 * (((j + 1 : Nat) : Int) / d % 2) := by
  obtain ⟨f1, f2, f3, f4⟩ := animate_fields k tile
  have hcast : ((j + 1 : Nat) : Int) = (j : Int) + 1 := by push_cast; rfl
  rw [hcast]
  refine ⟨by rw [f1]; exact hm, by rw [f2]; exact hdel, ?_⟩
  rcases succ_ediv_emod (j : Int) d (by omega) with ⟨a1, a2, a3⟩ | ⟨a1, a2, a3⟩
  · have hn : ¬ k.counter + 1 ≥ k.animation_delay := by rw [hc, hdel]; omega
    obtain ⟨g1, g2⟩ := f4 hm hn
    rw [g1, g2, a2, a3, hc, hfr]
    exact ⟨rfl, rfl⟩
  · have hn : k.counter + 1 ≥ k.animation_delay := by rw [hc, hdel]; omega
    obtain ⟨g1, g2⟩ := f3 hm hn
    rw [g1, g2, a2, a3, hfr]
    refine ⟨rfl, ?_⟩
    split_ifs <;> omega

/-- The animation frames over consecutive updates, after `j` updates made. -/
theorem animation_frames (d : Int) (hd : 1 ≤ d) (fuel : Nat) (mapBack : Int → Nat) (w h : Int)
    (frames : List (Koopa2 × Int)) :
    ∀ (p : Pool) (k : Koopa) (j : Nat) (trace : List (Pool × Koopa)),
      k.move ≠ 0 → k.animation_delay = d → k.counter = (j : Int) % d →
      k.frame = 16 * ((j : Int) / d % 2) →
      koopa_update_all fuel mapBack w h p k frames = some trace →
      trace.map (fun r => r.2.frame)
        = (List.range frames.length).map
            (fun i : Nat => 16 * (((j : Int) + i + 1) / d % 2)) := by
  induction frames with
  | nil =>
    intro p k j trace _ _ _ _ ht
    simp only [koopa_update_all] at ht
    cases ht
    rfl
  | cons f rest ih =>
    intro p k j trace hm hdel hc hfr ht
    obtain ⟨r, t, h1, h2, h3⟩ := koopa_update_all_cons_some fuel mapBack w h p k f rest trace ht
    obtain ⟨tile, _, hr⟩ := koopa_update_some fuel mapBack w h p k f.1 f.2 r h1
    subst h3
    obtain ⟨e1, e2, e3, e4⟩ := animate_invariant k tile d hd j hm hdel hc hfr
    rw [← hr] at e1 e2 e3 e4
    have := ih r.1 r.2 (j + 1) t e1 e2 e3 e4 h2
    simp only [List.map_cons, List.length_cons, List.range_succ_eq_map, List.map_map, this]
    refine congrArg₂ _ ?_ ?_
    · rw [e4]; push_cast; simp
    · apply List.map_congr_left
      intro i _
      simp only [Function.comp, Nat.cast_succ]
      congr 3
      ring

/-! ## The update of the secondary actor -/

/-- When the probe returns, `koopa2_update` returns, and the actor it returns is
the composition of the three blocks. -/
theorem koopa2_update_of_probe (fuel : Nat) (mapBack : Int → Nat) (w h : Int) (p : Pool)
    (koopa : Koopa) (koopa2 : Koopa2) (xscroll : Int) (tile : Nat)
    (h1 : tile_lookup fuel (shr koopa.x 8 + 8) (shr koopa.y 8 + 32) xscroll 0 mapBack w h
      = some tile) :
    ∃ q : Pool, koopa2_update fuel mapBack w h p koopa koopa2 xscroll
      = some (q, (koopa2.integrate.ground tile).animate) := by
  simp only [koopa2_update, h1]
  simp only [Koopa2.integrate, Koopa2.ground, Koopa2.animate]
  split_ifs <;> exact ⟨_, rfl⟩

/-- With positive map dimensions and enough fuel `koopa2_update` returns. -/
theorem koopa2_update_returns (mapBack : Int → Nat) (w h : Int) (hw : 0 < w) (hh : 0 < h)
    (koopa : Koopa) (koopa2 : Koopa2) (xscroll : Int) :
    ∃ (N tile : Nat), ∀ (p : Pool) (fuel : Nat), N ≤ fuel →
      tile_lookup fuel (shr koopa.x 8 + 8) (shr koopa.y 8 + 32) xscroll 0 mapBack w h
        = some tile ∧
      ∃ q : Pool, koopa2_update fuel mapBack w h p koopa koopa2 xscroll
        = some (q, (koopa2.integrate.ground tile).animate) := by
  refine ⟨((shr koopa.x 8 + 8 + xscroll) / 8).natAbs
      + ((shr koopa.y 8 + 32 + 0) / 8).natAbs,
    mapBack ((shr koopa.y 8 + 32 + 0) / 8 % h * w + (shr koopa.x 8 + 8 + xscroll) / 8 % w),
    fun p fuel hf => ?_⟩
  have h1 := tile_lookup_of_fuel mapBack w h hw hh (shr koopa.x 8 + 8)
    (shr koopa.y 8 + 32) xscroll 0 fuel hf
  exact ⟨h1, koopa2_update_of_probe fuel mapBack w h p koopa koopa2 xscroll _ h1⟩

/-- Whenever `koopa2_update` returns, the probe returned a tile and the actor
returned is the composition of the three blocks for that tile. -/
theorem koopa2_update_some (fuel : Nat) (mapBack : Int → Nat) (w h : Int) (p : Pool)
    (koopa : Koopa) (koopa2 : Koopa2) (xscroll : Int) (r : Pool × Koopa2)
    (hr : koopa2_update fuel mapBack w h p koopa koopa2 xscroll = some r) :
    ∃ tile : Nat,
      tile_lookup fuel (shr koopa.x 8 + 8) (shr koopa.y 8 + 32) xscroll 0 mapBack w h
        = some tile ∧
      r.2 = (koopa2.integrate.ground tile).animate := by
  cases h1 : tile_lookup fuel (shr koopa.x 8 + 8) (shr koopa.y 8 + 32) xscroll 0
      mapBack w h with
  | none =>
    simp only [koopa2_update, h1] at hr
    cases hr
  | some tile =>
    obtain ⟨q, hq⟩ := koopa2_update_of_probe fuel mapBack w h p koopa koopa2 xscroll tile h1
    rw [hq] at hr
    refine ⟨tile, rfl, ?_⟩
    cases hr
    rfl

theorem koopa2_update_all_cons_some (fuel : Nat) (mapBack : Int → Nat) (w h : Int) (p : Pool)
    (koopa2 : Koopa2) (f : Koopa × Int) (rest : List (Koopa × Int))
    (trace : List (Pool × Koopa2))
    (ht : koopa2_update_all fuel mapBack w h p koopa2 (f :: rest) = some trace) :
    ∃ (r : Pool × Koopa2) (t : List (Pool × Koopa2)),
      koopa2_update fuel mapBack w h p f.1 koopa2 f.2 = some r ∧
      koopa2_update_all fuel mapBack w h r.1 r.2 rest = some t ∧ trace = r :: t := by
  unfold koopa2_update_all at ht
  cases h1 : koopa2_update fuel mapBack w h p f.1 koopa2 f.2 with
  | none => simp only [h1] at ht; cases ht
  | some r =>
    simp only [h1] at ht
    cases h2 : koopa2_update_all fuel mapBack w h r.1 r.2 rest with
    | none => simp only [h2] at ht; cases ht
    | some t =>
      simp only [h2] at ht
      cases ht
      exact ⟨r, t, rfl, h2, rfl⟩

/-- With positive map dimensions, any number of consecutive updates of the
secondary actor returns, given enough fuel. -/
theorem koopa2_update_all_returns (mapBack : Int → Nat) (w h : Int) (hw : 0 < w)
    (hh : 0 < h) (frames : List (Koopa × Int)) :
    ∀ koopa2 : Koopa2, ∃ N : Nat, ∀ (p : Pool) (fuel : Nat), N ≤ fuel →
      ∃ trace : List (Pool × Koopa2),
        koopa2_update_all fuel mapBack w h p koopa2 frames = some trace := by
  induction frames with
  | nil => intro koopa2; exact ⟨0, fun p fuel _ => ⟨[], rfl⟩⟩
  | cons f rest ih =>
    intro koopa2
    obtain ⟨N1, tile, h1⟩ := koopa2_update_returns mapBack w h hw hh f.1 koopa2 f.2
    obtain ⟨N2, h2⟩ := ih (koopa2.integrate.ground tile).animate
    refine ⟨max N1 N2, fun p fuel hf => ?_⟩
    obtain ⟨_, q, hq⟩ := h1 p fuel (le_trans (le_max_left _ _) hf)
    obtain ⟨t, ht⟩ := h2 q fuel (le_trans (le_max_right _ _) hf)
    refine ⟨(q, (koopa2.integrate.ground tile).animate) :: t, ?_⟩
    simp only [koopa2_update_all, hq, ht]

/-- The animation fields of the secondary actor after one update. -/
theorem animate2_fields (k : Koopa2) (tile : Nat) :
    ((k.integrate.ground tile).animate).move = k.move ∧
    ((k.integrate.ground tile).animate).animation_delay = k.animation_delay ∧
    (k.move ≠ 0 → k.counter + 1 ≥ k.animation_delay →
      ((k.integrate.ground tile).animate).counter = 0 ∧
      ((k.integrate.ground tile).animate).frame
        = if k.frame + 16 > 16 then 0 else k.frame + 16) ∧
    (k.move ≠ 0 → ¬ k.counter + 1 ≥ k.animation_delay →
      ((k.integrate.ground tile).animate).counter = k.counter + 1 ∧
      ((k.integrate.ground tile).animate).frame = k.frame) := by
  unfold Koopa2.animate Koopa2.ground Koopa2.integrate
  refine ⟨?_, ?_, ?_, ?_⟩
  · split_ifs <;> rfl
  · split_ifs <;> rfl
  · intro hm hc
    split_ifs <;> simp_all
  · intro hm hc
    split_ifs <;> simp_all

theorem animate2_invariant (k : Koopa2) (tile : Nat) (d : Int) (hd : 1 ≤ d) (j : Nat)
    (hm : k.move ≠ 0) (hdel : k.animation_delay = d) (hc : k.counter = (j : Int) % d)
    (hfr : k.frame = 16 * ((j : Int) / d % 2)) :
    ((k.integrate.ground tile).animate).move ≠ 0 ∧
    ((k.integrate.ground tile).animate).animation_delay = d ∧
    ((k.integrate.ground tile).animate).counter = ((j + 1 : Nat) : Int) % d ∧
    ((k.integrate.ground tile).animate).frame = 16 * (((j + 1 : Nat) : Int) / d % 2) := by
  obtain ⟨f1, f2, f3, f4⟩ := animate2_fields k tile
  have hcast : ((j + 1 : Nat) : Int) = (j : Int) + 1 := by push_cast; rfl
  rw [hcast]
  refine ⟨by rw [f1]; exact hm, by rw [f2]; exact hdel, ?_⟩
  rcases succ_ediv_emod (j : Int) d (by omega) with ⟨a1, a2, a3⟩ | ⟨a1, a2, a3⟩
  · have hn : ¬ k.counter + 1 ≥ k.animation_delay := by rw [hc, hdel]; omega
    obtain ⟨g1, g2⟩ := f4 hm hn
    rw [g1, g2, a2, a3, hc, hfr]
    exact ⟨rfl, rfl⟩
  · have hn : k.counter + 1 ≥ k.animation_delay := by rw [hc, hdel]; omega
    obtain ⟨g1, g2⟩ := f3 hm hn
    rw [g1, g2, a2, a3, hfr]
    refine ⟨rfl, ?_⟩
    split_ifs <;> omega

theorem animation2_frames (d : Int) (hd : 1 ≤ d) (fuel : Nat) (mapBack : Int → Nat)
    (w h : Int) (frames : List (Koopa × Int)) :
    ∀ (p : Pool) (k : Koopa2) (j : Nat) (trace : List (Pool × Koopa2)),
      k.move ≠ 0 → k.animation_delay = d → k.counter = (j : Int) % d →
      k.frame = 16 * ((j : Int) / d % 2) →
      koopa2_update_all fuel mapBack w h p k frames = some trace →
      trace.map (fun r => r.2.frame)
        = (List.range frames.length).map
            (fun i : Nat => 16 * (((j : Int) + i + 1) / d % 2)) := by
  induction frames with
  | nil =>
    intro p k j trace _ _ _ _ ht
    simp only [koopa2_update_all] at ht
    cases ht
    rfl
  | cons f rest ih =>
    intro p k j trace hm hdel hc hfr ht
    obtain ⟨r, t, h1, h2, h3⟩ :=
      koopa2_update_all_cons_some fuel mapBack w h p k f rest trace ht
    obtain ⟨tile, _, hr⟩ := koopa2_update_some fuel mapBack w h p f.1 k f.2 r h1
    subst h3
    obtain ⟨e1, e2, e3, e4⟩ := animate2_invariant k tile d hd j hm hdel hc hfr
    rw [← hr] at e1 e2 e3 e4
    have := ih r.1 r.2 (j + 1) t e1 e2 e3 e4 h2
    simp only [List.map_cons, List.length_cons, List.range_succ_eq_map, List.map_map, this]
    refine congrArg₂ _ ?_ ?_
    · rw [e4]; push_cast; simp
    · apply List.map_congr_left
      intro i _
      simp only [Function.comp, Nat.cast_succ]
      congr 3
      ring

/-- C7. Animation cycling.  For an actor (primary or secondary) with
`move != 0`, `frame = 0`, `counter = 0` and `animation_delay = d >= 1`, over a
map with positive dimensions, any number of consecutive update calls returns
and the animation frame after the n-th call is `16 * ((n div d) mod 2)` (the
list position `i` holds the state after call `i + 1`). -/
theorem animation_cycle (mapBack : Int → Nat) (w h : Int) (hw : 0 < w) (hh : 0 < h)
    (d : Int) (hd : 1 ≤ d) (p : Pool) (k : Koopa) (k2 : Koopa2)
    (frames : List (Koopa2 × Int)) (frames2 : List (Koopa × Int))
    (hk : k.move ≠ 0 ∧ k.frame = 0 ∧ k.counter = 0 ∧ k.animation_delay = d)
    (hk2 : k2.move ≠ 0 ∧ k2.frame = 0 ∧ k2.counter = 0 ∧ k2.animation_delay = d) :
    (∃ N : Nat, ∀ fuel : Nat, N ≤ fuel → ∃ trace : List (Pool × Koopa),
      koopa_update_all fuel mapBack w h p k frames = some trace ∧
      trace.map (fun r => r.2.frame)
        = (List.range frames.length).map (fun i : Nat => 16 * (((i : Int) + 1) / d % 2))) ∧
    (∃ N : Nat, ∀ fuel : Nat, N ≤ fuel → ∃ trace : List (Pool × Koopa2),
      koopa2_update_all fuel mapBack w h p k2 frames2 = some trace ∧
      trace.map (fun r => r.2.frame)
        = (List.range frames2.length).map
            (fun i : Nat => 16 * (((i : Int) + 1) / d % 2))) := by
  have hd0 : (0 : Int) / d % 2 = 0 := by simp
  constructor
  · obtain ⟨N, hN⟩ := koopa_update_all_returns mapBack w h hw hh frames k
    refine ⟨N, fun fuel hf => ?_⟩
    obtain ⟨trace, ht⟩ := hN p fuel hf
    refine ⟨trace, ht, ?_⟩
    have := animation_frames d hd fuel mapBack w h frames p k 0 trace hk.1 hk.2.2.2
      (by rw [hk.2.2.1]; simp) (by rw [hk.2.1]; simp) ht
    rw [this]
    apply List.map_congr_left
    intro i _
    simp
  · obtain ⟨N, hN⟩ := koopa2_update_all_returns mapBack w h hw hh frames2 k2
    refine ⟨N, fun fuel hf => ?_⟩
    obtain ⟨trace, ht⟩ := hN p fuel hf
    refine ⟨trace, ht, ?_⟩
    have := animation2_frames d hd fuel mapBack w h frames2 p k2 0 trace hk2.1 hk2.2.2.2
      (by rw [hk2.2.2.1]; simp) (by rw [hk2.2.1]; simp) ht
    rw [this]
    apply List.map_congr_left
    intro i _
    simp

/-- Witness of C7 with `d = 6`: twelve updates of the primary actor after
`koopa_right` and of the secondary actor, from the start of a round over a
32 x 32 map of tiles 0.  The frame is 0 after the updates 1..5, 16 after the
updates 6..11 and 0 again after update 12. -/
theorem animation_cycle_witness :
    (0 : Int) < 32 ∧ (1 : Int) ≤ 6 ∧
    ((koopa_right start_koopa2.1 start_koopa.2).2.1.move ≠ 0 ∧
      (koopa_right start_koopa2.1 start_koopa.2).2.1.frame = 0 ∧
      (koopa_right start_koopa2.1 start_koopa.2).2.1.counter = 0 ∧
      (koopa_right start_koopa2.1 start_koopa.2).2.1.animation_delay = 6) ∧
    (start_koopa2.2.move ≠ 0 ∧ start_koopa2.2.frame = 0 ∧ start_koopa2.2.counter = 0 ∧
      start_koopa2.2.animation_delay = 6) ∧
    (∃ N : Nat, ∀ fuel : Nat, N ≤ fuel → ∃ trace : List (Pool × Koopa),
      koopa_update_all fuel (fun _ => 0) 32 32 start_koopa2.1
        (koopa_right start_koopa2.1 start_koopa.2).2.1
        (List.replicate 12 (start_koopa2.2, 0)) = some trace ∧
      trace.map (fun r => r.2.frame) = [0, 0, 0, 0, 0, 16, 16, 16, 16, 16, 16, 0]) ∧
    (∃ N : Nat, ∀ fuel : Nat, N ≤ fuel → ∃ trace : List (Pool × Koopa2),
      koopa2_update_all fuel (fun _ => 0) 32 32 start_koopa2.1 start_koopa2.2
        (List.replicate 12 (start_koopa.2, 0)) = some trace ∧
      trace.map (fun r => r.2.frame) = [0, 0, 0, 0, 0, 16, 16, 16, 16, 16, 16, 0]) := by
  have hk : (koopa_right start_koopa2.1 start_koopa.2).2.1.move ≠ 0 ∧
      (koopa_right start_koopa2.1 start_koopa.2).2.1.frame = 0 ∧
      (koopa_right start_koopa2.1 start_koopa.2).2.1.counter = 0 ∧
      (koopa_right start_koopa2.1 start_koopa.2).2.1.animation_delay = 6 := by decide
  have hk2 : start_koopa2.2.move ≠ 0 ∧ start_koopa2.2.frame = 0 ∧
      start_koopa2.2.counter = 0 ∧ start_koopa2.2.animation_delay = 6 := by decide
  have e : (List.range 12).map (fun i : Nat => 16 * (((i : Int) + 1) / 6 % 2))
      = [0, 0, 0, 0, 0, 16, 16, 16, 16, 16, 16, 0] := by decide
  have h := animation_cycle (fun _ => 0) 32 32 (by decide) (by decide) 6 (by decide)
    start_koopa2.1 (koopa_right start_koopa2.1 start_koopa.2).2.1 start_koopa2.2
    (List.replicate 12 (start_koopa2.2, 0)) (List.replicate 12 (start_koopa.2, 0)) hk hk2
  simp only [List.length_replicate, e] at h
  exact ⟨by decide, by decide, hk, hk2, h⟩

/-! ## Jump, collision test and movement intent -/

/-- C8. Jump idempotence: for every actor state, `koopa_jump` twice in a row
gives the state that one call gives; an actor that is already falling is left
unchanged, and one that is not falling gets `yvel = -1500` and `falling = 1`
with every other field unchanged. -/
theorem koopa_jump_idempotent (k : Koopa) :
    koopa_jump (koopa_jump k) = koopa_jump k ∧
    (k.falling ≠ 0 → koopa_jump k = k) ∧
    (k.falling = 0 → koopa_jump k = { k with yvel := -1500, falling := 1 }) := by
  refine ⟨?_, ?_, ?_⟩
  · by_cases hf : k.falling = 0
    · simp [koopa_jump, hf]
    · simp [koopa_jump, hf]
  · intro hf
    simp [koopa_jump, hf]
  · intro hf
    simp [koopa_jump, hf]

/-- Witness of C8: the primary actor at the start of a round is falling and is
left unchanged; the same actor standing on the ground starts a jump. -/
theorem koopa_jump_idempotent_witness :
    (start_koopa.2.falling ≠ 0 ∧ koopa_jump start_koopa.2 = start_koopa.2) ∧
    (({ start_koopa.2 with falling := 0 } : Koopa).falling = 0 ∧
      koopa_jump { start_koopa.2 with falling := 0 }
        = { ({ start_koopa.2 with falling := 0 } : Koopa) with
            yvel := -1500, falling := 1 }) ∧
    (koopa_jump (koopa_jump { start_koopa.2 with falling := 0 })).yvel = -1500 :=
  ⟨⟨by decide, (koopa_jump_idempotent start_koopa.2).2.1 (by decide)⟩,
    ⟨rfl, (koopa_jump_idempotent { start_koopa.2 with falling := 0 }).2.2 rfl⟩,
    by rw [(koopa_jump_idempotent { start_koopa.2 with falling := 0 }).1]; decide⟩

/-- The 32-bit shift by 8 keeps the low 24 bits of its operand: two shifted
values are equal exactly when the operands agree modulo `2 ^ 24`. -/
theorem shl32_eq_iff (x x' : Int) :
    shl32 x 8 = shl32 x' 8 ↔ x % 16777216 = x' % 16777216 := by
  simp only [shl32, wrap_int32]
  norm_num
  omega

/-- Where `x << 8` fits a 32-bit `int`, the 32-bit shift is the multiplication
by 256. -/
theorem shl32_of_range (x : Int) (h1 : -8388608 ≤ x) (h2 : x < 8388608) :
    shl32 x 8 = shl x 8 := by
  simp only [shl32, wrap_int32, shl]
  norm_num
  omega

/-- The result of `check` in terms of the low 24 bits of the two `x`. -/
theorem check_eq (a : Koopa) (b : Koopa2) :
    check a b = if a.x % 16777216 = b.x % 16777216 ∧ a.y = b.y then 1 else 0 := by
  simp only [check, shl32_eq_iff]

/-- C9, as the code has it.  For every pair of actor states, `check` returns 1
when the two actors have the same `x` and the same `y`, and 0 when they differ
in `y`; the two `x` are compared after `x << 8` on the 32-bit `int`, that is by
their low 24 bits only: `check` returns 1 exactly when the `y` are equal and
the `x` agree modulo `2 ^ 24`.  For `x` values in `[-2^23, 2^23)`, where
`x << 8` does not overflow, `check` returns 0 for any positional difference. -/
theorem check_compares_low_bits (a : Koopa) (b : Koopa2) :
    (a.x = b.x ∧ a.y = b.y → check a b = 1) ∧
    (check a b = 1 ↔ a.x % 16777216 = b.x % 16777216 ∧ a.y = b.y) ∧
    (check a b = 0 ↔ a.x % 16777216 ≠ b.x % 16777216 ∨ a.y ≠ b.y) ∧
    (-8388608 ≤ a.x ∧ a.x < 8388608 → -8388608 ≤ b.x ∧ b.x < 8388608 →
      (a.x ≠ b.x ∨ a.y ≠ b.y → check a b = 0)) := by
  rw [check_eq]
  refine ⟨?_, ?_, ?_, ?_⟩
  · rintro ⟨hx, hy⟩
    rw [if_pos ⟨by rw [hx], hy⟩]
  · constructor
    · intro h
      by_contra hc
      rw [if_neg hc] at h
      exact absurd h (by decide)
    · intro h
      rw [if_pos h]
  · constructor
    · intro h
      by_contra hc
      have hp : a.x % 16777216 = b.x % 16777216 ∧ a.y = b.y := by
        constructor
        · by_contra hx
          exact hc (Or.inl hx)
        · by_contra hy
          exact hc (Or.inr hy)
      rw [if_pos hp] at h
      exact absurd h (by decide)
    · intro h
      have hn : ¬ (a.x % 16777216 = b.x % 16777216 ∧ a.y = b.y) := by
        rintro ⟨hx, hy⟩
        rcases h with h | h
        · exact h hx
        · exact h hy
      rw [if_neg hn]
  · intro ha hb h
    have hn : ¬ (a.x % 16777216 = b.x % 16777216 ∧ a.y = b.y) := by
      rintro ⟨hx, hy⟩
      rcases h with h | h
      · apply h
        omega
      · exact h hy
    rw [if_neg hn]

/-- Witness of C9: the two actors at the start of a round share their position
and `check` returns 1; after `koopa_left` the primary actor is one pixel
further left, both `x` are in `[-2^23, 2^23)`, and `check` returns 0. -/
theorem check_compares_low_bits_witness :
    (start_koopa.2.x = start_koopa2.2.x ∧ start_koopa.2.y = start_koopa2.2.y ∧
      check start_koopa.2 start_koopa2.2 = 1) ∧
    ((-8388608 ≤ (koopa_left start_koopa2.1 start_koopa.2).2.1.x ∧
        (koopa_left start_koopa2.1 start_koopa.2).2.1.x < 8388608) ∧
      (-8388608 ≤ start_koopa2.2.x ∧ start_koopa2.2.x < 8388608) ∧
      ((koopa_left start_koopa2.1 start_koopa.2).2.1.x ≠ start_koopa2.2.x ∨
        (koopa_left start_koopa2.1 start_koopa.2).2.1.y ≠ start_koopa2.2.y) ∧
      check (koopa_left start_koopa2.1 start_koopa.2).2.1 start_koopa2.2 = 0) :=
  ⟨⟨by decide, by decide,
      (check_compares_low_bits start_koopa.2 start_koopa2.2).1 ⟨by decide, by decide⟩⟩,
    ⟨by decide, by decide, Or.inl (by decide),
      (check_compares_low_bits (koopa_left start_koopa2.1 start_koopa.2).2.1
        start_koopa2.2).2.2.2 (by decide) (by decide) (Or.inl (by decide))⟩⟩

/-- Counterexample to C9 as stated: a primary actor at `x = 16777216` (`2^24`)
and a secondary actor at `x = 0`, both at the initial height, differ in `x`,
yet `check` returns 1: `16777216 << 8` is `2^32`, which is 0 on the 32-bit
`int`, the same as `0 << 8`. -/
theorem check_far_apart_returns_one :
    ({ start_koopa.2 with x := 16777216 } : Koopa).x
      ≠ ({ start_koopa2.2 with x := 0 } : Koopa2).x ∧
    ({ start_koopa.2 with x := 16777216 } : Koopa).y
      = ({ start_koopa2.2 with x := 0 } : Koopa2).y ∧
    shl32 16777216 8 = 0 ∧ shl32 0 8 = 0 ∧
    check { start_koopa.2 with x := 16777216 } { start_koopa2.2 with x := 0 } = 1 := by
  decide

theorem flip_bit_set (a : Nat) : (toU16 (Int.lor (a : Int) 0x1000)).testBit 12 = true := by
  have : Int.lor (a : Int) 0x1000 = ((a ||| 0x1000 : Nat) : Int) := rfl
  rw [this, toU16_natCast]
  have h2 : (65536 : Nat) = 2 ^ 16 := by norm_num
  rw [h2, Nat.testBit_mod_two_pow, Nat.testBit_or]
  have : Nat.testBit 0x1000 12 = true := by decide
  simp [this]

theorem flip_bit_clear (a : Nat) : (toU16 (Int.land (a : Int) 0xefff)).testBit 12 = false := by
  have : Int.land (a : Int) 0xefff = ((a &&& 0xefff : Nat) : Int) := rfl
  rw [this, toU16_natCast]
  have h2 : (65536 : Nat) = 2 ^ 16 := by norm_num
  rw [h2, Nat.testBit_mod_two_pow, Nat.testBit_and]
  have : Nat.testBit 0xefff 12 = false := by decide
  simp [this]

/-- C10. Movement intent of the primary actor.  `koopa_left` returns 1 exactly
when `(x >> 8) < border`, and then leaves `x` unchanged; otherwise it returns 0
and decreases `x` by 256.  `koopa_right` returns 1 exactly when
`(x >> 8) > 240 - 16 - border`, and then leaves `x` unchanged; otherwise it
returns 0 and increases `x` by 256.  In every case `move` becomes 1 and the
horizontal-flip bit (bit 12 of `attribute1`) of the actor's sprite is set by
`koopa_left` and cleared by `koopa_right`. -/
theorem koopa_left_right_intent (p : Pool) (k : Koopa) :
    (((koopa_left p k).2.2 = 1 ↔ shr k.x 8 < k.border) ∧
      (shr k.x 8 < k.border → (koopa_left p k).2.1.x = k.x) ∧
      (¬ shr k.x 8 < k.border →
        (koopa_left p k).2.2 = 0 ∧ (koopa_left p k).2.1.x = k.x - 256) ∧
      (koopa_left p k).2.1.move = 1 ∧
      ((koopa_left p k).1.sprites k.sprite).attribute1.testBit 12 = true) ∧
    (((koopa_right p k).2.2 = 1 ↔ shr k.x 8 > 240 - 16 - k.border) ∧
      (shr k.x 8 > 240 - 16 - k.border → (koopa_right p k).2.1.x = k.x) ∧
      (¬ shr k.x 8 > 240 - 16 - k.border →
        (koopa_right p k).2.2 = 0 ∧ (koopa_right p k).2.1.x = k.x + 256) ∧
      (koopa_right p k).2.1.move = 1 ∧
      ((koopa_right p k).1.sprites k.sprite).attribute1.testBit 12 = false) := by
  have el : koopa_left p k
      = (p.update k.sprite (fun s => sprite_set_horizontal_flip s 1),
          if shr k.x 8 < k.border then ({ k with move := 1 }, 1)
          else ({ k with move := 1, x := k.x - 256 }, 0)) := by
    unfold koopa_left
    by_cases hc : shr k.x 8 < k.border
    · simp only [if_pos hc]
    · simp only [if_neg hc]
  have er : koopa_right p k
      = (p.update k.sprite (fun s => sprite_set_horizontal_flip s 0),
          if shr k.x 8 > 240 - 16 - k.border then ({ k with move := 1 }, 1)
          else ({ k with move := 1, x := k.x + 256 }, 0)) := by
    unfold koopa_right SCREEN_WIDTH
    by_cases hc : shr k.x 8 > 240 - 16 - k.border
    · simp only [if_pos hc]
    · simp only [if_neg hc]
  have hl : ((koopa_left p k).1.sprites k.sprite).attribute1
      = toU16 (Int.lor ((p.sprites k.sprite).attribute1 : Int) 0x1000) := by
    rw [el]
    simp [Pool.update, Pool.store, sprite_set_horizontal_flip]
  have hr : ((koopa_right p k).1.sprites k.sprite).attribute1
      = toU16 (Int.land ((p.sprites k.sprite).attribute1 : Int) 0xefff) := by
    rw [er]
    simp [Pool.update, Pool.store, sprite_set_horizontal_flip]
  refine ⟨⟨?_, ?_, ?_, ?_, ?_⟩, ⟨?_, ?_, ?_, ?_, ?_⟩⟩
  · by_cases hc : shr k.x 8 < k.border
    · rw [el, if_pos hc]
      exact ⟨fun _ => hc, fun _ => rfl⟩
    · rw [el, if_neg hc]
      exact ⟨fun h => absurd (show (0 : Int) = 1 from h) (by decide), fun h => absurd h hc⟩
  · intro hc
    rw [el, if_pos hc]
  · intro hc
    rw [el, if_neg hc]
    exact ⟨rfl, rfl⟩
  · by_cases hc : shr k.x 8 < k.border
    · rw [el, if_pos hc]
    · rw [el, if_neg hc]
  · rw [hl]
    exact flip_bit_set _
  · by_cases hc : shr k.x 8 > 240 - 16 - k.border
    · rw [er, if_pos hc]
      exact ⟨fun _ => hc, fun _ => rfl⟩
    · rw [er, if_neg hc]
      exact ⟨fun h => absurd (show (0 : Int) = 1 from h) (by decide), fun h => absurd h hc⟩
  · intro hc
    rw [er, if_pos hc]
  · intro hc
    rw [er, if_neg hc]
    exact ⟨rfl, rfl⟩
  · by_cases hc : shr k.x 8 > 240 - 16 - k.border
    · rw [er, if_pos hc]
    · rw [er, if_neg hc]
  · rw [hr]
    exact flip_bit_clear _

/-- Witness of C10: at the start of a round the primary actor is at pixel 100,
inside both borders (70 and 154), so both calls move it by one pixel. -/
theorem koopa_left_right_intent_witness :
    (¬ shr start_koopa.2.x 8 < start_koopa.2.border ∧
      (koopa_left start_koopa2.1 start_koopa.2).2.2 = 0 ∧
      (koopa_left start_koopa2.1 start_koopa.2).2.1.x = start_koopa.2.x - 256) ∧
    (¬ shr start_koopa.2.x 8 > 240 - 16 - start_koopa.2.border ∧
      (koopa_right start_koopa2.1 start_koopa.2).2.2 = 0 ∧
      (koopa_right start_koopa2.1 start_koopa.2).2.1.x = start_koopa.2.x + 256) ∧
    (shr ({ start_koopa.2 with x := 60 * 256 } : Koopa).x 8
        < ({ start_koopa.2 with x := 60 * 256 } : Koopa).border ∧
      (koopa_left start_koopa2.1 { start_koopa.2 with x := 60 * 256 }).2.1.x
        = ({ start_koopa.2 with x := 60 * 256 } : Koopa).x) :=
  ⟨⟨by decide,
      (koopa_left_right_intent start_koopa2.1 start_koopa.2).1.2.2.1 (by decide)⟩,
    ⟨by decide,
      (koopa_left_right_intent start_koopa2.1 start_koopa.2).2.2.2.1 (by decide)⟩,
    ⟨by decide,
      (koopa_left_right_intent start_koopa2.1
        { start_koopa.2 with x := 60 * 256 }).1.2.1 (by decide)⟩⟩

/-! ## Encoding of the attribute words -/

theorem or_eq_add (b a k : Nat) (hb : b < 2 ^ k) : b ||| a * 2 ^ k = b + a * 2 ^ k := by
  rw [Nat.or_comm, Nat.mul_comm, ← Nat.mul_add_lt_is_or hb, Nat.add_comm]

theorem shl_natCast (a k : Nat) : shl (a : Int) k = ((a * 2 ^ k : Nat) : Int) := by
  unfold shl
  push_cast
  rfl

theorem flag_natCast (f : Int) :
    (if f ≠ 0 then (1 : Int) else 0) = (((if f ≠ 0 then 1 else 0 : Nat)) : Int) := by
  split_ifs <;> rfl

/-- The value stored in `attribute0` by `sprite_init`. -/
theorem word0_eq (y s : Nat) (hy : y < 256) (hs : s ≤ 3) :
    toU16 (Int.lor (Int.lor (Int.lor (Int.lor (Int.lor (y : Int) (shl 0 8)) (shl 0 10))
      (shl 0 12)) (shl 1 13)) (shl (s : Int) 14)) = y + 8192 + 16384 * s := by
  have z8 : shl 0 8 = ((0 : Nat) : Int) := by simp [shl]
  have z10 : shl 0 10 = ((0 : Nat) : Int) := by simp [shl]
  have z12 : shl 0 12 = ((0 : Nat) : Int) := by simp [shl]
  have o13 : shl 1 13 = ((1 * 2 ^ 13 : Nat) : Int) := shl_natCast 1 13
  rw [z8, z10, z12, o13, shl_natCast s 14]
  simp only [lor_natCast, toU16_natCast, Nat.or_zero]
  rw [or_eq_add y 1 13 (by omega), or_eq_add _ s 14 (by omega)]
  omega

/-- The value stored in `attribute1` by `sprite_init`. -/
theorem word1_eq (x h v s : Nat) (hx : x < 512) (hh : h ≤ 1) (hv : v ≤ 1) (hs : s ≤ 3) :
    toU16 (Int.lor (Int.lor (Int.lor (Int.lor (x : Int) (shl 0 9)) (shl (h : Int) 12))
      (shl (v : Int) 13)) (shl (s : Int) 14)) = x + 4096 * h + 8192 * v + 16384 * s := by
  have z9 : shl 0 9 = ((0 : Nat) : Int) := by simp [shl]
  rw [z9, shl_natCast h 12, shl_natCast v 13, shl_natCast s 14]
  simp only [lor_natCast, toU16_natCast, Nat.or_zero]
  rw [or_eq_add x h 12 (by omega), or_eq_add _ v 13 (by omega), or_eq_add _ s 14 (by omega)]
  omega

/-- The value stored in `attribute2` by `sprite_init`. -/
theorem word2_eq (t q : Nat) (ht : t < 1024) (hq : q < 4) :
    toU16 (Int.lor (Int.lor (t : Int) (shl (q : Int) 10)) (shl 0 12)) = t + 1024 * q := by
  have z12 : shl 0 12 = ((0 : Nat) : Int) := by simp [shl]
  rw [z12, shl_natCast q 10]
  simp only [lor_natCast, toU16_natCast, Nat.or_zero]
  rw [or_eq_add t q 10 (by omega)]
  omega

theorem size_shape_range (size : SpriteSize) :
    ∃ s sh : Nat, s ≤ 3 ∧ sh ≤ 2 ∧ size_shape_bits size = ((s : Int), (sh : Int)) := by
  cases size
  · exact ⟨0, 0, by decide, by decide, rfl⟩
  · exact ⟨1, 0, by decide, by decide, rfl⟩
  · exact ⟨2, 0, by decide, by decide, rfl⟩
  · exact ⟨3, 0, by decide, by decide, rfl⟩
  · exact ⟨0, 1, by decide, by decide, rfl⟩
  · exact ⟨1, 1, by decide, by decide, rfl⟩
  · exact ⟨2, 1, by decide, by decide, rfl⟩
  · exact ⟨3, 1, by decide, by decide, rfl⟩
  · exact ⟨0, 2, by decide, by decide, rfl⟩
  · exact ⟨1, 2, by decide, by decide, rfl⟩
  · exact ⟨2, 2, by decide, by decide, rfl⟩
  · exact ⟨3, 2, by decide, by decide, rfl⟩

theorem size_shape_injective : Function.Injective size_shape_bits := by
  intro a b h
  cases a <;> cases b <;> first | rfl | (exact absurd h (by decide))

theorem testBit_eq (a i : Nat) : a.testBit i = decide (a / 2 ^ i % 2 = 1) :=
  Nat.testBit_to_div_mod

theorem and_255 (a : Nat) : a &&& 0xff = a % 256 := Nat.and_pow_two_sub_one_eq_mod a 8

theorem and_511 (a : Nat) : a &&& 0x1ff = a % 512 := Nat.and_pow_two_sub_one_eq_mod a 9

theorem and_1023 (a : Nat) : a &&& 0x3ff = a % 1024 := Nat.and_pow_two_sub_one_eq_mod a 10

theorem and_3 (a : Nat) : a &&& 3 = a % 4 := Nat.and_pow_two_sub_one_eq_mod a 2

/-- The three words that `sprite_init` writes, for inputs in range. -/
theorem sprite_init_words (p : Pool) (x y t q : Nat) (size : SpriteSize) (hf vf : Int)
    (hx : x < 512) (hy : y < 256) (ht : t < 1024) (hq : q < 4) :
    ∃ s sh h v : Nat, s ≤ 3 ∧ sh ≤ 2 ∧ size_shape_bits size = ((s : Int), (sh : Int)) ∧
      h = (if hf ≠ 0 then 1 else 0) ∧ v = (if vf ≠ 0 then 1 else 0) ∧
      ((sprite_init p x y size hf vf t q).1.sprites p.next_sprite_index).attribute0
        = y + 8192 + 16384 * sh ∧
      ((sprite_init p x y size hf vf t q).1.sprites p.next_sprite_index).attribute1
        = x + 4096 * h + 8192 * v + 16384 * s ∧
      ((sprite_init p x y size hf vf t q).1.sprites p.next_sprite_index).attribute2
        = t + 1024 * q := by
  obtain ⟨s, sh, hs, hsh, hss⟩ := size_shape_range size
  refine ⟨s, sh, if hf ≠ 0 then 1 else 0, if vf ≠ 0 then 1 else 0, hs, hsh, hss, rfl, rfl,
    ?_, ?_, ?_⟩
  · simp only [sprite_init, Pool.store, Function.update_same, hss]
    exact word0_eq y sh hy (by omega)
  · simp only [sprite_init, Pool.store, Function.update_same, hss, flag_natCast]
    exact word1_eq x _ _ s hx (by split_ifs <;> omega) (by split_ifs <;> omega) hs
  · simp only [sprite_init, Pool.store, Function.update_same]
    exact word2_eq t q ht hq

/-- C11. Allocation encoding round trip.  For every pool and inputs
`0 <= x < 512`, `0 <= y < 256`, `0 <= tile_index < 1024`, `0 <= priority < 4`,
any flip arguments and any of the 12 size categories, `sprite_init` writes the
slot `i = next_sprite_index` so that decoding gives the inputs back:
`attribute0 & 0xff = y`, `attribute1 & 0x1ff = x`, bit 12 of `attribute1` is
`[horizontal_flip != 0]`, bit 13 of `attribute1` is `[vertical_flip != 0]`,
bit 13 of `attribute0` is 1, `attribute2 & 0x3ff = tile_index`,
`(attribute2 >> 10) & 3 = priority`, and the top two bits of `attribute0` and
`attribute1` are the shape and size bits of the category; the shape bits are in
`{0,1,2}`, the size bits in `{0..3}` and the 12 categories have pairwise
distinct pairs; the pointer returned is slot `i` and the next-free index
becomes `i + 1`. -/
theorem sprite_init_round_trip (p : Pool) (x y tile_index priority : Int)
    (size : SpriteSize) (horizontal_flip vertical_flip : Int)
    (hx : 0 ≤ x ∧ x < 512) (hy : 0 ≤ y ∧ y < 256)
    (ht : 0 ≤ tile_index ∧ tile_index < 1024) (hq : 0 ≤ priority ∧ priority < 4) :
    ((((sprite_init p x y size horizontal_flip vertical_flip tile_index priority).1.sprites
        p.next_sprite_index).attribute0 &&& 0xff : Nat) : Int) = y ∧
    ((((sprite_init p x y size horizontal_flip vertical_flip tile_index priority).1.sprites
        p.next_sprite_index).attribute1 &&& 0x1ff : Nat) : Int) = x ∧
    ((sprite_init p x y size horizontal_flip vertical_flip tile_index priority).1.sprites
        p.next_sprite_index).attribute1.testBit 12 = decide (horizontal_flip ≠ 0) ∧
    ((sprite_init p x y size horizontal_flip vertical_flip tile_index priority).1.sprites
        p.next_sprite_index).attribute1.testBit 13 = decide (vertical_flip ≠ 0) ∧
    ((sprite_init p x y size horizontal_flip vertical_flip tile_index priority).1.sprites
        p.next_sprite_index).attribute0.testBit 13 = true ∧
    ((((sprite_init p x y size horizontal_flip vertical_flip tile_index priority).1.sprites
        p.next_sprite_index).attribute2 &&& 0x3ff : Nat) : Int) = tile_index ∧
    (((((sprite_init p x y size horizontal_flip vertical_flip tile_index priority).1.sprites
        p.next_sprite_index).attribute2 >>> 10) &&& 3 : Nat) : Int) = priority ∧
    ((((sprite_init p x y size horizontal_flip vertical_flip tile_index priority).1.sprites
        p.next_sprite_index).attribute0 >>> 14 : Nat) : Int) = (size_shape_bits size).2 ∧
    ((((sprite_init p x y size horizontal_flip vertical_flip tile_index priority).1.sprites
        p.next_sprite_index).attribute1 >>> 14 : Nat) : Int) = (size_shape_bits size).1 ∧
    (0 ≤ (size_shape_bits size).2 ∧ (size_shape_bits size).2 ≤ 2) ∧
    (0 ≤ (size_shape_bits size).1 ∧ (size_shape_bits size).1 ≤ 3) ∧
    Function.Injective size_shape_bits ∧
    (sprite_init p x y size horizontal_flip vertical_flip tile_index priority).2
      = p.next_sprite_index ∧
    (sprite_init p x y size horizontal_flip vertical_flip tile_index priority).1.next_sprite_index
      = p.next_sprite_index + 1 := by
  obtain ⟨xn, rfl⟩ := Int.eq_ofNat_of_zero_le hx.1
  obtain ⟨yn, rfl⟩ := Int.eq_ofNat_of_zero_le hy.1
  obtain ⟨tn, rfl⟩ := Int.eq_ofNat_of_zero_le ht.1
  obtain ⟨qn, rfl⟩ := Int.eq_ofNat_of_zero_le hq.1
  obtain ⟨s, sh, h, v, hs, hsh, hss, hh, hv, e0, e1, e2⟩ :=
    sprite_init_words p xn yn tn qn size horizontal_flip vertical_flip
      (by omega) (by omega) (by omega) (by omega)
  have hh1 : h ≤ 1 := by rw [hh]; split_ifs <;> omega
  have hv1 : v ≤ 1 := by rw [hv]; split_ifs <;> omega
  rw [e0, e1, e2, hss]
  simp only [and_255, and_511, and_1023, and_3, testBit_eq, Nat.shiftRight_eq_div_pow]
  refine ⟨?_, ?_, ?_, ?_, ?_, ?_, ?_, ?_, ?_, ?_, ?_, size_shape_injective, rfl, rfl⟩
  · omega
  · omega
  · by_cases c : horizontal_flip = 0
    · have : h = 0 := by rw [hh]; simp [c]
      subst this
      simp only [c]
      simp
      omega
    · have : h = 1 := by rw [hh]; simp [c]
      subst this
      simp [c]
      omega
  · by_cases c : vertical_flip = 0
    · have : v = 0 := by rw [hv]; simp [c]
      subst this
      simp [c]
      omega
    · have : v = 1 := by rw [hv]; simp [c]
      subst this
      simp [c]
      omega
  · simp
    omega
  · omega
  · omega
  · omega
  · omega
  · omega
  · omega

/-- Witness of C11: a 32 x 64 sprite at (100, 113), flipped horizontally, with
tile index 16 and priority 2, allocated at the start of a round. -/
theorem sprite_init_round_trip_witness :
    ((0 : Int) ≤ 100 ∧ (100 : Int) < 512) ∧ ((0 : Int) ≤ 113 ∧ (113 : Int) < 256) ∧
    ((0 : Int) ≤ 16 ∧ (16 : Int) < 1024) ∧ ((0 : Int) ≤ 2 ∧ (2 : Int) < 4) ∧
    ((((sprite_init start_pool 100 113 .SIZE_32_64 1 0 16 2).1.sprites
        start_pool.next_sprite_index).attribute0 &&& 0xff : Nat) : Int) = 113 ∧
    ((((sprite_init start_pool 100 113 .SIZE_32_64 1 0 16 2).1.sprites
        start_pool.next_sprite_index).attribute1 &&& 0x1ff : Nat) : Int) = 100 ∧
    ((sprite_init start_pool 100 113 .SIZE_32_64 1 0 16 2).1.sprites
        start_pool.next_sprite_index).attribute1.testBit 12 = decide ((1 : Int) ≠ 0) :=
  ⟨⟨by decide, by decide⟩, ⟨by decide, by decide⟩, ⟨by decide, by decide⟩,
    ⟨by decide, by decide⟩,
    (sprite_init_round_trip start_pool 100 113 16 2 .SIZE_32_64 1 0 ⟨by decide, by decide⟩
      ⟨by decide, by decide⟩ ⟨by decide, by decide⟩ ⟨by decide, by decide⟩).1,
    (sprite_init_round_trip start_pool 100 113 16 2 .SIZE_32_64 1 0 ⟨by decide, by decide⟩
      ⟨by decide, by decide⟩ ⟨by decide, by decide⟩ ⟨by decide, by decide⟩).2.1,
    (sprite_init_round_trip start_pool 100 113 16 2 .SIZE_32_64 1 0 ⟨by decide, by decide⟩
      ⟨by decide, by decide⟩ ⟨by decide, by decide⟩ ⟨by decide, by decide⟩).2.2.1⟩

/-! ## Pool reset -/

/-- The loop of `sprite_clear` over any list of slots: a slot of the list, or
one that was off screen before, is off screen afterwards. -/
theorem clear_loop_slots (l : List Nat) :
    ∀ (q : Pool) (i : Int),
      ((∃ n ∈ l, (n : Int) = i) ∨
        ((q.sprites i).attribute0 = 160 ∧ (q.sprites i).attribute1 = 240)) →
      ((l.foldl (fun (q : Pool) (i : Nat) =>
        let q := q.store (i : Int) { q.sprites (i : Int) with attribute0 := toU16 SCREEN_HEIGHT }
        q.store (i : Int) { q.sprites (i : Int) with attribute1 := toU16 SCREEN_WIDTH })
          q).sprites i).attribute0 = 160 ∧
      ((l.foldl (fun (q : Pool) (i : Nat) =>
        let q := q.store (i : Int) { q.sprites (i : Int) with attribute0 := toU16 SCREEN_HEIGHT }
        q.store (i : Int) { q.sprites (i : Int) with attribute1 := toU16 SCREEN_WIDTH })
          q).sprites i).attribute1 = 240 := by
  induction l with
  | nil =>
    intro q i h
    rcases h with ⟨n, hn, _⟩ | h
    · cases hn
    · exact h
  | cons a l ih =>
    intro q i h
    rw [List.foldl_cons]
    apply ih
    by_cases hai : (a : Int) = i
    · right
      subst hai
      simp [Pool.store, toU16, SCREEN_HEIGHT, SCREEN_WIDTH]
    · rcases h with ⟨n, hn, hni⟩ | h
      · rcases List.mem_cons.mp hn with e | e
        · subst e
          exact absurd hni hai
        · exact Or.inl ⟨n, e, hni⟩
      · right
        have hia : i ≠ (a : Int) := fun e => hai e.symm
        simpa [Pool.store, Function.update_noteq hia] using h

/-- C12. Pool reset: for every pool, after `sprite_clear` the next-free index is
0 and every slot `i` with `0 <= i < 128` has `attribute0 = 160`
(`SCREEN_HEIGHT`) and `attribute1 = 240` (`SCREEN_WIDTH`), so its y field is
160 and its x field is 240: the sprite lies off screen. -/
theorem sprite_clear_resets (p : Pool) :
    (sprite_clear p).next_sprite_index = 0 ∧
    ∀ i : Int, 0 ≤ i → i < 128 →
      ((sprite_clear p).sprites i).attribute0 = 160 ∧
      ((sprite_clear p).sprites i).attribute1 = 240 ∧
      (((sprite_clear p).sprites i).attribute0 &&& 0xff : Nat) = SCREEN_HEIGHT ∧
      (((sprite_clear p).sprites i).attribute1 &&& 0x1ff : Nat) = SCREEN_WIDTH := by
  refine ⟨sprite_clear_index p, fun i h0 h1 => ?_⟩
  have hmem : ∃ n ∈ List.range NUM_SPRITES, (n : Int) = i := by
    refine ⟨i.toNat, ?_, by omega⟩
    rw [List.mem_range]
    simp only [NUM_SPRITES]
    omega
  have h := clear_loop_slots (List.range NUM_SPRITES)
    { p with next_sprite_index := 0 } i (Or.inl hmem)
  have e0 : ((sprite_clear p).sprites i).attribute0 = 160 := h.1
  have e1 : ((sprite_clear p).sprites i).attribute1 = 240 := h.2
  rw [e0, e1]
  exact ⟨rfl, rfl, by decide, by decide⟩

/-- Witness of C12: a pool of arbitrary contents; the slots 0 and 127 after the
reset. -/
theorem sprite_clear_resets_witness :
    ((0 : Int) ≤ 127 ∧ (127 : Int) < 128) ∧
    ((sprite_clear ⟨fun i => ⟨i.toNat, 7, 8, 9⟩, 55⟩).sprites 127).attribute0 = 160 ∧
    ((sprite_clear ⟨fun i => ⟨i.toNat, 7, 8, 9⟩, 55⟩).sprites 127).attribute1 = 240 ∧
    (sprite_clear ⟨fun i => ⟨i.toNat, 7, 8, 9⟩, 55⟩).next_sprite_index = 0 :=
  ⟨⟨by decide, by decide⟩,
    ((sprite_clear_resets ⟨fun i => ⟨i.toNat, 7, 8, 9⟩, 55⟩).2 127 (by decide)
      (by decide)).1,
    ((sprite_clear_resets ⟨fun i => ⟨i.toNat, 7, 8, 9⟩, 55⟩).2 127 (by decide)
      (by decide)).2.1,
    (sprite_clear_resets ⟨fun i => ⟨i.toNat, 7, 8, 9⟩, 55⟩).1⟩

/-! ## Position, tile offset and flip bits of a sprite -/

theorem testBit_toU16 (a i : Nat) :
    (toU16 (a : Int)).testBit i = (decide (i < 16) && a.testBit i) := by
  have h2 : (65536 : Nat) = 2 ^ 16 := by norm_num
  rw [toU16_natCast, h2, Nat.testBit_mod_two_pow]

theorem testBit_mod_65536 (a i : Nat) :
    (a % 65536).testBit i = (decide (i < 16) && a.testBit i) := by
  have h2 : (65536 : Nat) = 2 ^ 16 := by norm_num
  rw [h2, Nat.testBit_mod_two_pow]

theorem mask_ff00 (i : Nat) : Nat.testBit 0xff00 i = (decide (8 ≤ i) && decide (i < 16)) := by
  by_cases hi : i < 16
  · interval_cases i <;> decide
  · have := testBit_of_lt 0xff00 16 i (by norm_num) (by omega)
    simp [this, hi]

theorem mask_fe00 (i : Nat) : Nat.testBit 0xfe00 i = (decide (9 ≤ i) && decide (i < 16)) := by
  by_cases hi : i < 16
  · interval_cases i <;> decide
  · have := testBit_of_lt 0xfe00 16 i (by norm_num) (by omega)
    simp [this, hi]

theorem mask_fc00 (i : Nat) : Nat.testBit 0xfc00 i = (decide (10 ≤ i) && decide (i < 16)) := by
  by_cases hi : i < 16
  · interval_cases i <;> decide
  · have := testBit_of_lt 0xfc00 16 i (by norm_num) (by omega)
    simp [this, hi]

theorem mask_efff (i : Nat) : Nat.testBit 0xefff i = (decide (i ≠ 12) && decide (i < 16)) := by
  by_cases hi : i < 16
  · interval_cases i <;> decide
  · have := testBit_of_lt 0xefff 16 i (by norm_num) (by omega)
    simp [this, hi]

theorem mask_dfff (i : Nat) : Nat.testBit 0xdfff i = (decide (i ≠ 13) && decide (i < 16)) := by
  by_cases hi : i < 16
  · interval_cases i <;> decide
  · have := testBit_of_lt 0xdfff 16 i (by norm_num) (by omega)
    simp [this, hi]

theorem mask_1000 (i : Nat) : Nat.testBit 0x1000 i = decide (i = 12) := by
  have : (0x1000 : Nat) = 2 ^ 12 := by norm_num
  rw [this, Nat.testBit_two_pow]
  by_cases h : i = 12 <;> simp [h, eq_comm]

theorem mask_2000 (i : Nat) : Nat.testBit 0x2000 i = decide (i = 13) := by
  have : (0x2000 : Nat) = 2 ^ 13 := by norm_num
  rw [this, Nat.testBit_two_pow]
  by_cases h : i = 13 <;> simp [h, eq_comm]

/-- Bits of `attribute1` after `sprite_position`. -/
theorem sprite_position_testBit1 (s : Sprite) (x y : Int) (i : Nat) :
    (sprite_position s x y).attribute1.testBit i
      = if i < 9 then (x % 512).toNat.testBit i
        else (decide (i < 16) && s.attribute1.testBit i) := by
  rw [sprite_position_attribute1, testBit_mod_65536, Nat.testBit_or, testBit_mod_65536,
    Nat.testBit_and, mask_fe00]
  by_cases h9 : i < 9
  · have : i < 16 := by omega
    simp [h9, this]
  · have hb : (x % 512).toNat.testBit i = false :=
      testBit_of_lt _ 9 i (by norm_num; omega) (by omega)
    by_cases h16 : i < 16
    · simp [h9, h16, hb]; omega
    · simp [h9, h16]

/-- Bits of `attribute0` after `sprite_position`. -/
theorem sprite_position_testBit0 (s : Sprite) (x y : Int) (i : Nat) :
    (sprite_position s x y).attribute0.testBit i
      = if i < 8 then (y % 256).toNat.testBit i
        else (decide (i < 16) && s.attribute0.testBit i) := by
  rw [sprite_position_attribute0, testBit_mod_65536, Nat.testBit_or, testBit_mod_65536,
    Nat.testBit_and, mask_ff00]
  by_cases h9 : i < 8
  · have : i < 16 := by omega
    simp [h9, this]
  · have hb : (y % 256).toNat.testBit i = false :=
      testBit_of_lt _ 8 i (by norm_num; omega) (by omega)
    by_cases h16 : i < 16
    · simp [h9, h16, hb]; omega
    · simp [h9, h16]

theorem sprite_position_keeps_high1 (s : Sprite) (x y : Int) :
    (sprite_position s x y).attribute1 &&& 0xfe00 = s.attribute1 &&& 0xfe00 := by
  apply Nat.eq_of_testBit_eq
  intro i
  rw [Nat.testBit_and, Nat.testBit_and, sprite_position_testBit1, mask_fe00]
  by_cases h9 : i < 9
  · have : ¬ 9 ≤ i := by omega
    simp [h9, this]
  · by_cases h16 : i < 16 <;> simp [h9, h16]

theorem sprite_position_keeps_high0 (s : Sprite) (x y : Int) :
    (sprite_position s x y).attribute0 &&& 0xff00 = s.attribute0 &&& 0xff00 := by
  apply Nat.eq_of_testBit_eq
  intro i
  rw [Nat.testBit_and, Nat.testBit_and, sprite_position_testBit0, mask_ff00]
  by_cases h9 : i < 8
  · have : ¬ 8 ≤ i := by omega
    simp [h9, this]
  · by_cases h16 : i < 16 <;> simp [h9, h16]

/-- C13. Relative move: for every sprite with stored position `(x0, y0)`
(`x0 = attribute1 & 0x1ff`, `y0 = attribute0 & 0xff`) and all integers `dx`,
`dy`, after `sprite_move(sprite, dx, dy)` the stored x field is
`(x0 + dx) mod 512`, the stored y field is `(y0 + dy) mod 256`, the other bits
of `attribute0` (mask `0xff00`) and of `attribute1` (mask `0xfe00`) are
unchanged, and so are `attribute2` and `attribute3`. -/
theorem sprite_move_adds_delta (p : Pool) (i dx dy : Int) :
    ((((p.update i (fun s => sprite_move s dx dy)).sprites i).attribute1 &&& 0x1ff : Nat)
        : Int) = ((((p.sprites i).attribute1 &&& 0x1ff : Nat) : Int) + dx) % 512 ∧
    ((((p.update i (fun s => sprite_move s dx dy)).sprites i).attribute0 &&& 0xff : Nat)
        : Int) = ((((p.sprites i).attribute0 &&& 0xff : Nat) : Int) + dy) % 256 ∧
    ((p.update i (fun s => sprite_move s dx dy)).sprites i).attribute0 &&& 0xff00
      = (p.sprites i).attribute0 &&& 0xff00 ∧
    ((p.update i (fun s => sprite_move s dx dy)).sprites i).attribute1 &&& 0xfe00
      = (p.sprites i).attribute1 &&& 0xfe00 ∧
    ((p.update i (fun s => sprite_move s dx dy)).sprites i).attribute2
      = (p.sprites i).attribute2 ∧
    ((p.update i (fun s => sprite_move s dx dy)).sprites i).attribute3
      = (p.sprites i).attribute3 := by
  have e : (p.update i (fun s => sprite_move s dx dy)).sprites i
      = sprite_position (p.sprites i)
          ((((p.sprites i).attribute1 &&& 0x1ff : Nat) : Int) + dx)
          ((((p.sprites i).attribute0 &&& 0xff : Nat) : Int) + dy) := by
    simp only [Pool.update, Pool.store, Function.update_same]
    rfl
  rw [e]
  refine ⟨?_, ?_, sprite_position_keeps_high0 _ _ _, sprite_position_keeps_high1 _ _ _,
    rfl, rfl⟩
  · rw [sprite_position_attribute1, field_x_of_store _ _ (by omega)]
    omega
  · rw [sprite_position_attribute0, field_y_of_store _ _ (by omega)]
    omega

theorem sprite_set_offset_attribute2 (s : Sprite) (offset : Int) :
    (sprite_set_offset s offset).attribute2
      = ((s.attribute2 &&& 0xfc00) % 65536 ||| (offset % 1024).toNat) % 65536 := by
  have ho : Int.land offset 0x03ff = (((offset % 1024).toNat : Nat) : Int) := by
    rw [land_1023]; omega
  simp only [sprite_set_offset]
  rw [ho]
  show toU16 (Int.lor ((toU16 (Int.land (s.attribute2 : Int) ((0xfc00 : Nat) : Int)) : Nat)
    : Int) _) = _
  rw [land_natCast, toU16_natCast, lor_natCast, toU16_natCast]

theorem sprite_set_offset_testBit (s : Sprite) (offset : Int) (i : Nat) :
    (sprite_set_offset s offset).attribute2.testBit i
      = if i < 10 then (offset % 1024).toNat.testBit i
        else (decide (i < 16) && s.attribute2.testBit i) := by
  rw [sprite_set_offset_attribute2, testBit_mod_65536, Nat.testBit_or, testBit_mod_65536,
    Nat.testBit_and, mask_fc00]
  by_cases h9 : i < 10
  · have : i < 16 := by omega
    simp [h9, this]
  · have hb : (offset % 1024).toNat.testBit i = false :=
      testBit_of_lt _ 10 i (by norm_num; omega) (by omega)
    by_cases h16 : i < 16
    · simp [h9, h16, hb]; omega
    · simp [h9, h16]

/-- C14. Tile offset: for every sprite and every integer `offset`, after
`sprite_set_offset(sprite, offset)` the low 10 bits of `attribute2` are
`offset mod 1024`, the upper 6 bits of `attribute2` (mask `0xfc00`: priority and
palette bank) are unchanged, and `attribute0`, `attribute1`, `attribute3` are
unchanged. -/
theorem sprite_set_offset_low_bits (p : Pool) (i offset : Int) :
    ((((p.update i (fun s => sprite_set_offset s offset)).sprites i).attribute2 &&& 0x3ff
        : Nat) : Int) = offset % 1024 ∧
    ((p.update i (fun s => sprite_set_offset s offset)).sprites i).attribute2 &&& 0xfc00
      = (p.sprites i).attribute2 &&& 0xfc00 ∧
    ((p.update i (fun s => sprite_set_offset s offset)).sprites i).attribute0
      = (p.sprites i).attribute0 ∧
    ((p.update i (fun s => sprite_set_offset s offset)).sprites i).attribute1
      = (p.sprites i).attribute1 ∧
    ((p.update i (fun s => sprite_set_offset s offset)).sprites i).attribute3
      = (p.sprites i).attribute3 := by
  have e : (p.update i (fun s => sprite_set_offset s offset)).sprites i
      = sprite_set_offset (p.sprites i) offset := by
    simp only [Pool.update, Pool.store, Function.update_same]
  rw [e]
  refine ⟨?_, ?_, rfl, rfl, rfl⟩
  · have h : (sprite_set_offset (p.sprites i) offset).attribute2 &&& 0x3ff
        = (offset % 1024).toNat := by
      apply Nat.eq_of_testBit_eq
      intro j
      have h1 : (0x3ff : Nat) = 2 ^ 10 - 1 := by norm_num
      rw [Nat.testBit_and, sprite_set_offset_testBit, h1, Nat.testBit_two_pow_sub_one]
      by_cases hj : j < 10
      · simp [hj]
      · have hb : (offset % 1024).toNat.testBit j = false :=
          testBit_of_lt _ 10 j (by norm_num; omega) (by omega)
        simp [hj, hb]
    rw [h]
    omega
  · apply Nat.eq_of_testBit_eq
    intro j
    rw [Nat.testBit_and, Nat.testBit_and, sprite_set_offset_testBit, mask_fc00]
    by_cases h9 : j < 10
    · have : ¬ 10 ≤ j := by omega
      simp [h9, this]
    · by_cases h16 : j < 16 <;> simp [h9, h16]

/-! ### Flip bits -/

theorem hflip_testBit (s : Sprite) (f : Int) (i : Nat) :
    (sprite_set_horizontal_flip s f).attribute1.testBit i
      = if i = 12 then decide (f ≠ 0) else (decide (i < 16) && s.attribute1.testBit i) := by
  unfold sprite_set_horizontal_flip
  by_cases hf : f ≠ 0
  · rw [if_pos hf]
    show (toU16 (Int.lor (s.attribute1 : Int) ((0x1000 : Nat) : Int))).testBit i = _
    rw [lor_natCast, testBit_toU16, Nat.testBit_or, mask_1000]
    by_cases h : i = 12
    · subst h; simp [hf]
    · simp [h]
  · rw [if_neg hf]
    show (toU16 (Int.land (s.attribute1 : Int) ((0xefff : Nat) : Int))).testBit i = _
    rw [land_natCast, testBit_toU16, Nat.testBit_and, mask_efff]
    by_cases h : i = 12
    · subst h; simp [hf]
    · by_cases h16 : i < 16 <;> simp [h, h16]

theorem vflip_testBit (s : Sprite) (f : Int) (i : Nat) :
    (sprite_set_vertical_flip s f).attribute1.testBit i
      = if i = 13 then decide (f ≠ 0) else (decide (i < 16) && s.attribute1.testBit i) := by
  unfold sprite_set_vertical_flip
  by_cases hf : f ≠ 0
  · rw [if_pos hf]
    show (toU16 (Int.lor (s.attribute1 : Int) ((0x2000 : Nat) : Int))).testBit i = _
    rw [lor_natCast, testBit_toU16, Nat.testBit_or, mask_2000]
    by_cases h : i = 13
    · subst h; simp [hf]
    · simp [h]
  · rw [if_neg hf]
    show (toU16 (Int.land (s.attribute1 : Int) ((0xdfff : Nat) : Int))).testBit i = _
    rw [land_natCast, testBit_toU16, Nat.testBit_and, mask_dfff]
    by_cases h : i = 13
    · subst h; simp [hf]
    · by_cases h16 : i < 16 <;> simp [h, h16]

theorem hflip_others (s : Sprite) (f : Int) :
    (sprite_set_horizontal_flip s f).attribute0 = s.attribute0 ∧
    (sprite_set_horizontal_flip s f).attribute2 = s.attribute2 ∧
    (sprite_set_horizontal_flip s f).attribute3 = s.attribute3 := by
  unfold sprite_set_horizontal_flip
  split_ifs <;> exact ⟨rfl, rfl, rfl⟩

theorem vflip_others (s : Sprite) (f : Int) :
    (sprite_set_vertical_flip s f).attribute0 = s.attribute0 ∧
    (sprite_set_vertical_flip s f).attribute2 = s.attribute2 ∧
    (sprite_set_vertical_flip s f).attribute3 = s.attribute3 := by
  unfold sprite_set_vertical_flip
  split_ifs <;> exact ⟨rfl, rfl, rfl⟩

/-- C15. Flip flags are independent.  `sprite_set_horizontal_flip(sprite, f)`
makes bit 12 of `attribute1` equal to `[f != 0]` and changes no other bit of the
four 16-bit words of the sprite; `sprite_set_vertical_flip(sprite, f)` does the
same with bit 13; the two operations commute. -/
theorem flip_flags_independent (s : Sprite) (h v : Int) :
    ((sprite_set_horizontal_flip s h).attribute1.testBit 12 = decide (h ≠ 0) ∧
      (∀ i : Nat, i < 16 → i ≠ 12 →
        (sprite_set_horizontal_flip s h).attribute1.testBit i = s.attribute1.testBit i) ∧
      (sprite_set_horizontal_flip s h).attribute0 = s.attribute0 ∧
      (sprite_set_horizontal_flip s h).attribute2 = s.attribute2 ∧
      (sprite_set_horizontal_flip s h).attribute3 = s.attribute3) ∧
    ((sprite_set_vertical_flip s v).attribute1.testBit 13 = decide (v ≠ 0) ∧
      (∀ i : Nat, i < 16 → i ≠ 13 →
        (sprite_set_vertical_flip s v).attribute1.testBit i = s.attribute1.testBit i) ∧
      (sprite_set_vertical_flip s v).attribute0 = s.attribute0 ∧
      (sprite_set_vertical_flip s v).attribute2 = s.attribute2 ∧
      (sprite_set_vertical_flip s v).attribute3 = s.attribute3) ∧
    sprite_set_horizontal_flip (sprite_set_vertical_flip s v) h
      = sprite_set_vertical_flip (sprite_set_horizontal_flip s h) v := by
  refine ⟨⟨?_, ?_, hflip_others s h⟩, ⟨?_, ?_, vflip_others s v⟩, ?_⟩
  · rw [hflip_testBit]; simp
  · intro i hi hne
    rw [hflip_testBit]; simp [hi, hne]
  · rw [vflip_testBit]; simp
  · intro i hi hne
    rw [vflip_testBit]; simp [hi, hne]
  · have e1 : (sprite_set_horizontal_flip (sprite_set_vertical_flip s v) h).attribute1
        = (sprite_set_vertical_flip (sprite_set_horizontal_flip s h) v).attribute1 := by
      apply Nat.eq_of_testBit_eq
      intro i
      rw [hflip_testBit, vflip_testBit, vflip_testBit, hflip_testBit]
      by_cases h12 : i = 12
      · subst h12; simp
      · by_cases h13 : i = 13
        · subst h13; simp
        · by_cases h16 : i < 16 <;> simp [h12, h13, h16]
    obtain ⟨a0, a2, a3⟩ := hflip_others (sprite_set_vertical_flip s v) h
    obtain ⟨b0, b2, b3⟩ := vflip_others s v
    obtain ⟨c0, c2, c3⟩ := vflip_others (sprite_set_horizontal_flip s h) v
    obtain ⟨d0, d2, d3⟩ := hflip_others s h
    cases hL : sprite_set_horizontal_flip (sprite_set_vertical_flip s v) h with
    | mk l0 l1 l2 l3 =>
      cases hR : sprite_set_vertical_flip (sprite_set_horizontal_flip s h) v with
      | mk r0 r1 r2 r3 =>
        rw [hL] at a0 a2 a3 e1
        rw [hR] at c0 c2 c3 e1
        simp only at a0 a2 a3 c0 c2 c3 e1
        rw [b0] at a0
        rw [b2] at a2
        rw [b3] at a3
        rw [d0] at c0
        rw [d2] at c2
        rw [d3] at c3
        rw [a0, a2, a3, c0, c2, c3, e1]

/-! ## The sprite after an update -/

/-- The last statement of `koopa_update`: the pool returned is some pool with
the position of the returned actor stored in its sprite. -/
theorem koopa_update_publishes (fuel : Nat) (mapBack : Int → Nat) (w h : Int) (p : Pool)
    (koopa : Koopa) (koopa2 : Koopa2) (xscroll : Int) (r : Pool × Koopa)
    (hr : koopa_update fuel mapBack w h p koopa koopa2 xscroll = some r) :
    ∃ q : Pool, r.1 = q.update r.2.sprite
      (fun s => sprite_position s (shr r.2.x 8) (shr r.2.y 8)) := by
  simp only [koopa_update] at hr
  split at hr
  · cases hr
  · split at hr
    · cases hr
    · cases hr
      exact ⟨_, rfl⟩

/-- The last statement of `koopa2_update`. -/
theorem koopa2_update_publishes (fuel : Nat) (mapBack : Int → Nat) (w h : Int) (p : Pool)
    (koopa : Koopa) (koopa2 : Koopa2) (xscroll : Int) (r : Pool × Koopa2)
    (hr : koopa2_update fuel mapBack w h p koopa koopa2 xscroll = some r) :
    ∃ q : Pool, r.1 = q.update r.2.sprite
      (fun s => sprite_position s (shr r.2.x 8) (shr r.2.y 8)) := by
  simp only [koopa2_update] at hr
  split at hr
  · cases hr
  · cases hr
    exact ⟨_, rfl⟩

/-- The position fields of a slot that `sprite_position` was just applied to. -/
theorem published_fields (q : Pool) (i x y : Int) :
    ((((q.update i (fun s => sprite_position s x y)).sprites i).attribute1 &&& 0x1ff : Nat)
        : Int) = x % 512 ∧
    ((((q.update i (fun s => sprite_position s x y)).sprites i).attribute0 &&& 0xff : Nat)
        : Int) = y % 256 := by
  have e : (q.update i (fun s => sprite_position s x y)).sprites i
      = sprite_position (q.sprites i) x y := by
    simp [Pool.update, Pool.store]
  rw [e, sprite_position_attribute1, sprite_position_attribute0,
    field_x_of_store _ _ (by omega), field_y_of_store _ _ (by omega)]
  constructor <;> omega

/-- C16. Update publishes the final position.  For every actor state, over a
map with positive dimensions, `koopa_update` and `koopa2_update` return, and
then the sprite of the actor holds the final integer pixel position: its
x field is `(x >> 8) mod 512` and its y field is `(y >> 8) mod 256` for the
`x` and `y` the actor has at the end of that update. -/
theorem update_publishes_position (mapBack : Int → Nat) (w h : Int) (hw : 0 < w)
    (hh : 0 < h) (p : Pool) (koopa : Koopa) (koopa2 : Koopa2) (xscroll : Int) :
    ∃ N : Nat, ∀ fuel : Nat, N ≤ fuel →
      (∃ r : Pool × Koopa,
        koopa_update fuel mapBack w h p koopa koopa2 xscroll = some r ∧
        (((r.1.sprites r.2.sprite).attribute1 &&& 0x1ff : Nat) : Int) = shr r.2.x 8 % 512 ∧
        (((r.1.sprites r.2.sprite).attribute0 &&& 0xff : Nat) : Int) = shr r.2.y 8 % 256) ∧
      (∃ r : Pool × Koopa2,
        koopa2_update fuel mapBack w h p koopa koopa2 xscroll = some r ∧
        (((r.1.sprites r.2.sprite).attribute1 &&& 0x1ff : Nat) : Int) = shr r.2.x 8 % 512 ∧
        (((r.1.sprites r.2.sprite).attribute0 &&& 0xff : Nat) : Int) = shr r.2.y 8 % 256) := by
  obtain ⟨N1, t1, h1⟩ := koopa_update_returns mapBack w h hw hh koopa koopa2 xscroll
  obtain ⟨N2, t2, h2⟩ := koopa2_update_returns mapBack w h hw hh koopa koopa2 xscroll
  refine ⟨max N1 N2, fun fuel hf => ⟨?_, ?_⟩⟩
  · obtain ⟨_, q, hq⟩ := h1 p fuel (le_trans (le_max_left _ _) hf)
    obtain ⟨q', hq'⟩ := koopa_update_publishes fuel mapBack w h p koopa koopa2 xscroll _ hq
    refine ⟨_, hq, ?_⟩
    rw [hq']
    exact published_fields q' _ _ _
  · obtain ⟨_, q, hq⟩ := h2 p fuel (le_trans (le_max_right _ _) hf)
    obtain ⟨q', hq'⟩ := koopa2_update_publishes fuel mapBack w h p koopa koopa2 xscroll _ hq
    refine ⟨_, hq, ?_⟩
    rw [hq']
    exact published_fields q' _ _ _

/-- Witness of C16: the two actors at the start of a round over a 4 x 3 map of
tiles 600. -/
theorem update_publishes_position_witness :
    (0 : Int) < 4 ∧ (0 : Int) < 3 ∧
    ∃ N : Nat, ∀ fuel : Nat, N ≤ fuel →
      (∃ r : Pool × Koopa,
        koopa_update fuel (fun _ => 600) 4 3 start_koopa2.1 start_koopa.2 start_koopa2.2 0
          = some r ∧
        (((r.1.sprites r.2.sprite).attribute1 &&& 0x1ff : Nat) : Int) = shr r.2.x 8 % 512 ∧
        (((r.1.sprites r.2.sprite).attribute0 &&& 0xff : Nat) : Int) = shr r.2.y 8 % 256) ∧
      (∃ r : Pool × Koopa2,
        koopa2_update fuel (fun _ => 600) 4 3 start_koopa2.1 start_koopa.2 start_koopa2.2 0
          = some r ∧
        (((r.1.sprites r.2.sprite).attribute1 &&& 0x1ff : Nat) : Int) = shr r.2.x 8 % 512 ∧
        (((r.1.sprites r.2.sprite).attribute0 &&& 0xff : Nat) : Int) = shr r.2.y 8 % 256) :=
  ⟨by decide, by decide,
    update_publishes_position (fun _ => 600) 4 3 (by decide) (by decide) start_koopa2.1
      start_koopa.2 start_koopa2.2 0⟩

/-! ## The probe of the secondary actor -/

/-- C17, evaluated on the code.  Two calls of `koopa2_update` with the same
secondary actor, the same scroll and the same 32 x 32 map (tile 600 at index
589, the tile under primary pixel (108, 145), and 0 elsewhere), which differ
only in the `x` of the primary actor (`100<<8` against 0): the first leaves the
secondary actor falling, the second grounds it.  The probe is taken at the
position of the primary actor. -/
theorem koopa2_update_probes_primary :
    (koopa2_update 4 probe_map 32 32 start_koopa2.1 start_koopa.2 start_koopa2.2 0).map
        (fun r => r.2.falling) = some 1 ∧
    (koopa2_update 4 probe_map 32 32 start_koopa2.1 { start_koopa.2 with x := 0 }
        start_koopa2.2 0).map (fun r => r.2.falling) = some 0 ∧
    tile_lookup 4 (shr start_koopa2.2.x 8 + 8) (shr start_koopa2.2.y 8 + 32) 0 0 probe_map
        32 32 = some 600 := by
  decide

/-! ## Leftward movement of the secondary actor -/

/-- C18, as the code has it.  `koopa2_left(koopa2, num)` returns 0 and stores
`1 + num` in `move`; away from the border (`(x >> 8) != border`) it decreases
`x` by exactly 256, whatever `num` is; at the border it sets `x` to `100<<9`. -/
theorem koopa2_left_step (p : Pool) (k : Koopa2) (num : Int) :
    (shr k.x 8 ≠ k.border → (koopa2_left p k num).2.1.x = k.x - 256) ∧
    (shr k.x 8 = k.border → (koopa2_left p k num).2.1.x = shl 100 9) ∧
    (koopa2_left p k num).2.1.move = 1 + num ∧
    (koopa2_left p k num).2.2 = 0 := by
  have e : koopa2_left p k num
      = (p.update k.sprite (fun s => sprite_set_horizontal_flip s 1),
          if shr k.x 8 = k.border then { k with move := 1 + num, x := shl 100 9 }
          else { k with move := 1 + num, x := k.x - 256 }, 0) := by
    unfold koopa2_left
    by_cases hc : shr k.x 8 = k.border
    · simp only [if_pos hc]
    · simp only [if_neg hc]
  rw [e]
  by_cases hc : shr k.x 8 = k.border
  · rw [if_pos hc]
    exact ⟨fun h => absurd hc h, fun _ => rfl, rfl, rfl⟩
  · rw [if_neg hc]
    exact ⟨fun _ => rfl, fun h => absurd h hc, rfl, rfl⟩

/-- Witness of C18: at the start of a round the secondary actor is at pixel
100, away from its border -10; with speed 5 it moves one pixel. -/
theorem koopa2_left_step_witness :
    shr start_koopa2.2.x 8 ≠ start_koopa2.2.border ∧
    (koopa2_left start_koopa2.1 start_koopa2.2 5).2.1.x = start_koopa2.2.x - 256 ∧
    (shr ({ start_koopa2.2 with x := -2560 } : Koopa2).x 8
        = ({ start_koopa2.2 with x := -2560 } : Koopa2).border ∧
      (koopa2_left start_koopa2.1 { start_koopa2.2 with x := -2560 } 5).2.1.x
        = shl 100 9) :=
  ⟨by decide, (koopa2_left_step start_koopa2.1 start_koopa2.2 5).1 (by decide),
    by decide,
    (koopa2_left_step start_koopa2.1 { start_koopa2.2 with x := -2560 } 5).2.1
      (by decide)⟩

/-- Counterexample to C18 as stated: with `num = 5` the secondary actor, away
from its border, moves from `x = 25600` to `x = 25344`, that is by 256 and not
by `256 * 5`; `num = 1` gives the same `x`. -/
theorem koopa2_left_ignores_speed :
    start_koopa2.2.x = 25600 ∧
    shr start_koopa2.2.x 8 ≠ start_koopa2.2.border ∧
    (koopa2_left start_koopa2.1 start_koopa2.2 5).2.1.x = 25344 ∧
    (koopa2_left start_koopa2.1 start_koopa2.2 5).2.1.x ≠ start_koopa2.2.x - 256 * 5 ∧
    (koopa2_left start_koopa2.1 start_koopa2.2 1).2.1.x
      = (koopa2_left start_koopa2.1 start_koopa2.2 5).2.1.x := by
  decide

/-! ## Totality of the tile lookup -/

/-- C19. Tile lookup is total and in bounds: for positive `tilemap_w` and
`tilemap_h` and all integer coordinates and scroll offsets, there is an index
with `0 <= index < tilemap_w * tilemap_h` such that, given enough iterations,
the four loops terminate and `tile_lookup` returns the entry of the tile map at
that index, whatever the tile map is. -/
theorem tile_lookup_total (w h : Int) (hw : 0 < w) (hh : 0 < h)
    (x y xscroll yscroll : Int) :
    ∃ (index : Int) (N : Nat), 0 ≤ index ∧ index < w * h ∧
      index = (y + yscroll) / 8 % h * w + (x + xscroll) / 8 % w ∧
      ∀ (fuel : Nat), N ≤ fuel → ∀ tilemap : Int → Nat,
        tile_lookup fuel x y xscroll yscroll tilemap w h = some (tilemap index) := by
  have hx0 := Int.emod_nonneg ((x + xscroll) / 8) (ne_of_gt hw)
  have hx1 := Int.emod_lt_of_pos ((x + xscroll) / 8) hw
  have hy0 := Int.emod_nonneg ((y + yscroll) / 8) (ne_of_gt hh)
  have hy1 := Int.emod_lt_of_pos ((y + yscroll) / 8) hh
  refine ⟨(y + yscroll) / 8 % h * w + (x + xscroll) / 8 % w,
    ((x + xscroll) / 8).natAbs + ((y + yscroll) / 8).natAbs, ?_, ?_, rfl, ?_⟩
  · have := mul_nonneg hy0 (le_of_lt hw)
    omega
  · have h1 : (y + yscroll) / 8 % h + 1 ≤ h := by omega
    have h2 := mul_le_mul_of_nonneg_right h1 (le_of_lt hw)
    have h3 : ((y + yscroll) / 8 % h + 1) * w = (y + yscroll) / 8 % h * w + w := by ring
    have h4 : h * w = w * h := mul_comm h w
    omega
  · intro fuel hf tilemap
    exact tile_lookup_of_fuel tilemap w h hw hh x y xscroll yscroll fuel hf

/-- Witness of C19: a lookup at negative coordinates in a 4 x 3 map. -/
theorem tile_lookup_total_witness :
    (0 : Int) < 4 ∧ (0 : Int) < 3 ∧
    ∃ (index : Int) (N : Nat), 0 ≤ index ∧ index < 4 * 3 ∧
      index = (-70 + 0) / 8 % 3 * 4 + (-45 + 5) / 8 % 4 ∧
      ∀ (fuel : Nat), N ≤ fuel → ∀ tilemap : Int → Nat,
        tile_lookup fuel (-45) (-70) 5 0 tilemap 4 3 = some (tilemap index) :=
  ⟨by decide, by decide, tile_lookup_total 4 3 (by decide) (by decide) (-45) (-70) 5 0⟩

/-! ## Landing -/

theorem integrate_of_grounded (k : Koopa) (hf : k.falling = 0) : k.integrate = k := by
  unfold Koopa.integrate
  simp [hf]

theorem animate_x (k : Koopa) : k.animate.x = k.x := by
  unfold Koopa.animate
  split_ifs <;> rfl

theorem ground_x (k : Koopa) (tile : Nat) : (k.ground tile).x = k.x := by
  unfold Koopa.ground
  split_ifs <;> rfl

theorem ground_of_solid (k : Koopa) (tile : Nat) (ht : tile > 510) :
    (k.ground tile).y = 2048 * (k.y / 2048) + 1 ∧ (k.ground tile).yvel = 0 ∧
    (k.ground tile).falling = 0 := by
  simp only [Koopa.ground, if_pos ht, lnot_2047, land_neg2048]
  exact ⟨trivial, trivial, trivial⟩

/-- The actor after an update that ended with `falling = 0`. -/
theorem landed_state (k : Koopa) (tile : Nat)
    (hl : ((k.integrate.ground tile).animate).falling = 0) :
    tile > 510 ∧
    ((k.integrate.ground tile).animate).x = k.x ∧
    ((k.integrate.ground tile).animate).yvel = 0 ∧
    ((k.integrate.ground tile).animate).y = 2048 * (k.integrate.y / 2048) + 1 := by
  rw [animate_falling] at hl
  have ht : tile > 510 := by
    by_contra hn
    simp [Koopa.ground, if_neg hn] at hl
  refine ⟨ht, ?_, ?_, ?_⟩
  · rw [animate_x, ground_x, integrate_x]
  · rw [animate_yvel]
    simp [Koopa.ground, if_pos ht]
  · rw [animate_y]
    simp only [Koopa.ground, if_pos ht, lnot_2047, land_neg2048]

/-- The foot probe of a landed actor is in the tile row of the probe that made
it land. -/
theorem snap_keeps_row (y1 : Int) :
    (shr (2048 * (y1 / 2048) + 1) 8 + 32 + 0) / 8 = (shr y1 8 + 32 + 0) / 8 := by
  rw [shr_eq_div, shr_eq_div]
  norm_num
  omega

/-- C20. Landing is stable.  For every primary actor state, scroll and tile map
with positive dimensions the update returns; if it ends with `falling = 0`,
then a following `koopa_update` of the returned actor with the same scroll and
tile map returns too, its foot probe lies in the same tile row and returns the
same tile, and it leaves `y` unchanged, `yvel = 0` and `falling = 0` (whatever
the pool is at that call). -/
theorem landing_is_stable (mapBack : Int → Nat) (w h : Int) (hw : 0 < w) (hh : 0 < h)
    (p : Pool) (koopa : Koopa) (koopa2 koopa2b : Koopa2) (xscroll : Int) :
    ∃ N : Nat, ∀ fuel : Nat, N ≤ fuel → ∃ (r : Pool × Koopa) (tile : Nat),
      koopa_update fuel mapBack w h p koopa koopa2 xscroll = some r ∧
      tile_lookup fuel (shr koopa.x 8 + 8)
        (shr (if koopa.falling ≠ 0 then koopa.y + koopa.yvel else koopa.y) 8 + 32)
        xscroll 0 mapBack w h = some tile ∧
      (r.2.falling = 0 → ∀ p2 : Pool,
        ∃ r2 : Pool × Koopa,
          koopa_update fuel mapBack w h p2 r.2 koopa2b xscroll = some r2 ∧
          tile_lookup fuel (shr r.2.x 8 + 8)
            (shr (if r.2.falling ≠ 0 then r.2.y + r.2.yvel else r.2.y) 8 + 32)
            xscroll 0 mapBack w h = some tile ∧
          r.2.x = koopa.x ∧
          (shr r.2.y 8 + 32) / 8
            = (shr (if koopa.falling ≠ 0 then koopa.y + koopa.yvel else koopa.y) 8 + 32) / 8 ∧
          r2.2.y = r.2.y ∧ r2.2.yvel = 0 ∧ r2.2.falling = 0) := by
  obtain ⟨N1, tile, h1⟩ := koopa_update_returns mapBack w h hw hh koopa koopa2 xscroll
  obtain ⟨N2, tileB, h2⟩ := koopa_update_returns mapBack w h hw hh
    (koopa.integrate.ground tile).animate koopa2b xscroll
  refine ⟨max (max N1 N2)
    ((((shr koopa.x 8 + 8 + xscroll) / 8).natAbs
        + ((shr koopa.integrate.y 8 + 32 + 0) / 8).natAbs)
      + (((shr (koopa.integrate.ground tile).animate.x 8 + 8 + xscroll) / 8).natAbs
        + ((shr (koopa.integrate.ground tile).animate.integrate.y 8 + 32 + 0) / 8).natAbs)),
    fun fuel hf => ?_⟩
  have hf1 : N1 ≤ fuel := le_trans (le_trans (le_max_left _ _) (le_max_left _ _)) hf
  have hf2 : N2 ≤ fuel := le_trans (le_trans (le_max_right _ _) (le_max_left _ _)) hf
  have hf3 := le_trans (le_max_right (max N1 N2) _) hf
  obtain ⟨hp1, q, hq⟩ := h1 p fuel hf1
  have e1 := tile_lookup_of_fuel mapBack w h hw hh (shr koopa.x 8 + 8)
    (shr koopa.integrate.y 8 + 32) xscroll 0 fuel (by omega)
  have e2 := tile_lookup_of_fuel mapBack w h hw hh
    (shr (koopa.integrate.ground tile).animate.x 8 + 8)
    (shr (koopa.integrate.ground tile).animate.integrate.y 8 + 32) xscroll 0 fuel (by omega)
  refine ⟨(q, (koopa.integrate.ground tile).animate), tile, hq, ?_, ?_⟩
  · rw [← integrate_y]
    exact hp1
  · intro hl0 p2
    obtain ⟨hp2, q2, hq2⟩ := h2 p2 fuel hf2
    have hl : ((koopa.integrate.ground tile).animate).falling = 0 := hl0
    obtain ⟨ht, lx, lv, ly⟩ := landed_state koopa tile hl
    have hint := integrate_of_grounded ((koopa.integrate.ground tile).animate) hl
    have hrow : (shr (koopa.integrate.ground tile).animate.y 8 + 32 + 0) / 8
        = (shr koopa.integrate.y 8 + 32 + 0) / 8 := by
      rw [ly]
      exact snap_keeps_row _
    have hsame : tileB = tile := by
      rw [hp2] at e2
      rw [hp1] at e1
      rw [hint, lx, hrow] at e2
      rw [← e1] at e2
      exact Option.some.inj e2
    subst hsame
    rw [hint] at hq2 hp2
    refine ⟨_, hq2, ?_, lx, ?_, ?_, ?_, ?_⟩
    · have : (if (koopa.integrate.ground tileB).animate.falling ≠ 0 then
          (koopa.integrate.ground tileB).animate.y + (koopa.integrate.ground tileB).animate.yvel
          else (koopa.integrate.ground tileB).animate.y)
          = (koopa.integrate.ground tileB).animate.y := by
        rw [if_neg (by rw [hl]; decide)]
      show tile_lookup fuel (shr (koopa.integrate.ground tileB).animate.x 8 + 8)
        (shr (if (koopa.integrate.ground tileB).animate.falling ≠ 0 then
          (koopa.integrate.ground tileB).animate.y + (koopa.integrate.ground tileB).animate.yvel
          else (koopa.integrate.ground tileB).animate.y) 8 + 32) xscroll 0 mapBack w h = _
      rw [this]
      exact hp2
    · rw [← integrate_y]
      simpa using hrow
    · show (((koopa.integrate.ground tileB).animate.ground tileB).animate).y = _
      rw [animate_y, (ground_of_solid _ tileB ht).1, ly]
      omega
    · show (((koopa.integrate.ground tileB).animate.ground tileB).animate).yvel = 0
      rw [animate_yvel, (ground_of_solid _ tileB ht).2.1]
    · show (((koopa.integrate.ground tileB).animate.ground tileB).animate).falling = 0
      rw [animate_falling, (ground_of_solid _ tileB ht).2.2]

/-- Witness of C20: at the start of a round over a 4 x 3 map of tiles 600 the
primary actor lands at the first update, and the second update leaves it where
it is. -/
theorem landing_is_stable_witness :
    (0 : Int) < 4 ∧ (0 : Int) < 3 ∧
    ∃ N : Nat, ∀ fuel : Nat, N ≤ fuel → ∃ r r2 : Pool × Koopa,
      koopa_update fuel (fun _ => 600) 4 3 start_koopa2.1 start_koopa.2 start_koopa2.2 0
        = some r ∧
      r.2.falling = 0 ∧
      koopa_update fuel (fun _ => 600) 4 3 r.1 r.2 start_koopa2.2 0 = some r2 ∧
      r2.2.y = r.2.y ∧ r2.2.yvel = 0 ∧ r2.2.falling = 0 := by
  refine ⟨by decide, by decide, ?_⟩
  obtain ⟨N, hN⟩ := landing_is_stable (fun _ => 600) 4 3 (by decide) (by decide)
    start_koopa2.1 start_koopa.2 start_koopa2.2 start_koopa2.2 0
  refine ⟨N, fun fuel hf => ?_⟩
  obtain ⟨r, tile, h1, h2, h3⟩ := hN fuel hf
  obtain ⟨tile', h4, h5⟩ := koopa_update_some fuel (fun _ => 600) 4 3 start_koopa2.1
    start_koopa.2 start_koopa2.2 0 r h1
  obtain ⟨i, hi⟩ := tile_lookup_entry _ _ _ _ _ _ _ _ _ h4
  have ht : tile' > 510 := by
    rw [hi]
    show 600 > 510
    decide
  have hl : r.2.falling = 0 := by
    rw [h5, animate_falling, (ground_of_solid _ tile' ht).2.2]
  obtain ⟨r2, g1, _, _, _, g2, g3, g4⟩ := h3 hl r.1
  exact ⟨r, r2, h1, hl, g1, g2, g3, g4⟩

/-! ## Horizontal range of the secondary actor -/

theorem koopa2_left_actor (p : Pool) (k : Koopa2) (num : Int) :
    (koopa2_left p k num).2.1
      = if shr k.x 8 = k.border then { k with move := 1 + num, x := shl 100 9 }
        else { k with move := 1 + num, x := k.x - 256 } := by
  unfold koopa2_left
  by_cases hc : shr k.x 8 = k.border
  · simp only [if_pos hc]
  · simp only [if_neg hc]

theorem koopa2_stop_actor (p : Pool) (k : Koopa2) :
    (koopa2_stop p k).2 = { k with move := 0, frame := 0, counter := 7 } := rfl

theorem update2_x_border (k : Koopa2) (tile : Nat) :
    ((k.integrate.ground tile).animate).x = k.x ∧
    ((k.integrate.ground tile).animate).border = k.border := by
  unfold Koopa2.animate Koopa2.ground Koopa2.integrate
  constructor <;> split_ifs <;> rfl

theorem shr8_eq (a : Int) : shr a 8 = a / 256 := by
  rw [shr_eq_div]
  norm_num

/-- The range invariant is kept by `koopa2_left`. -/
theorem koopa2_left_range (p : Pool) (k : Koopa2) (num : Int)
    (hb : k.border = -10) (hm : k.x % 256 = 0) (h0 : -10 ≤ shr k.x 8) (h1 : shr k.x 8 ≤ 200) :
    (koopa2_left p k num).2.1.border = -10 ∧ (koopa2_left p k num).2.1.x % 256 = 0 ∧
    -10 ≤ shr (koopa2_left p k num).2.1.x 8 ∧ shr (koopa2_left p k num).2.1.x 8 ≤ 200 := by
  rw [koopa2_left_actor]
  rw [shr8_eq] at h0 h1
  by_cases hc : shr k.x 8 = k.border
  · rw [if_pos hc]
    simp only [shr8_eq, shl]
    refine ⟨hb, ?_, ?_, ?_⟩ <;> norm_num
  · rw [if_neg hc]
    rw [shr8_eq, hb] at hc
    simp only [shr8_eq]
    refine ⟨hb, ?_, ?_, ?_⟩ <;> omega

/-- Whatever a sequence of calls returns satisfies the range invariant, if the
state it starts from does. -/
theorem koopa2_run_range (fuel : Nat) (mapBack : Int → Nat) (w h : Int)
    (ops : List Koopa2Op) :
    ∀ (p : Pool) (k : Koopa2) (r : Pool × Koopa2),
      k.border = -10 → k.x % 256 = 0 → -10 ≤ shr k.x 8 → shr k.x 8 ≤ 200 →
      koopa2_run fuel mapBack w h p k ops = some r →
      r.2.border = -10 ∧ r.2.x % 256 = 0 ∧ -10 ≤ shr r.2.x 8 ∧ shr r.2.x 8 ≤ 200 := by
  induction ops with
  | nil =>
    intro p k r hb hm h0 h1 hr
    simp only [koopa2_run] at hr
    cases hr
    exact ⟨hb, hm, h0, h1⟩
  | cons op rest ih =>
    intro p k r hb hm h0 h1 hr
    cases op with
    | left num =>
      simp only [koopa2_run] at hr
      obtain ⟨a, b, c, d⟩ := koopa2_left_range p k num hb hm h0 h1
      exact ih _ _ r a b c d hr
    | update koopa xscroll =>
      simp only [koopa2_run] at hr
      cases hu : koopa2_update fuel mapBack w h p koopa k xscroll with
      | none => rw [hu] at hr; cases hr
      | some u =>
        rw [hu] at hr
        obtain ⟨tile, _, e⟩ := koopa2_update_some fuel mapBack w h p koopa k xscroll u hu
        obtain ⟨ex, eb⟩ := update2_x_border k tile
        rw [← e] at ex eb
        exact ih u.1 u.2 r (by rw [eb]; exact hb) (by rw [ex]; exact hm)
          (by rw [ex]; exact h0) (by rw [ex]; exact h1) hr
    | stop =>
      simp only [koopa2_run] at hr
      exact ih (koopa2_stop p k).1 (koopa2_stop p k).2 r hb hm h0 h1 hr

/-- With positive map dimensions every sequence of calls returns, given enough
fuel. -/
theorem koopa2_run_returns (mapBack : Int → Nat) (w h : Int) (hw : 0 < w) (hh : 0 < h)
    (ops : List Koopa2Op) :
    ∀ k : Koopa2, ∃ N : Nat, ∀ (p : Pool) (fuel : Nat), N ≤ fuel →
      ∃ r : Pool × Koopa2, koopa2_run fuel mapBack w h p k ops = some r := by
  induction ops with
  | nil => intro k; exact ⟨0, fun p fuel _ => ⟨(p, k), rfl⟩⟩
  | cons op rest ih =>
    intro k
    cases op with
    | left num =>
      obtain ⟨N, hN⟩ := ih (if shr k.x 8 = k.border then
        { k with move := 1 + num, x := shl 100 9 }
        else { k with move := 1 + num, x := k.x - 256 })
      refine ⟨N, fun p fuel hf => ?_⟩
      simp only [koopa2_run]
      rw [koopa2_left_actor]
      exact hN _ fuel hf
    | update koopa xscroll =>
      obtain ⟨N1, tile, h1⟩ := koopa2_update_returns mapBack w h hw hh koopa k xscroll
      obtain ⟨N2, h2⟩ := ih (k.integrate.ground tile).animate
      refine ⟨max N1 N2, fun p fuel hf => ?_⟩
      obtain ⟨_, q, hq⟩ := h1 p fuel (le_trans (le_max_left _ _) hf)
      simp only [koopa2_run, hq]
      exact h2 q fuel (le_trans (le_max_right _ _) hf)
    | stop =>
      obtain ⟨N, hN⟩ := ih { k with move := 0, frame := 0, counter := 7 }
      refine ⟨N, fun p fuel hf => ?_⟩
      simp only [koopa2_run]
      rw [koopa2_stop_actor]
      exact hN _ fuel hf

theorem koopa2_init_state (p : Pool) :
    (koopa2_init p).2.border = -10 ∧ (koopa2_init p).2.x % 256 = 0 ∧
    -10 ≤ shr (koopa2_init p).2.x 8 ∧ shr (koopa2_init p).2.x 8 ≤ 200 := by
  simp only [koopa2_init, shr8_eq, shl]
  refine ⟨trivial, ?_, ?_, ?_⟩ <;> norm_num

/-- C21. The secondary actor stays in a bounded horizontal range.  From the
state produced by `koopa2_init` (`x = 100<<8`, `border = -10`), over a map with
positive dimensions, every finite sequence of `koopa2_left` (with any speed
argument), `koopa2_update` and `koopa2_stop` calls returns, and afterwards `x`
is a multiple of 256 with `-10 <= (x >> 8) <= 200`; the actor is never beyond
its border, so the next `koopa2_left` either finds `(x >> 8) == border` and
sets `x` to `100<<9`, or finds `(x >> 8) > border` and moves one pixel left. -/
theorem koopa2_stays_in_range (mapBack : Int → Nat) (w h : Int) (hw : 0 < w) (hh : 0 < h)
    (p : Pool) (ops : List Koopa2Op) :
    ∃ N : Nat, ∀ fuel : Nat, N ≤ fuel → ∃ r : Pool × Koopa2,
      koopa2_run fuel mapBack w h (koopa2_init p).1 (koopa2_init p).2 ops = some r ∧
      r.2.x % 256 = 0 ∧ -10 ≤ shr r.2.x 8 ∧ shr r.2.x 8 ≤ 200 ∧ r.2.border = -10 ∧
      ∀ num : Int,
        (shr r.2.x 8 = r.2.border → (koopa2_left r.1 r.2 num).2.1.x = shl 100 9) ∧
        (shr r.2.x 8 ≠ r.2.border →
          r.2.border < shr r.2.x 8 ∧ (koopa2_left r.1 r.2 num).2.1.x = r.2.x - 256) := by
  obtain ⟨N, hN⟩ := koopa2_run_returns mapBack w h hw hh ops (koopa2_init p).2
  refine ⟨N, fun fuel hf => ?_⟩
  obtain ⟨r, hr⟩ := hN (koopa2_init p).1 fuel hf
  obtain ⟨i1, i2, i3, i4⟩ := koopa2_init_state p
  obtain ⟨a, b, c, d⟩ := koopa2_run_range fuel mapBack w h ops _ _ r i1 i2 i3 i4 hr
  refine ⟨r, hr, b, c, d, a, fun num => ⟨?_, ?_⟩⟩
  · intro hc
    rw [koopa2_left_actor, if_pos hc]
  · intro hc
    rw [koopa2_left_actor, if_neg hc]
    refine ⟨?_, rfl⟩
    rw [a] at hc ⊢
    omega

set_option maxRecDepth 100000 in
/-- Witness of C21: a mixed sequence of calls from the start of a round over a
4 x 3 map of tiles 600; and 110 calls of `koopa2_left` take the actor from
pixel 100 to its border -10, where the 111th call sets `x` to `100<<9`. -/
theorem koopa2_stays_in_range_witness :
    (0 : Int) < 4 ∧ (0 : Int) < 3 ∧
    (∃ N : Nat, ∀ fuel : Nat, N ≤ fuel → ∃ r : Pool × Koopa2,
      koopa2_run fuel (fun _ => 600) 4 3 (koopa2_init start_koopa.1).1
        (koopa2_init start_koopa.1).2
        [.left 3, .update start_koopa.2 0, .stop, .left 1] = some r ∧
      r.2.x % 256 = 0 ∧ -10 ≤ shr r.2.x 8 ∧ shr r.2.x 8 ≤ 200) ∧
    (koopa2_run 0 (fun _ => 600) 4 3 start_koopa2.1 start_koopa2.2
      (List.replicate 110 (.left 2))).map (fun r => r.2.x) = some (-2560) ∧
    (koopa2_run 0 (fun _ => 600) 4 3 start_koopa2.1 start_koopa2.2
      (List.replicate 111 (.left 2))).map (fun r => r.2.x) = some 51200 := by
  obtain ⟨N, hN⟩ := koopa2_stays_in_range (fun _ => 600) 4 3 (by decide) (by decide)
    start_koopa.1 [.left 3, .update start_koopa.2 0, .stop, .left 1]
  refine ⟨by decide, by decide, ⟨N, fun fuel hf => ?_⟩, by decide, by decide⟩
  obtain ⟨r, h1, h2, h3, h4, _⟩ := hN fuel hf
  exact ⟨r, h1, h2, h3, h4⟩

/-! ## The two ground-contact predicates -/

theorem animate2_falling (k : Koopa2) : k.animate.falling = k.falling := by
  unfold Koopa2.animate
  split_ifs <;> rfl

theorem ground_falling_iff (k : Koopa) (t : Nat) : (k.ground t).falling = 0 ↔ t > 510 := by
  unfold Koopa.ground
  by_cases ht : t > 510
  · simp [ht]
  · simp [ht]

theorem ground2_falling_iff (k : Koopa2) (t : Nat) :
    (k.ground t).falling = 0 ↔ ((t ≥ 1 ∧ t ≤ 6) ∨ (t ≥ 12 ∧ t ≤ 17) ∨ t ≤ 0x022b) := by
  unfold Koopa2.ground
  by_cases ht : (t ≥ 1 ∧ t ≤ 6) ∨ (t ≥ 12 ∧ t ≤ 17) ∨ t ≤ 0x022b
  · rw [if_pos ht]
    exact ⟨fun _ => ht, fun _ => rfl⟩
  · rw [if_neg ht]
    exact ⟨fun h => absurd (show (1 : Int) = 0 from h) (by decide), fun h => absurd h ht⟩

/-- C22. Relation between the two ground-contact predicates.  Over a map of
positive dimensions whose tiles all have the index `t`, both updates return;
the secondary actor's test `(1 <= t <= 6) or (12 <= t <= 17) or t <= 0x22b` is
equivalent to `t <= 555` and grounds the secondary actor exactly then; the
primary actor is grounded exactly when `t > 510`; so every `t` grounds at least
one of the two actors, and it grounds both exactly when `511 <= t <= 555`. -/
theorem ground_predicates_related (t : Nat) (w h : Int) (hw : 0 < w) (hh : 0 < h)
    (p : Pool) (koopa : Koopa) (koopa2 : Koopa2) (xscroll : Int) :
    (((t ≥ 1 ∧ t ≤ 6) ∨ (t ≥ 12 ∧ t ≤ 17) ∨ t ≤ 0x022b) ↔ t ≤ 555) ∧
    ∃ N : Nat, ∀ fuel : Nat, N ≤ fuel → ∃ (r1 : Pool × Koopa) (r2 : Pool × Koopa2),
      koopa_update fuel (fun _ => t) w h p koopa koopa2 xscroll = some r1 ∧
      koopa2_update fuel (fun _ => t) w h p koopa koopa2 xscroll = some r2 ∧
      (r1.2.falling = 0 ↔ t > 510) ∧
      (r2.2.falling = 0 ↔ t ≤ 555) ∧
      (r1.2.falling = 0 ∨ r2.2.falling = 0) ∧
      ((r1.2.falling = 0 ∧ r2.2.falling = 0) ↔ (511 ≤ t ∧ t ≤ 555)) := by
  have hp : ((t ≥ 1 ∧ t ≤ 6) ∨ (t ≥ 12 ∧ t ≤ 17) ∨ t ≤ 0x022b) ↔ t ≤ 555 := by
    constructor
    · intro h
      rcases h with h | h | h <;> omega
    · intro h
      exact Or.inr (Or.inr h)
  refine ⟨hp, ?_⟩
  obtain ⟨N1, t1, h1⟩ := koopa_update_returns (fun _ => t) w h hw hh koopa koopa2 xscroll
  obtain ⟨N2, t2, h2⟩ := koopa2_update_returns (fun _ => t) w h hw hh koopa koopa2 xscroll
  refine ⟨max N1 N2, fun fuel hf => ?_⟩
  obtain ⟨p1, q1, hq1⟩ := h1 p fuel (le_trans (le_max_left _ _) hf)
  obtain ⟨p2, q2, hq2⟩ := h2 p fuel (le_trans (le_max_right _ _) hf)
  obtain ⟨i1, e1⟩ := tile_lookup_entry _ _ _ _ _ _ _ _ _ p1
  obtain ⟨i2, e2⟩ := tile_lookup_entry _ _ _ _ _ _ _ _ _ p2
  have e1' : t1 = t := e1
  have e2' : t2 = t := e2
  rw [e1'] at hq1
  rw [e2'] at hq2
  have a1 : ((koopa.integrate.ground t).animate).falling = 0 ↔ t > 510 := by
    rw [animate_falling]
    exact ground_falling_iff _ _
  have a2 : ((koopa2.integrate.ground t).animate).falling = 0 ↔ t ≤ 555 := by
    rw [animate2_falling]
    exact (ground2_falling_iff _ _).trans hp
  refine ⟨_, _, hq1, hq2, a1, a2, ?_, ?_⟩
  · by_cases c : t > 510
    · exact Or.inl (a1.mpr c)
    · exact Or.inr (a2.mpr (by omega))
  · constructor
    · rintro ⟨b1, b2⟩
      have := a1.mp b1
      have := a2.mp b2
      omega
    · rintro ⟨b1, b2⟩
      exact ⟨a1.mpr (by omega), a2.mpr b2⟩

/-- Witness of C22: tile 530 grounds both actors at the start of a round. -/
theorem ground_predicates_related_witness :
    (0 : Int) < 4 ∧ (0 : Int) < 3 ∧
    ∃ N : Nat, ∀ fuel : Nat, N ≤ fuel → ∃ (r1 : Pool × Koopa) (r2 : Pool × Koopa2),
      koopa_update fuel (fun _ => 530) 4 3 start_koopa2.1 start_koopa.2 start_koopa2.2 0
        = some r1 ∧
      koopa2_update fuel (fun _ => 530) 4 3 start_koopa2.1 start_koopa.2 start_koopa2.2 0
        = some r2 ∧
      r1.2.falling = 0 ∧ r2.2.falling = 0 := by
  obtain ⟨_, N, hN⟩ := ground_predicates_related 530 4 3 (by decide) (by decide)
    start_koopa2.1 start_koopa.2 start_koopa2.2 0
  refine ⟨by decide, by decide, N, fun fuel hf => ?_⟩
  obtain ⟨r1, r2, h1, h2, _, _, _, h6⟩ := hN fuel hf
  exact ⟨r1, r2, h1, h2, h6.mpr ⟨by decide, by decide⟩⟩

/-! ## Animation frame invariant -/

theorem update_sprites_same (p : Pool) (i : Int) (f : Sprite → Sprite) :
    (p.update i f).sprites i = f (p.sprites i) := by
  simp [Pool.update, Pool.store]

theorem sprite_position_attribute2 (s : Sprite) (x y : Int) :
    (sprite_position s x y).attribute2 = s.attribute2 := rfl

theorem set_offset_field (s : Sprite) (offset : Int) :
    (((sprite_set_offset s offset).attribute2 &&& 0x3ff : Nat) : Int) = offset % 1024 := by
  have h : (sprite_set_offset s offset).attribute2 &&& 0x3ff = (offset % 1024).toNat := by
    apply Nat.eq_of_testBit_eq
    intro j
    have h1 : (0x3ff : Nat) = 2 ^ 10 - 1 := by norm_num
    rw [Nat.testBit_and, sprite_set_offset_testBit, h1, Nat.testBit_two_pow_sub_one]
    by_cases hj : j < 10
    · simp [hj]
    · have hb : (offset % 1024).toNat.testBit j = false :=
        testBit_of_lt _ 10 j (by norm_num; omega) (by omega)
      simp [hj, hb]
  rw [h]
  omega

theorem koopa_update_eq_tail (fuel : Nat) (mapBack : Int → Nat) (w h : Int) (p : Pool)
    (koopa : Koopa) (koopa2 : Koopa2) (xscroll : Int) (r : Pool × Koopa)
    (hr : koopa_update fuel mapBack w h p koopa koopa2 xscroll = some r) :
    ∃ tile : Nat, r = koopa_update_tail p (koopa.integrate.ground tile) := by
  cases h1 : tile_lookup fuel (shr koopa.integrate.x 8 + 8) (shr koopa.integrate.y 8 + 32)
      xscroll 0 mapBack w h with
  | none =>
    unfold Koopa.integrate at h1
    simp only [koopa_update, h1] at hr
    cases hr
  | some tile =>
    cases h2 : tile_lookup fuel (shr koopa2.x 8 + 8) (shr koopa2.y 8 + 32) xscroll 0
        mapBack w h with
    | none =>
      unfold Koopa.integrate at h1
      simp only [koopa_update, h1, h2] at hr
      cases hr
    | some tile2 =>
      unfold Koopa.integrate at h1
      simp only [koopa_update, h1, h2] at hr
      refine ⟨tile, ?_⟩
      cases hr
      rfl

theorem ground_frame_sprite (k : Koopa) (tile : Nat) :
    (k.integrate.ground tile).frame = k.frame ∧ (k.integrate.ground tile).sprite = k.sprite := by
  unfold Koopa.ground Koopa.integrate
  constructor <;> split_ifs <;> rfl

/-- The animation block and the call of `sprite_position` keep the invariant. -/
theorem tail_keeps_invariant (p : Pool) (k : Koopa) (hinv : frame_invariant p k) :
    frame_invariant (koopa_update_tail p k).1 (koopa_update_tail p k).2 := by
  obtain ⟨hf, ho⟩ := hinv
  unfold koopa_update_tail
  by_cases hm : k.move ≠ 0
  · by_cases hc : k.counter + 1 ≥ k.animation_delay
    · rcases hf with hf | hf
      · have h16 : ¬ k.frame + 16 > 16 := by omega
        simp only [if_pos hm, if_pos hc, if_neg h16]
        refine ⟨Or.inr (by simp [hf]), ?_⟩
        simp only [update_sprites_same, sprite_position_attribute2]
        rw [set_offset_field, hf]
        rfl
      · have h16 : k.frame + 16 > 16 := by omega
        simp only [if_pos hm, if_pos hc, if_pos h16]
        refine ⟨Or.inl rfl, ?_⟩
        simp only [update_sprites_same, sprite_position_attribute2]
        rw [set_offset_field]
        rfl
    · simp only [if_pos hm, if_neg hc]
      refine ⟨hf, ?_⟩
      simp only [update_sprites_same, sprite_position_attribute2]
      exact ho
  · simp only [if_neg hm]
    refine ⟨hf, ?_⟩
    simp only [update_sprites_same, sprite_position_attribute2]
    exact ho

theorem init_invariant (p : Pool) : frame_invariant (koopa_init p).1 (koopa_init p).2 := by
  refine ⟨Or.inl rfl, ?_⟩
  have e : ((koopa_init p).1.sprites (koopa_init p).2.sprite).attribute2
      = toU16 (Int.lor (Int.lor (((0 : Nat) : Int)) (shl (((0 : Nat) : Int)) 10)) (shl 0 12)) := by
    simp [koopa_init, sprite_init, Pool.store]
  rw [e, word2_eq 0 0 (by decide) (by decide)]
  rfl

theorem left_invariant (p : Pool) (k : Koopa) (hinv : frame_invariant p k) :
    frame_invariant (koopa_left p k).1 (koopa_left p k).2.1 := by
  have e : koopa_left p k
      = (p.update k.sprite (fun s => sprite_set_horizontal_flip s 1),
          if shr k.x 8 < k.border then ({ k with move := 1 }, 1)
          else ({ k with move := 1, x := k.x - 256 }, 0)) := by
    unfold koopa_left
    by_cases hc : shr k.x 8 < k.border
    · simp only [if_pos hc]
    · simp only [if_neg hc]
  obtain ⟨hf, ho⟩ := hinv
  rw [e]
  by_cases hc : shr k.x 8 < k.border
  · rw [if_pos hc]
    refine ⟨hf, ?_⟩
    show ((((p.update k.sprite (fun s => sprite_set_horizontal_flip s 1)).sprites
      k.sprite).attribute2 &&& 0x3ff : Nat) : Int) = k.frame
    rw [update_sprites_same, (hflip_others _ _).2.1]
    exact ho
  · rw [if_neg hc]
    refine ⟨hf, ?_⟩
    show ((((p.update k.sprite (fun s => sprite_set_horizontal_flip s 1)).sprites
      k.sprite).attribute2 &&& 0x3ff : Nat) : Int) = k.frame
    rw [update_sprites_same, (hflip_others _ _).2.1]
    exact ho

theorem right_invariant (p : Pool) (k : Koopa) (hinv : frame_invariant p k) :
    frame_invariant (koopa_right p k).1 (koopa_right p k).2.1 := by
  have e : koopa_right p k
      = (p.update k.sprite (fun s => sprite_set_horizontal_flip s 0),
          if shr k.x 8 > SCREEN_WIDTH - 16 - k.border then ({ k with move := 1 }, 1)
          else ({ k with move := 1, x := k.x + 256 }, 0)) := by
    unfold koopa_right
    by_cases hc : shr k.x 8 > SCREEN_WIDTH - 16 - k.border
    · simp only [if_pos hc]
    · simp only [if_neg hc]
  obtain ⟨hf, ho⟩ := hinv
  rw [e]
  by_cases hc : shr k.x 8 > SCREEN_WIDTH - 16 - k.border
  · rw [if_pos hc]
    refine ⟨hf, ?_⟩
    show ((((p.update k.sprite (fun s => sprite_set_horizontal_flip s 0)).sprites
      k.sprite).attribute2 &&& 0x3ff : Nat) : Int) = k.frame
    rw [update_sprites_same, (hflip_others _ _).2.1]
    exact ho
  · rw [if_neg hc]
    refine ⟨hf, ?_⟩
    show ((((p.update k.sprite (fun s => sprite_set_horizontal_flip s 0)).sprites
      k.sprite).attribute2 &&& 0x3ff : Nat) : Int) = k.frame
    rw [update_sprites_same, (hflip_others _ _).2.1]
    exact ho

theorem stop_invariant (p : Pool) (k : Koopa) :
    frame_invariant (koopa_stop p k).1 (koopa_stop p k).2 := by
  refine ⟨Or.inl rfl, ?_⟩
  show ((((p.update k.sprite (fun s => sprite_set_offset s 0)).sprites
    k.sprite).attribute2 &&& 0x3ff : Nat) : Int) = 0
  rw [update_sprites_same, set_offset_field]
  rfl

theorem jump_invariant (p : Pool) (k : Koopa) (hinv : frame_invariant p k) :
    frame_invariant p (koopa_jump k) := by
  unfold koopa_jump
  split_ifs
  · exact hinv
  · exact hinv

theorem update_invariant (fuel : Nat) (mapBack : Int → Nat) (w h : Int) (p : Pool)
    (k : Koopa) (k2 : Koopa2) (xscroll : Int) (r : Pool × Koopa)
    (hinv : frame_invariant p k)
    (hr : koopa_update fuel mapBack w h p k k2 xscroll = some r) :
    frame_invariant r.1 r.2 := by
  obtain ⟨tile, e⟩ := koopa_update_eq_tail fuel mapBack w h p k k2 xscroll r hr
  rw [e]
  apply tail_keeps_invariant
  obtain ⟨hf, ho⟩ := hinv
  obtain ⟨g1, g2⟩ := ground_frame_sprite k tile
  exact ⟨by rw [g1]; exact hf, by rw [g1, g2]; exact ho⟩

/-- C23. Animation frame invariant of the primary actor: `frame` is 0 or 16 and
the tile offset of its sprite (`attribute2 & 0x3ff`) equals `frame`.  It holds
in the state produced by `koopa_init` on any pool, and from any state in which
it holds it is kept by `koopa_left`, `koopa_right`, `koopa_stop`, `koopa_jump`
and by every `koopa_update` that returns, for any animation delay, scroll and
tile map; over a map with positive dimensions the update does return. -/
theorem frame_invariant_preserved (mapBack : Int → Nat) (w h : Int) (hw : 0 < w) (hh : 0 < h)
    (p0 p : Pool) (k : Koopa) (k2 : Koopa2) (xscroll : Int) (hinv : frame_invariant p k) :
    frame_invariant (koopa_init p0).1 (koopa_init p0).2 ∧
    frame_invariant (koopa_left p k).1 (koopa_left p k).2.1 ∧
    frame_invariant (koopa_right p k).1 (koopa_right p k).2.1 ∧
    frame_invariant (koopa_stop p k).1 (koopa_stop p k).2 ∧
    frame_invariant p (koopa_jump k) ∧
    (∀ (fuel : Nat) (r : Pool × Koopa),
      koopa_update fuel mapBack w h p k k2 xscroll = some r → frame_invariant r.1 r.2) ∧
    ∃ N : Nat, ∀ fuel : Nat, N ≤ fuel → ∃ r : Pool × Koopa,
      koopa_update fuel mapBack w h p k k2 xscroll = some r ∧ frame_invariant r.1 r.2 := by
  refine ⟨init_invariant p0, left_invariant p k hinv, right_invariant p k hinv,
    stop_invariant p k, jump_invariant p k hinv,
    fun fuel r hr => update_invariant fuel mapBack w h p k k2 xscroll r hinv hr, ?_⟩
  obtain ⟨N, tile, hN⟩ := koopa_update_returns mapBack w h hw hh k k2 xscroll
  refine ⟨N, fun fuel hf => ?_⟩
  obtain ⟨_, q, hq⟩ := hN p fuel hf
  exact ⟨_, hq, update_invariant fuel mapBack w h p k k2 xscroll _ hinv hq⟩

set_option maxRecDepth 100000 in
/-- Witness of C23: the primary actor at the start of a round, after
`koopa2_init` has taken the next slot, over a 4 x 3 map of tiles 600. -/
theorem frame_invariant_preserved_witness :
    (0 : Int) < 4 ∧ (0 : Int) < 3 ∧ frame_invariant start_koopa2.1 start_koopa.2 ∧
    frame_invariant (koopa_left start_koopa2.1 start_koopa.2).1
      (koopa_left start_koopa2.1 start_koopa.2).2.1 ∧
    frame_invariant (koopa_stop start_koopa2.1 start_koopa.2).1
      (koopa_stop start_koopa2.1 start_koopa.2).2 ∧
    ∃ N : Nat, ∀ fuel : Nat, N ≤ fuel → ∃ r : Pool × Koopa,
      koopa_update fuel (fun _ => 600) 4 3 start_koopa2.1 start_koopa.2 start_koopa2.2 0
        = some r ∧ frame_invariant r.1 r.2 :=
  ⟨by decide, by decide, by decide,
    (frame_invariant_preserved (fun _ => 600) 4 3 (by decide) (by decide) start_pool
      start_koopa2.1 start_koopa.2 start_koopa2.2 0 (by decide)).2.1,
    (frame_invariant_preserved (fun _ => 600) 4 3 (by decide) (by decide) start_pool
      start_koopa2.1 start_koopa.2 start_koopa2.2 0 (by decide)).2.2.2.1,
    (frame_invariant_preserved (fun _ => 600) 4 3 (by decide) (by decide) start_pool
      start_koopa2.1 start_koopa.2 start_koopa2.2 0 (by decide)).2.2.2.2.2.2⟩

end Trex
